import Mathlib

/-! # DualRasterizer: the software rasterization pipeline

A shallow embedding of `source/SoftwareRenderer.cpp` (with the helpers of
`source/MathHelpers.h`, the enumerations of `source/DataTypes.h` and the
sampling of `source/Texture.cpp`), and the properties of its dispatch,
rasterization, depth-test and shading stages.

Conventions of the embedding.

* `float` values are read in two ways. In the first they are exact rationals
  (`ℚ`): there is no rounding, no infinity and no NaN, and a division by zero
  yields `0`. The control flow of the renderer, and the properties that are
  conditions on values the code itself computes, are stated in this reading.
  In the second (`roundFloat`, `Binary32` and the definitions whose name ends
  in `32`) the lines of the scan loop are computed in binary32: each operation
  is rounded to the nearest value, ties to even, and a division by zero gives
  an infinity or a NaN. What the depth test, the cull flags and the
  interpolation do with a rounded value or a NaN is settled in this reading.
* A `Mesh` is a triangle list: the class initialises its private member
  `m_PrimitiveTopology` to `TriangleList` and never assigns it. The model keeps
  the member, since `Render` switches on it.
* The `unsigned int` and `int` counters of the dispatch are natural numbers.
  The `size_t` subtraction `indices.size() - 2` wraps modulo `2^64` and the
  conversion `static_cast<int>(size_t)` is the 32-bit two's complement one,
  because short index buffers do reach these.
* A read outside a `std::vector` is a fault: the functions that read the index
  and vertex arrays return an `Option`, `none` being the fault.
* The `const` methods of the renderer read its members (`SoftwareRenderer`) and
  store into the two arrays it points to (`Buffers`).
* The worker threads of the Async and Parallel modes are run one after the
  other, in launch order. What two of them may do to one entry of a buffer at
  the same time is read off the loads and stores of the loop body
  (`pixelAccesses`).
-/

namespace dae

/-! ## Enumerations (`DataTypes.h`, `SoftwareRenderer.h`) -/

/-- The enumeration `PrimitiveTopology` of `DataTypes.h`. -/
inductive PrimitiveTopology where
  | TriangleList
  | TriangleStrip
deriving DecidableEq, Repr

/-- The enumeration `CullMode` of `DataTypes.h`. -/
inductive CullMode where
  | Back
  | Front
  | None
deriving DecidableEq, Repr

/-- The enumeration `ThreadMode` of `DataTypes.h`. -/
inductive ThreadMode where
  | Synchronous
  | Async
  | Parallel
deriving DecidableEq, Repr

/-- The enumeration `SoftwareRenderer::LightingMode`. -/
inductive LightingMode where
  | Combined
  | ObservedArea
  | Diffuse
  | Specular
deriving DecidableEq, Repr

/-! ## Dispatch: which triangles `Render` hands to `RenderTriangle` -/

/-- One invocation `RenderTriangle(.., curVertexIdx, swapVertices)`. -/
structure Call where
  curVertexIdx : Nat
  swapVertices : Bool
deriving DecidableEq, Repr

/-- The values taken by `t` in `for (t = start; t < stop; t += step)`, the
first argument bounding the number of iterations. -/
def forRange (stop step : Nat) : Nat → Nat → List Nat
  | 0, _ => []
  | fuel + 1, t => if t < stop then t :: forRange stop step fuel (t + step) else []

/-- The `size_t` expression `indices.size() - 2`, which wraps around for
fewer than two indices. -/
def sizeMinusTwo (size : Nat) : Nat := (size + 2 ^ 64 - 2) % 2 ^ 64

/-- The conversion `static_cast<int>(n)` of a `size_t`. -/
def castInt (n : Nat) : Int :=
  if n % 2 ^ 32 < 2 ^ 31 then ((n % 2 ^ 32 : Nat) : Int) else ((n % 2 ^ 32 : Nat) : Int) - 2 ^ 32

/-- Triangle list, `ThreadMode::Synchronous`: the loop of lines 72-75. -/
def syncListCalls (size : Nat) : List Call :=
  (forRange size 3 size 0).map fun curStartVertexIdx => ⟨curStartVertexIdx, false⟩

/-- Triangle list, `ThreadMode::Async`: the body of one task (lines 92-99),
started with `curTriangleIdx` and `taskSize`. -/
def asyncListTask (size curTriangleIdx taskSize : Nat) : List Call :=
  let endTriangleIdx := curTriangleIdx + taskSize * 3
  ((forRange endTriangleIdx 3 (taskSize * 3) curTriangleIdx).filter
    fun triangleIdx => decide (triangleIdx + 2 < size)).map
    fun triangleIdx => ⟨triangleIdx, false⟩

/-- Triangle list, `ThreadMode::Async`: the loop over the cores (lines 81-103);
the arguments are the cores still to launch, `remainingTriangles` and
`curTriangleIdx`. -/
def asyncListCores (size trianglesPerTask : Nat) : Nat → Nat → Nat → List Call
  | 0, _, _ => []
  | cores + 1, remainingTriangles, curTriangleIdx =>
    let taskSize := if remainingTriangles > 0 then trianglesPerTask + 1 else trianglesPerTask
    let remainingTriangles' := if remainingTriangles > 0 then remainingTriangles - 1 else remainingTriangles
    asyncListTask size curTriangleIdx taskSize ++
      asyncListCores size trianglesPerTask cores remainingTriangles' (curTriangleIdx + taskSize * 3)

/-- Triangle list, `ThreadMode::Async` (lines 78-107). -/
def asyncListCalls (size nrCores : Nat) : List Call :=
  let trianglesPerTask := size / (3 * nrCores)
  let remainingTriangles := size % (3 * nrCores)
  asyncListCores size trianglesPerTask nrCores remainingTriangles 0

/-- Triangle list, `ThreadMode::Parallel` (lines 111-115). -/
def parallelListCalls (size : Nat) : List Call :=
  (List.range (castInt (size / 3)).toNat).map fun i => ⟨i * 3, false⟩

/-- Triangle strip, `ThreadMode::Synchronous` (lines 124-127). -/
def syncStripCalls (size : Nat) : List Call :=
  (forRange (sizeMinusTwo size) 1 (sizeMinusTwo size) 0).map
    fun curStartVertexIdx => ⟨curStartVertexIdx, decide (curStartVertexIdx % 2 ≠ 0)⟩

/-- Triangle strip, `ThreadMode::Async`: the body of one task (lines 144-151). -/
def asyncStripTask (size curTriangleIdx taskSize : Nat) : List Call :=
  let endTriangleIdx := curTriangleIdx + taskSize
  ((forRange endTriangleIdx 1 taskSize curTriangleIdx).filter
    fun triangleIdx => decide (triangleIdx + 2 < size)).map
    fun triangleIdx => ⟨triangleIdx, decide (triangleIdx % 2 ≠ 0)⟩

/-- Triangle strip, `ThreadMode::Async`: the loop over the cores (lines 133-155). -/
def asyncStripCores (size trianglesPerTask : Nat) : Nat → Nat → Nat → List Call
  | 0, _, _ => []
  | cores + 1, remainingTriangles, curTriangleIdx =>
    let taskSize := if remainingTriangles > 0 then trianglesPerTask + 1 else trianglesPerTask
    let remainingTriangles' := if remainingTriangles > 0 then remainingTriangles - 1 else remainingTriangles
    asyncStripTask size curTriangleIdx taskSize ++
      asyncStripCores size trianglesPerTask cores remainingTriangles' (curTriangleIdx + taskSize)

/-- Triangle strip, `ThreadMode::Async` (lines 130-159). -/
def asyncStripCalls (size nrCores : Nat) : List Call :=
  let trianglesPerTask := sizeMinusTwo size / nrCores
  let remainingTriangles := sizeMinusTwo size % nrCores
  asyncStripCores size trianglesPerTask nrCores remainingTriangles 0

/-- Triangle strip, `ThreadMode::Parallel` (lines 163-167). -/
def parallelStripCalls (size : Nat) : List Call :=
  (List.range (castInt (sizeMinusTwo size)).toNat).map fun i => ⟨i, decide (i % 2 ≠ 0)⟩

/-- The invocations of `RenderTriangle` made by the dispatch switch of `Render`
(lines 65-171) for an index buffer of `size` entries on `nrCores` cores. The
Async branches divide by `nrCores`: with no core the division faults. -/
def dispatchCalls (topology : PrimitiveTopology) (mode : ThreadMode) (size nrCores : Nat) :
    Option (List Call) :=
  match topology, mode with
  | .TriangleList, .Synchronous => some (syncListCalls size)
  | .TriangleList, .Async => if nrCores = 0 then none else some (asyncListCalls size nrCores)
  | .TriangleList, .Parallel => some (parallelListCalls size)
  | .TriangleStrip, .Synchronous => some (syncStripCalls size)
  | .TriangleStrip, .Async => if nrCores = 0 then none else some (asyncStripCalls size nrCores)
  | .TriangleStrip, .Parallel => some (parallelStripCalls size)


/-! ## Vectors and colours

`Math.h`, with its vector, matrix and colour classes, and `Utils.h` belong to
the framework the renderer is built on. The few operations the rasterizer
needs are modelled below from the specification; the others are parameters
(`Externals`). -/

/-- The constant `FLT_MAX` of `<cfloat>`: `2^128 - 2^104`. -/
def FLT_MAX : ℚ := 340282346638528859811704183484516925440

/-- The constant `FLT_EPSILON` of `<cfloat>`: `2^-23`. -/
def FLT_EPSILON : ℚ := 1 / 8388608

/-- The conversion `static_cast<int>(f)` of a `float`: truncation toward zero. -/
def truncToInt (q : ℚ) : Int := if 0 ≤ q then ⌊q⌋ else ⌈q⌉

/-- The conversion `static_cast<uint8_t>(f)` of a `float`. -/
def toUint8 (q : ℚ) : Nat := (truncToInt q % 256).toNat

/-- A `Vector2`: two floats. -/
structure Vector2 where
  x : ℚ
  y : ℚ
deriving DecidableEq

/-- A `Vector3`: three floats. -/
structure Vector3 where
  x : ℚ
  y : ℚ
  z : ℚ
deriving DecidableEq

/-- A `Vector4`: four floats. -/
structure Vector4 where
  x : ℚ
  y : ℚ
  z : ℚ
  w : ℚ
deriving DecidableEq

/-- A `ColorRGB`: three floats. -/
structure ColorRGB where
  r : ℚ
  g : ℚ
  b : ℚ
deriving DecidableEq

/-- Modelled from the spec: `Vector2::operator-` (missing with `Math.h`), the
componentwise difference that makes the "edge vectors" of section 4.2. -/
def Vector2.sub (a b : Vector2) : Vector2 := ⟨a.x - b.x, a.y - b.y⟩

instance : Sub Vector2 := ⟨Vector2.sub⟩

/-- Modelled from the spec: `Vector2::Cross` (missing with `Math.h`), the "2-D
cross product of two edge vectors" of section 4.2, a signed area. -/
def Vector2.Cross (a b : Vector2) : ℚ := a.x * b.y - a.y * b.x

/-- Modelled from the spec: `Vector2::Min` (missing with `Math.h`), the lower
corner of the "axis-aligned bounding box" of section 4.2. -/
def Vector2.Min (a b : Vector2) : Vector2 := ⟨min a.x b.x, min a.y b.y⟩

/-- Modelled from the spec: `Vector2::Max` (missing with `Math.h`), the upper
corner of the "axis-aligned bounding box" of section 4.2. -/
def Vector2.Max (a b : Vector2) : Vector2 := ⟨max a.x b.x, max a.y b.y⟩

/-- Modelled from the spec: the product `k * a` of a float and a `Vector2`
(missing with `Math.h`), used in the "weighted sum" of section 4.2 (g). -/
def Vector2.scale (k : ℚ) (a : Vector2) : Vector2 := ⟨k * a.x, k * a.y⟩

/-- Modelled from the spec: the quotient `a / k` of a `Vector2` by a float
(missing with `Math.h`), the "attribute / vertex-w" of section 4.2 (g). -/
def Vector2.divide (a : Vector2) (k : ℚ) : Vector2 := ⟨a.x / k, a.y / k⟩

/-- Modelled from the spec: the product `a * k` of a `Vector2` and a float
(missing with `Math.h`), "multiplied by interpolated w" in section 4.2 (g). -/
def Vector2.times (a : Vector2) (k : ℚ) : Vector2 := ⟨a.x * k, a.y * k⟩

/-- Modelled from the spec: the sum of two `Vector2` (missing with `Math.h`). -/
def Vector2.add (a b : Vector2) : Vector2 := ⟨a.x + b.x, a.y + b.y⟩

instance : Add Vector2 := ⟨Vector2.add⟩

/-- Modelled from the spec: the product `k * a` of a float and a `Vector3`
(missing with `Math.h`). -/
def Vector3.scale (k : ℚ) (a : Vector3) : Vector3 := ⟨k * a.x, k * a.y, k * a.z⟩

/-- Modelled from the spec: the quotient `a / k` of a `Vector3` by a float
(missing with `Math.h`). -/
def Vector3.divide (a : Vector3) (k : ℚ) : Vector3 := ⟨a.x / k, a.y / k, a.z / k⟩

/-- Modelled from the spec: the product `a * k` of a `Vector3` and a float
(missing with `Math.h`). -/
def Vector3.times (a : Vector3) (k : ℚ) : Vector3 := ⟨a.x * k, a.y * k, a.z * k⟩

/-- Modelled from the spec: the sum of two `Vector3` (missing with `Math.h`). -/
def Vector3.add (a b : Vector3) : Vector3 := ⟨a.x + b.x, a.y + b.y, a.z + b.z⟩

instance : Add Vector3 := ⟨Vector3.add⟩

/-- Modelled from the spec: the negation of a `Vector3` (missing with `Math.h`). -/
def Vector3.neg (a : Vector3) : Vector3 := ⟨-a.x, -a.y, -a.z⟩

/-- Modelled from the spec: `Vector3::Dot` (missing with `Math.h`). -/
def Vector3.Dot (a b : Vector3) : ℚ := a.x * b.x + a.y * b.y + a.z * b.z

/-- Modelled from the spec: `Vector3::DotClamped` (missing with `Math.h`), the
"dot product ... clamped to >= 0" of section 4.4. -/
def Vector3.DotClamped (a b : Vector3) : ℚ := max 0 (Vector3.Dot a b)

/-- Modelled from the spec: `Vector3::Cross` (missing with `Math.h`), used for
"binormal = cross(normal, tangent)" in section 4.4. -/
def Vector3.Cross (a b : Vector3) : Vector3 :=
  ⟨a.y * b.z - a.z * b.y, a.z * b.x - a.x * b.z, a.x * b.y - a.y * b.x⟩

/-- Modelled from the spec: the product of a float and a `ColorRGB` (missing
with `Math.h`). -/
def ColorRGB.scale (k : ℚ) (c : ColorRGB) : ColorRGB := ⟨k * c.r, k * c.g, k * c.b⟩

/-- Modelled from the spec: the sum of two `ColorRGB` (missing with `Math.h`). -/
def ColorRGB.add (a b : ColorRGB) : ColorRGB := ⟨a.r + b.r, a.g + b.g, a.b + b.b⟩

instance : Add ColorRGB := ⟨ColorRGB.add⟩

/-- Modelled from the spec: the difference of two `ColorRGB` (missing with `Math.h`). -/
def ColorRGB.sub (a b : ColorRGB) : ColorRGB := ⟨a.r - b.r, a.g - b.g, a.b - b.b⟩

/-- Modelled from the spec: the channelwise product of two `ColorRGB` (missing
with `Math.h`). -/
def ColorRGB.mul (a b : ColorRGB) : ColorRGB := ⟨a.r * b.r, a.g * b.g, a.b * b.b⟩

/-- Modelled from the spec: `ColorRGB::MaxToOne` (missing with `Math.h`): the
colour "is clamped so no channel exceeds 1.0 by uniformly scaling down if any
channel would" (section 4.4). -/
def ColorRGB.MaxToOne (c : ColorRGB) : ColorRGB :=
  let maxValue := max c.r (max c.g c.b)
  if maxValue > 1 then ⟨c.r / maxValue, c.g / maxValue, c.b / maxValue⟩ else c

/-- The structure `Vertex` of `DataTypes.h`. -/
structure Vertex where
  position : Vector3
  normal : Vector3
  tangent : Vector3
  uv : Vector2
  color : ColorRGB
  viewDirection : Vector3
deriving DecidableEq

/-- The structure `Vertex_Out` of `DataTypes.h`. -/
structure Vertex_Out where
  position : Vector4
  normal : Vector3
  tangent : Vector3
  uv : Vector2
  color : ColorRGB
  viewDirection : Vector3
deriving DecidableEq

/-- The default-constructed `Vertex_Out pixelInfo` of line 331. -/
def Vertex_Out.default : Vertex_Out :=
  ⟨⟨0, 0, 0, 0⟩, ⟨0, 0, 0⟩, ⟨0, 0, 0⟩, ⟨0, 0⟩, ⟨1, 1, 1⟩, ⟨0, 0, 0⟩⟩

/-- What the software renderer takes from its collaborators: the library
functions that leave exact arithmetic, the bound textures, the frame's
matrices and the pixel format. -/
structure Externals where
  /-- The method `Vector3::Normalized`. -/
  normalized : Vector3 → Vector3
  /-- The float `1 / PI` of `LightingUtils::Lambert`. -/
  invPi : ℚ
  /-- The function `LightingUtils::Phong(ks, exp, l, v, n)`. -/
  phong : ℚ → ℚ → Vector3 → Vector3 → Vector3 → ColorRGB
  /-- The call `m_pDiffuseTexture->Sample(uv)`. -/
  sampleDiffuse : Vector2 → ColorRGB
  /-- The call `m_pNormalTexture->Sample(uv)`. -/
  sampleNormal : Vector2 → ColorRGB
  /-- The call `m_pSpecularTexture->Sample(uv)`. -/
  sampleSpecular : Vector2 → ColorRGB
  /-- The call `m_pGlossinessTexture->Sample(uv)`. -/
  sampleGlossiness : Vector2 → ColorRGB
  /-- The call `worldViewProjectionMatrix.TransformPoint` of the frame. -/
  transformPoint : Vector4 → Vector4
  /-- The call `worldMatrix.TransformVector` of the frame. -/
  transformVector : Vector3 → Vector3
  /-- The call `SDL_MapRGB(m_pBackBuffer->format, r, g, b)`. -/
  mapRGB : Nat → Nat → Nat → Nat

/-! ## Helpers of `MathHelpers.h` -/

/-- The function `Remap` of `MathHelpers.h`, with `std::clamp(value, min, max)`
spelled out. -/
def Remap (value min max : ℚ) : ℚ :=
  let clamped := if value < min then min else if max < value then max else value
  (clamped - min) / (max - min)

/-! ## The renderer and its buffers -/

/-- The mesh bound to the renderer, as far as the software path reads it. In
`Mesh.h` the topology member is private, has the initialiser `TriangleList` and
is assigned nowhere. -/
structure Mesh where
  m_Vertices : List Vertex
  m_Indices : List Nat
  m_PrimitiveTopology : PrimitiveTopology

/-- A store into one of the two per-pixel buffers. -/
inductive Write where
  /-- The store `m_pDepthBufferPixels[pixelIdx] = value` over `old`. -/
  | depth (pixelIdx : Nat) (old value : ℚ)
  /-- The store `m_pBackBufferPixels[pixelIdx] = value`. -/
  | colour (pixelIdx : Nat) (value : Nat)
deriving DecidableEq

/-- The pixel a store goes to. -/
def Write.pixelIdx : Write → Nat
  | .depth i _ _ => i
  | .colour i _ => i

/-- The two per-pixel arrays the renderer owns, behind the pointers
`m_pBackBufferPixels` and `m_pDepthBufferPixels`. The field `writes` is a
ghost: the stores made by `RenderTriangle` and `PixelShading`, in program
order. -/
structure Buffers where
  backBufferPixels : Nat → Nat
  depthBufferPixels : Nat → ℚ
  writes : List Write

/-- The members of `SoftwareRenderer` the pipeline reads; the `const` methods
leave them alone and only store into the `Buffers`. -/
structure SoftwareRenderer where
  m_Width : Nat
  m_Height : Nat
  m_ThreadMode : ThreadMode
  m_NextMode : ThreadMode
  m_ShowDepthBuffer : Bool
  m_ShowBoundingBox : Bool
  m_ThreadModeChange : Bool
  m_LightingMode : LightingMode
  m_CullMode : CullMode
  m_NormalMapActive : Bool
  m_pMesh : Option Mesh

/-- The store `m_pDepthBufferPixels[pixelIdx] = value`. -/
def Buffers.storeDepth (b : Buffers) (pixelIdx : Nat) (value : ℚ) : Buffers :=
  { b with
    depthBufferPixels := fun i => if i = pixelIdx then value else b.depthBufferPixels i
    writes := b.writes ++ [Write.depth pixelIdx (b.depthBufferPixels pixelIdx) value] }

/-- The store `m_pBackBufferPixels[pixelIdx] = value`. -/
def Buffers.storePixel (b : Buffers) (pixelIdx : Nat) (value : Nat) : Buffers :=
  { b with
    backBufferPixels := fun i => if i = pixelIdx then value else b.backBufferPixels i
    writes := b.writes ++ [Write.colour pixelIdx value] }

/-- The method `SoftwareRenderer::ResetDepthBuffer`: every entry becomes `FLT_MAX`. -/
def ResetDepthBuffer (b : Buffers) : Buffers :=
  { b with depthBufferPixels := fun _ => FLT_MAX }

/-- The grey level `colorValue` of `ClearBackground`. -/
def clearColorValue (useUniformBackground : Bool) : Nat :=
  (truncToInt ((if useUniformBackground then (1 / 10 : ℚ) else 39 / 100) * 255)).toNat

/-- The method `SoftwareRenderer::ClearBackground`: every pixel becomes the
background colour. -/
def ClearBackground (ext : Externals) (useUniformBackground : Bool) (b : Buffers) : Buffers :=
  let colorValue := clearColorValue useUniformBackground
  { b with backBufferPixels := fun _ => ext.mapRGB colorValue colorValue colorValue }

/-- The method `SoftwareRenderer::CalculateNDCToRaster`. -/
def CalculateNDCToRaster (r : SoftwareRenderer) (ndcVertex : Vector4) : Vector2 :=
  ⟨(ndcVertex.x + 1) / 2 * r.m_Width, (1 - ndcVertex.y) / 2 * r.m_Height⟩

/-- The method `SoftwareRenderer::IsOutsideFrustum`. -/
def IsOutsideFrustum (v : Vector4) : Bool :=
  decide (v.x < -1) || decide (v.x > 1) || decide (v.y < -1) || decide (v.y > 1) ||
    decide (v.z < 0) || decide (v.z > 1)

/-- The method `SoftwareRenderer::VertexTransformationFunction`, for one vertex
(lines 220-240). -/
def transformVertex (ext : Externals) (v : Vertex) : Vertex_Out :=
  let position := ext.transformPoint ⟨v.position.x, v.position.y, v.position.z, 1⟩
  let viewDirection := ext.normalized ⟨position.x, position.y, position.z⟩
  { position := ⟨position.x / position.w, position.y / position.w, position.z / position.w,
      position.w⟩
    normal := ext.transformVector v.normal
    tangent := ext.transformVector v.tangent
    uv := v.uv
    color := v.color
    viewDirection := viewDirection }

/-- The method `SoftwareRenderer::VertexTransformationFunction`. -/
def VertexTransformationFunction (ext : Externals) (mesh : Mesh) : List Vertex_Out :=
  mesh.m_Vertices.map (transformVertex ext)

/-! ## Shading stage -/

/-- Modelled from the spec: `LightingUtils::Lambert(kd, cd)` (`Utils.h` is
missing), "diffuse texture sample scaled by 1/pi" (section 4.4). -/
def Lambert (ext : Externals) (kd : ℚ) (cd : ColorRGB) : ColorRGB :=
  ColorRGB.scale (kd * ext.invPi) cd

/-- The light direction of `PixelShading` after `lightDirection.Normalize()`. -/
def lightDirection (ext : Externals) : Vector3 :=
  ext.normalized ⟨577 / 1000, -577 / 1000, 577 / 1000⟩

/-- The constant `lightIntensity` of `PixelShading`. -/
def lightIntensity : ℚ := 7

/-- The constant `specularShininess` of `PixelShading`. -/
def specularShininess : ℚ := 25

/-- The constant `ambientColor` of `PixelShading`. -/
def ambientColor : ColorRGB := ⟨25 / 1000, 25 / 1000, 25 / 1000⟩

/-- The normal `useNormal` of `PixelShading` (lines 422-446). -/
def useNormal (ext : Externals) (r : SoftwareRenderer) (pixelInfo : Vertex_Out) : Vector3 :=
  if r.m_NormalMapActive then
    let binormal := Vector3.Cross pixelInfo.normal pixelInfo.tangent
    let currentNormalMap :=
      ColorRGB.sub (ColorRGB.scale 2 (ext.sampleNormal pixelInfo.uv)) ⟨1, 1, 1⟩
    Vector3.scale currentNormalMap.r pixelInfo.tangent +
      Vector3.scale currentNormalMap.g binormal +
      Vector3.scale currentNormalMap.b pixelInfo.normal
  else pixelInfo.normal

/-- The scalar `observedArea` of `PixelShading` (line 468). -/
def observedArea (ext : Externals) (r : SoftwareRenderer) (pixelInfo : Vertex_Out) : ℚ :=
  Vector3.DotClamped (ext.normalized (useNormal ext r pixelInfo))
    (Vector3.neg (ext.normalized (lightDirection ext)))

/-- The colour `specular` of the Combined and Specular branches of `PixelShading`. -/
def specularColor (ext : Externals) (r : SoftwareRenderer) (pixelInfo : Vertex_Out) : ColorRGB :=
  let specularExp := specularShininess * (ext.sampleGlossiness pixelInfo.uv).r
  ColorRGB.mul (ext.sampleSpecular pixelInfo.uv)
    (ext.phong 1 specularExp (Vector3.neg (lightDirection ext)) pixelInfo.viewDirection
      (useNormal ext r pixelInfo))

/-- The colour `finalColor` of `PixelShading` before `MaxToOne` (lines 455-513). -/
def finalColor (ext : Externals) (r : SoftwareRenderer) (pixelInfo : Vertex_Out) : ColorRGB :=
  let zero : ColorRGB := ⟨0, 0, 0⟩
  if r.m_ShowDepthBuffer then zero + pixelInfo.color
  else
    let area := observedArea ext r pixelInfo
    let lit : ColorRGB :=
      match r.m_LightingMode with
      | .Combined =>
        let lambert := Lambert ext 1 (ext.sampleDiffuse pixelInfo.uv)
        zero + (ColorRGB.scale area
          (ColorRGB.scale lightIntensity lambert + specularColor ext r pixelInfo) + ambientColor)
      | .ObservedArea => zero + ⟨area, area, area⟩
      | .Diffuse =>
        zero + ColorRGB.scale (lightIntensity * area)
          (Lambert ext 1 (ext.sampleDiffuse pixelInfo.uv))
      | .Specular => zero + ColorRGB.scale area (specularColor ext r pixelInfo)
    lit + ambientColor

/-- The value `PixelShading` stores for a pixel (lines 516-521). -/
def shadedPixel (ext : Externals) (r : SoftwareRenderer) (pixelInfo : Vertex_Out) : Nat :=
  let c := (finalColor ext r pixelInfo).MaxToOne
  ext.mapRGB (toUint8 (c.r * 255)) (toUint8 (c.g * 255)) (toUint8 (c.b * 255))

/-- The method `SoftwareRenderer::PixelShading`. -/
def PixelShading (ext : Externals) (r : SoftwareRenderer) (b : Buffers) (pixelIdx : Nat)
    (pixelInfo : Vertex_Out) : Buffers :=
  b.storePixel pixelIdx (shadedPixel ext r pixelInfo)

/-! ## Rasterization stage -/

/-- The three vertices of a triangle once `RenderTriangle` has resolved its
indices: raster coordinates `v0 v1 v2` and transformed vertices `o0 o1 o2`. -/
structure Triangle where
  v0 : Vector2
  v1 : Vector2
  v2 : Vector2
  o0 : Vertex_Out
  o1 : Vertex_Out
  o2 : Vertex_Out

/-- The float `fullTriangleArea` of `RenderTriangle` (lines 266-271). -/
def Triangle.fullTriangleArea (t : Triangle) : ℚ :=
  Vector2.Cross (t.v1 - t.v0) (t.v2 - t.v1)

/-- The pixel centre `curPixel` (line 294). -/
def curPixel (px py : Nat) : Vector2 := ⟨(px : ℚ), (py : ℚ)⟩

/-- The float `edge01PointCross` (line 305). -/
def Triangle.edge01PointCross (t : Triangle) (px py : Nat) : ℚ :=
  Vector2.Cross (t.v1 - t.v0) (curPixel px py - t.v0)

/-- The float `edge12PointCross` (line 306). -/
def Triangle.edge12PointCross (t : Triangle) (px py : Nat) : ℚ :=
  Vector2.Cross (t.v2 - t.v1) (curPixel px py - t.v1)

/-- The float `edge20PointCross` (line 307). -/
def Triangle.edge20PointCross (t : Triangle) (px py : Nat) : ℚ :=
  Vector2.Cross (t.v0 - t.v2) (curPixel px py - t.v2)

/-- The flag `isFrontFaceHit` (line 309). -/
def Triangle.isFrontFaceHit (t : Triangle) (px py : Nat) : Bool :=
  decide (t.edge01PointCross px py ≥ 0) && decide (t.edge12PointCross px py ≥ 0) &&
    decide (t.edge20PointCross px py ≥ 0)

/-- The flag `isBackFaceHit` (line 310). -/
def Triangle.isBackFaceHit (t : Triangle) (px py : Nat) : Bool :=
  decide (t.edge01PointCross px py ≤ 0) && decide (t.edge12PointCross px py ≤ 0) &&
    decide (t.edge20PointCross px py ≤ 0)

/-- The condition of the `continue` of lines 312-314: the pixel fails the cull test. -/
def cullRejects (mode : CullMode) (isFrontFaceHit isBackFaceHit : Bool) : Bool :=
  (decide (mode = CullMode.Back) && !isFrontFaceHit) ||
    (decide (mode = CullMode.Front) && !isBackFaceHit) ||
    (decide (mode = CullMode.None) && !isBackFaceHit && !isFrontFaceHit)

/-- The float `weightV0` (line 317). -/
def Triangle.weightV0 (t : Triangle) (px py : Nat) : ℚ :=
  t.edge12PointCross px py / t.fullTriangleArea

/-- The float `weightV1` (line 318). -/
def Triangle.weightV1 (t : Triangle) (px py : Nat) : ℚ :=
  t.edge20PointCross px py / t.fullTriangleArea

/-- The float `weightV2` (line 319). -/
def Triangle.weightV2 (t : Triangle) (px py : Nat) : ℚ :=
  t.edge01PointCross px py / t.fullTriangleArea

/-- The float `interpolatedZDepth` (line 322). -/
def Triangle.interpolatedZDepth (t : Triangle) (px py : Nat) : ℚ :=
  1 / (t.weightV0 px py / t.o0.position.z + t.weightV1 px py / t.o1.position.z +
    t.weightV2 px py / t.o2.position.z)

/-- The float `interpolatedWDepth` (lines 345-351). -/
def Triangle.interpolatedWDepth (t : Triangle) (px py : Nat) : ℚ :=
  1 / (t.weightV0 px py / t.o0.position.w + t.weightV1 px py / t.o1.position.w +
    t.weightV2 px py / t.o2.position.w)

/-- The perspective-correct `Vector3` attribute of lines 363-390, before
`Normalized`: `(weightV0 * a0 / o0.w + weightV1 * a1 / o1.w + weightV2 * a2 / o2.w) *
interpolatedWDepth`. -/
def Triangle.interpolate3 (t : Triangle) (px py : Nat) (a0 a1 a2 : Vector3) : Vector3 :=
  Vector3.times
    (Vector3.divide (Vector3.scale (t.weightV0 px py) a0) t.o0.position.w +
      Vector3.divide (Vector3.scale (t.weightV1 px py) a1) t.o1.position.w +
      Vector3.divide (Vector3.scale (t.weightV2 px py) a2) t.o2.position.w)
    (t.interpolatedWDepth px py)

/-- The perspective-correct `uv` of lines 354-360. -/
def Triangle.interpolatedUV (t : Triangle) (px py : Nat) : Vector2 :=
  Vector2.times
    (Vector2.divide (Vector2.scale (t.weightV0 px py) t.o0.uv) t.o0.position.w +
      Vector2.divide (Vector2.scale (t.weightV1 px py) t.o1.uv) t.o1.position.w +
      Vector2.divide (Vector2.scale (t.weightV2 px py) t.o2.uv) t.o2.position.w)
    (t.interpolatedWDepth px py)

/-- The `Vertex_Out pixelInfo` that `RenderTriangle` hands to `PixelShading`
(lines 331-392). -/
def Triangle.pixelInfo (ext : Externals) (r : SoftwareRenderer) (t : Triangle) (px py : Nat) :
    Vertex_Out :=
  if r.m_ShowDepthBuffer then
    let depthColor := Remap (t.interpolatedZDepth px py) (997 / 1000) 1
    { Vertex_Out.default with color := ⟨depthColor, depthColor, depthColor⟩ }
  else
    { Vertex_Out.default with
      uv := t.interpolatedUV px py
      normal := ext.normalized (t.interpolate3 px py t.o0.normal t.o1.normal t.o2.normal)
      tangent := ext.normalized (t.interpolate3 px py t.o0.tangent t.o1.tangent t.o2.tangent)
      viewDirection := ext.normalized
        (t.interpolate3 px py t.o0.viewDirection t.o1.viewDirection t.o2.viewDirection) }

/-- The body of the scan loop of `RenderTriangle` for the pixel `(px, py)`
(lines 293-395). -/
def scanPixel (ext : Externals) (r : SoftwareRenderer) (t : Triangle) (b : Buffers)
    (px py : Nat) : Buffers :=
  let pixelIdx := px + py * r.m_Width
  if r.m_ShowBoundingBox then b.storePixel pixelIdx (ext.mapRGB 255 255 255)
  else if cullRejects r.m_CullMode (t.isFrontFaceHit px py) (t.isBackFaceHit px py) then b
  else
    let interpolatedZDepth := t.interpolatedZDepth px py
    if b.depthBufferPixels pixelIdx < interpolatedZDepth then b
    else
      PixelShading ext r (b.storeDepth pixelIdx interpolatedZDepth) (px + py * r.m_Width)
        (t.pixelInfo ext r px py)

/-- The bound `startX` of the scan box (lines 277-284). -/
def Triangle.startX (t : Triangle) : Nat :=
  (max (truncToInt ((Vector2.Min t.v0 (Vector2.Min t.v1 t.v2)).x - 1)) 0).toNat

/-- The bound `startY` of the scan box (line 285). -/
def Triangle.startY (t : Triangle) : Nat :=
  (max (truncToInt ((Vector2.Min t.v0 (Vector2.Min t.v1 t.v2)).y - 1)) 0).toNat

/-- The bound `endX` of the scan box (line 286); a negative bound and `0`
both leave the loop empty, since `startX >= 0`. -/
def Triangle.endX (t : Triangle) (r : SoftwareRenderer) : Nat :=
  (min (truncToInt ((Vector2.Max t.v0 (Vector2.Max t.v1 t.v2)).x + 1)) (r.m_Width : Int)).toNat

/-- The bound `endY` of the scan box (line 287). -/
def Triangle.endY (t : Triangle) (r : SoftwareRenderer) : Nat :=
  (min (truncToInt ((Vector2.Max t.v0 (Vector2.Max t.v1 t.v2)).y + 1)) (r.m_Height : Int)).toNat

/-- The inner loop `for (px = startX; px < endX; ++px)` of line 291. -/
def scanRow (ext : Externals) (r : SoftwareRenderer) (t : Triangle) (b : Buffers)
    (py : Nat) : Buffers :=
  (List.range' t.startX (t.endX r - t.startX)).foldl (fun acc px => scanPixel ext r t acc px py) b

/-- The two scan loops of `RenderTriangle` (lines 289-397). -/
def scanTriangle (ext : Externals) (r : SoftwareRenderer) (t : Triangle) (b : Buffers) : Buffers :=
  (List.range' t.startY (t.endY r - t.startY)).foldl (fun acc py => scanRow ext r t acc py) b

/-- The part of `RenderTriangle` after the vertices are fetched (lines 265-397):
the area test and the scan. In exact arithmetic `isnan` is never true. -/
def rasterize (ext : Externals) (r : SoftwareRenderer) (t : Triangle) (b : Buffers) : Buffers :=
  if |t.fullTriangleArea| < FLT_EPSILON then b else scanTriangle ext r t b

/-- The method `SoftwareRenderer::RenderTriangle`. Reads outside the index,
vertex or raster-coordinate array are faults (`none`); the tests of lines
254-257 are evaluated left to right and stop at the first that holds. -/
def RenderTriangle (ext : Externals) (r : SoftwareRenderer) (b : Buffers)
    (rasterVertices : List Vector2) (verticesOut : List Vertex_Out) (indices : List Nat)
    (curVertexIdx : Nat) (swapVertices : Bool) : Option Buffers :=
  match indices[curVertexIdx]?,
    indices[curVertexIdx + 1 * (!swapVertices).toNat + 2 * swapVertices.toNat]?,
    indices[curVertexIdx + 2 * (!swapVertices).toNat + 1 * swapVertices.toNat]? with
  | some vertexIdx0, some vertexIdx1, some vertexIdx2 =>
    if vertexIdx0 = vertexIdx1 ∨ vertexIdx1 = vertexIdx2 ∨ vertexIdx0 = vertexIdx2 then some b
    else
      match verticesOut[vertexIdx0]? with
      | none => none
      | some o0 =>
        if IsOutsideFrustum o0.position then some b
        else
          match verticesOut[vertexIdx1]? with
          | none => none
          | some o1 =>
            if IsOutsideFrustum o1.position then some b
            else
              match verticesOut[vertexIdx2]? with
              | none => none
              | some o2 =>
                if IsOutsideFrustum o2.position then some b
                else
                  match rasterVertices[vertexIdx0]?, rasterVertices[vertexIdx1]?,
                    rasterVertices[vertexIdx2]? with
                  | some v0, some v1, some v2 =>
                    some (rasterize ext r ⟨v0, v1, v2, o0, o1, o2⟩ b)
                  | _, _, _ => none
  | _, _, _ => none

/-- The invocations of `RenderTriangle` of one frame, one after the other. -/
def runCalls (ext : Externals) (r : SoftwareRenderer) (rasterVertices : List Vector2)
    (verticesOut : List Vertex_Out) (indices : List Nat) : List Call → Buffers → Option Buffers
  | [], b => some b
  | c :: rest, b =>
    match RenderTriangle ext r b rasterVertices verticesOut indices c.curVertexIdx
      c.swapVertices with
    | none => none
    | some b1 => runCalls ext r rasterVertices verticesOut indices rest b1

/-- The start of `Render` (lines 35-36): `ResetDepthBuffer` then
`ClearBackground`; the ghost list of stores starts empty with the frame. -/
def beginFrame (ext : Externals) (useUniformBackground : Bool) (b : Buffers) : Buffers :=
  ClearBackground ext useUniformBackground (ResetDepthBuffer { b with writes := [] })

/-- The end of `Render` (lines 174-178): a requested thread mode becomes active. -/
def applyThreadModeChange (r : SoftwareRenderer) : SoftwareRenderer :=
  if r.m_ThreadModeChange then { r with m_ThreadMode := r.m_NextMode, m_ThreadModeChange := false }
  else r

/-- The method `SoftwareRenderer::Render` on a machine of `nrCores` cores
(`std::thread::hardware_concurrency()`): the renderer and the buffers after
the frame. -/
def Render (ext : Externals) (nrCores : Nat) (useUniformBackground : Bool)
    (r : SoftwareRenderer) (b : Buffers) : Option (SoftwareRenderer × Buffers) :=
  let b0 := beginFrame ext useUniformBackground b
  match r.m_pMesh with
  | none => some (applyThreadModeChange r, b0)
  | some mesh =>
    let verticesOut := VertexTransformationFunction ext mesh
    let verticesRasterSpace :=
      verticesOut.map fun ndcVertex => CalculateNDCToRaster r ndcVertex.position
    match dispatchCalls mesh.m_PrimitiveTopology r.m_ThreadMode mesh.m_Indices.length nrCores with
    | none => none
    | some calls =>
      (runCalls ext r verticesRasterSpace verticesOut mesh.m_Indices calls b0).map
        fun b1 => (applyThreadModeChange r, b1)

/-! ## Proof-side vocabulary -/

/-- The index `pixelIdx` of the pixel `(px, py)` (line 293). -/
def pixelIdx (r : SoftwareRenderer) (px py : Nat) : Nat := px + py * r.m_Width

/-- The pixel `(px, py)` is visited by the scan loops of `RenderTriangle`. -/
def InScanBox (r : SoftwareRenderer) (t : Triangle) (px py : Nat) : Prop :=
  t.startX ≤ px ∧ px < t.endX r ∧ t.startY ≤ py ∧ py < t.endY r

instance (r : SoftwareRenderer) (t : Triangle) (px py : Nat) : Decidable (InScanBox r t px py) := by
  unfold InScanBox; infer_instance

/-- The pixel `(px, py)` passes the cull test of lines 312-314. -/
def PassesCull (r : SoftwareRenderer) (t : Triangle) (px py : Nat) : Prop :=
  cullRejects r.m_CullMode (t.isFrontFaceHit px py) (t.isBackFaceHit px py) = false

instance (r : SoftwareRenderer) (t : Triangle) (px py : Nat) : Decidable (PassesCull r t px py) := by
  unfold PassesCull; infer_instance

/-- The stores the scan-loop body makes at the pixel `(px, py)` when the depth
stored there is `d`. -/
def pixelWrites (ext : Externals) (r : SoftwareRenderer) (t : Triangle) (d : ℚ) (px py : Nat) :
    List Write :=
  if r.m_ShowBoundingBox then [Write.colour (pixelIdx r px py) (ext.mapRGB 255 255 255)]
  else if cullRejects r.m_CullMode (t.isFrontFaceHit px py) (t.isBackFaceHit px py) then []
  else if d < t.interpolatedZDepth px py then []
  else [Write.depth (pixelIdx r px py) d (t.interpolatedZDepth px py),
    Write.colour (pixelIdx r px py) (shadedPixel ext r (t.pixelInfo ext r px py))]

/-- The pixels of the scan box in the order the two loops visit them. -/
def scanBox (r : SoftwareRenderer) (t : Triangle) : List (Nat × Nat) :=
  (List.range' t.startY (t.endY r - t.startY)).flatMap fun py =>
    (List.range' t.startX (t.endX r - t.startX)).map fun px => (px, py)

/-- The scan-loop body run over a list of pixels. -/
def scanList (ext : Externals) (r : SoftwareRenderer) (t : Triangle) (ks : List (Nat × Nat))
    (b : Buffers) : Buffers :=
  ks.foldl (fun acc k => scanPixel ext r t acc k.1 k.2) b

/-- The pixel index has been stored to by `RenderTriangle` since the frame began. -/
def Buffers.Written (b : Buffers) (i : Nat) : Prop := ∃ w ∈ b.writes, w.pixelIdx = i

/-- What `RenderTriangle` does once the index and vertex reads are done: a
fault, a skip, or a triangle handed to the area test and the scan. -/
inductive Resolved where
  | fault
  | skip
  | draw (t : Triangle)

/-- The index resolution and the tests of lines 247-263 of `RenderTriangle`. -/
def resolveTriangle (rasterVertices : List Vector2) (verticesOut : List Vertex_Out)
    (indices : List Nat) (curVertexIdx : Nat) (swapVertices : Bool) : Resolved :=
  match indices[curVertexIdx]?,
    indices[curVertexIdx + 1 * (!swapVertices).toNat + 2 * swapVertices.toNat]?,
    indices[curVertexIdx + 2 * (!swapVertices).toNat + 1 * swapVertices.toNat]? with
  | some vertexIdx0, some vertexIdx1, some vertexIdx2 =>
    if vertexIdx0 = vertexIdx1 ∨ vertexIdx1 = vertexIdx2 ∨ vertexIdx0 = vertexIdx2 then .skip
    else
      match verticesOut[vertexIdx0]? with
      | none => .fault
      | some o0 =>
        if IsOutsideFrustum o0.position then .skip
        else
          match verticesOut[vertexIdx1]? with
          | none => .fault
          | some o1 =>
            if IsOutsideFrustum o1.position then .skip
            else
              match verticesOut[vertexIdx2]? with
              | none => .fault
              | some o2 =>
                if IsOutsideFrustum o2.position then .skip
                else
                  match rasterVertices[vertexIdx0]?, rasterVertices[vertexIdx1]?,
                    rasterVertices[vertexIdx2]? with
                  | some v0, some v1, some v2 => .draw ⟨v0, v1, v2, o0, o1, o2⟩
                  | _, _, _ => .fault
  | _, _, _ => .fault

/-- The post-divide position lies outside the canonical clip volume: `x` or
`y` outside `[-1, 1]`, or `z` outside `[0, 1]`. -/
def OutsideClipVolume (v : Vector4) : Prop :=
  v.x < -1 ∨ 1 < v.x ∨ v.y < -1 ∨ 1 < v.y ∨ v.z < 0 ∨ 1 < v.z

/-- The method `SoftwareRenderer::SetCulling`. -/
def SetCulling (r : SoftwareRenderer) (cullMode : CullMode) : SoftwareRenderer :=
  { r with m_CullMode := cullMode }

/-- How the buffers of the three cull modes relate after the same triangles,
drawn from a freshly reset frame: per pixel, the depth under `None` is the
smaller of the depths under `Back` and `Front`, a pixel is stored to under
`None` exactly when it is under `Back` or under `Front`, and a depth below the
reset value has been stored. -/
def CullInv (bN bB bF : Buffers) : Prop :=
  ∀ i, bN.depthBufferPixels i = min (bB.depthBufferPixels i) (bF.depthBufferPixels i) ∧
    (bN.Written i ↔ bB.Written i ∨ bF.Written i) ∧
    bB.depthBufferPixels i ≤ FLT_MAX ∧ bF.depthBufferPixels i ≤ FLT_MAX ∧
    (bB.depthBufferPixels i < FLT_MAX → bB.Written i) ∧
    (bF.depthBufferPixels i < FLT_MAX → bF.Written i)

/-! ## A concrete scene, for the instances below -/

/-- Collaborators of the concrete scene: identity transforms, a red diffuse
texture, no specular term. -/
def demoExternals : Externals where
  normalized := id
  invPi := 1 / 3
  phong := fun _ _ _ _ _ => ⟨0, 0, 0⟩
  sampleDiffuse := fun _ => ⟨1, 0, 0⟩
  sampleNormal := fun _ => ⟨1 / 2, 1 / 2, 1⟩
  sampleSpecular := fun _ => ⟨0, 0, 0⟩
  sampleGlossiness := fun _ => ⟨0, 0, 0⟩
  transformPoint := id
  transformVector := id
  mapRGB := fun red green blue => red * 65536 + green * 256 + blue

/-- An 8 x 8 renderer: synchronous, back-face culling, no debug view, normal
map off. -/
def demoRenderer : SoftwareRenderer where
  m_Width := 8
  m_Height := 8
  m_ThreadMode := .Synchronous
  m_NextMode := .Synchronous
  m_ShowDepthBuffer := false
  m_ShowBoundingBox := false
  m_ThreadModeChange := false
  m_LightingMode := .Combined
  m_CullMode := .Back
  m_NormalMapActive := false
  m_pMesh := none

/-- Buffers right after a reset: every depth is `FLT_MAX`, every pixel `0`. -/
def demoBuffers : Buffers where
  backBufferPixels := fun _ => 0
  depthBufferPixels := fun _ => FLT_MAX
  writes := []

/-- A transformed vertex at the given post-divide position. -/
def demoVertex (x y z : ℚ) : Vertex_Out :=
  { Vertex_Out.default with position := ⟨x, y, z, 1⟩, normal := ⟨0, 0, -1⟩ }

/-- Three transformed vertices inside the clip volume, at depth `1/2`. -/
def demoVerticesOut : List Vertex_Out :=
  [demoVertex (-3 / 4) (3 / 4) (1 / 2), demoVertex (1 / 4) (3 / 4) (1 / 2),
    demoVertex (-3 / 4) (-1 / 4) (1 / 2)]

/-- Their raster coordinates on the 8 x 8 buffer: `(1,1)`, `(5,1)`, `(1,5)`. -/
def demoRaster : List Vector2 := [⟨1, 1⟩, ⟨5, 1⟩, ⟨1, 5⟩]

/-- The triangle the three vertices make. -/
def demoTriangle : Triangle :=
  ⟨⟨1, 1⟩, ⟨5, 1⟩, ⟨1, 5⟩, demoVertex (-3 / 4) (3 / 4) (1 / 2), demoVertex (1 / 4) (3 / 4) (1 / 2),
    demoVertex (-3 / 4) (-1 / 4) (1 / 2)⟩

/-- The demo vertices followed by three at the same places and depth `1/4`. -/
def demoVerticesOut2 : List Vertex_Out :=
  demoVerticesOut ++
    [demoVertex (-3 / 4) (3 / 4) (1 / 4), demoVertex (1 / 4) (3 / 4) (1 / 4),
      demoVertex (-3 / 4) (-1 / 4) (1 / 4)]

/-- The raster coordinates of `demoVerticesOut2`. -/
def demoRaster2 : List Vector2 := demoRaster ++ demoRaster

/-- The nearer copy of the demo triangle, at depth `1/4`. -/
def demoTriangleNear : Triangle :=
  ⟨⟨1, 1⟩, ⟨5, 1⟩, ⟨1, 5⟩, demoVertex (-3 / 4) (3 / 4) (1 / 4), demoVertex (1 / 4) (3 / 4) (1 / 4),
    demoVertex (-3 / 4) (-1 / 4) (1 / 4)⟩

/-! ## Runtime toggles -/

/-- The conversion `static_cast<int>(mode)` of a `ThreadMode`. -/
def ThreadMode.toInt : ThreadMode → Int
  | .Synchronous => 0
  | .Async => 1
  | .Parallel => 2

/-- The conversion `static_cast<ThreadMode>(i)`; `ToggleMultiThreading` applies
it to a remainder modulo 3 only. -/
def ThreadMode.ofInt (i : Int) : ThreadMode :=
  if i = 0 then .Synchronous else if i = 1 then .Async else .Parallel

/-- The conversion `static_cast<int>(mode)` of a `LightingMode`. -/
def LightingMode.toInt : LightingMode → Int
  | .Combined => 0
  | .ObservedArea => 1
  | .Diffuse => 2
  | .Specular => 3

/-- The conversion `static_cast<LightingMode>(i)`; `ToggleLightingMode` applies
it to a remainder modulo 4 only. -/
def LightingMode.ofInt (i : Int) : LightingMode :=
  if i = 0 then .Combined else if i = 1 then .ObservedArea else if i = 2 then .Diffuse
  else .Specular

/-- The method `SoftwareRenderer::ToggleMultiThreading`. -/
def ToggleMultiThreading (r : SoftwareRenderer) : SoftwareRenderer :=
  { r with
    m_NextMode := ThreadMode.ofInt ((r.m_NextMode.toInt + 1) % (ThreadMode.Parallel.toInt + 1))
    m_ThreadModeChange := true }

/-- The method `SoftwareRenderer::ToggleDepthBuffer`. -/
def ToggleDepthBuffer (r : SoftwareRenderer) : SoftwareRenderer :=
  { r with m_ShowDepthBuffer := !r.m_ShowDepthBuffer }

/-- The method `SoftwareRenderer::ToggleBoundingBoxVisible`. -/
def ToggleBoundingBoxVisible (r : SoftwareRenderer) : SoftwareRenderer :=
  { r with m_ShowBoundingBox := !r.m_ShowBoundingBox }

/-- The method `SoftwareRenderer::ToggleLightingMode`. -/
def ToggleLightingMode (r : SoftwareRenderer) : SoftwareRenderer :=
  { r with
    m_LightingMode :=
      LightingMode.ofInt ((r.m_LightingMode.toInt + 1) % (LightingMode.Specular.toInt + 1)) }

/-- The method `SoftwareRenderer::ToggleNormalMap`. -/
def ToggleNormalMap (r : SoftwareRenderer) : SoftwareRenderer :=
  { r with m_NormalMapActive := !r.m_NormalMapActive }

/-- The method `SoftwareRenderer::SetMesh`. -/
def SetMesh (r : SoftwareRenderer) (pMesh : Option Mesh) : SoftwareRenderer :=
  { r with m_pMesh := pMesh }

/-- The cyclic order of the thread modes, in the words of the specification:
Synchronous, then Async, then Parallel, then Synchronous again. -/
def ThreadMode.next : ThreadMode → ThreadMode
  | .Synchronous => .Async
  | .Async => .Parallel
  | .Parallel => .Synchronous

/-! ## Dispatch, task by task -/

/-- Triangle list, `ThreadMode::Async`: the loop over the cores (lines 81-103)
task by task: for every core the `taskSize` its task is launched with and the
calls that task makes. -/
def asyncListTasks (size trianglesPerTask : Nat) : Nat → Nat → Nat → List (Nat × List Call)
  | 0, _, _ => []
  | cores + 1, remainingTriangles, curTriangleIdx =>
    let taskSize := if remainingTriangles > 0 then trianglesPerTask + 1 else trianglesPerTask
    let remainingTriangles' := if remainingTriangles > 0 then remainingTriangles - 1 else remainingTriangles
    (taskSize, asyncListTask size curTriangleIdx taskSize) ::
      asyncListTasks size trianglesPerTask cores remainingTriangles' (curTriangleIdx + taskSize * 3)

/-- Triangle list, `ThreadMode::Async` (lines 78-103): the tasks launched for an
index buffer of `size` entries on `nrCores` cores. -/
def asyncListChunks (size nrCores : Nat) : List (Nat × List Call) :=
  let trianglesPerTask := size / (3 * nrCores)
  let remainingTriangles := size % (3 * nrCores)
  asyncListTasks size trianglesPerTask nrCores remainingTriangles 0

/-- The chunk sizes the claim expects for `T` triangles on `C` cores:
`T / C + 1` for the first `T % C` chunks and `T / C` for the others. -/
def balancedChunkSizes (T C : Nat) : List Nat :=
  (List.range C).map fun i => if i < T % C then T / C + 1 else T / C

/-! ## Shading stage: the stored channels -/

/-- The three 8-bit channels `PixelShading` passes to `SDL_MapRGB` (lines
516-521): red, green, blue. -/
def storedChannels (ext : Externals) (r : SoftwareRenderer) (pixelInfo : Vertex_Out) :
    Nat × Nat × Nat :=
  let c := (finalColor ext r pixelInfo).MaxToOne
  (toUint8 (c.r * 255), toUint8 (c.g * 255), toUint8 (c.b * 255))

/-! ## More of the concrete scene -/

/-- The demo renderer in Diffuse lighting mode. -/
def demoDiffuseRenderer : SoftwareRenderer := { demoRenderer with m_LightingMode := .Diffuse }

/-- A pixel whose normal faces the viewer. -/
def demoPixelInfo : Vertex_Out := { Vertex_Out.default with normal := ⟨0, 0, -1⟩ }

/-- A mesh vertex at the given position. -/
def demoMeshVertex (x y z : ℚ) : Vertex :=
  ⟨⟨x, y, z⟩, ⟨0, 0, -1⟩, ⟨1, 0, 0⟩, ⟨0, 0⟩, ⟨1, 1, 1⟩, ⟨0, 0, 0⟩⟩

/-- The demo triangle as a mesh of one triangle. -/
def demoMesh : Mesh :=
  ⟨[demoMeshVertex (-3 / 4) (3 / 4) (1 / 2), demoMeshVertex (1 / 4) (3 / 4) (1 / 2),
    demoMeshVertex (-3 / 4) (-1 / 4) (1 / 2)], [0, 1, 2], .TriangleList⟩

/-- The demo renderer with the mesh bound and a thread-mode change requested. -/
def demoToggledRenderer : SoftwareRenderer :=
  ToggleMultiThreading (SetMesh demoRenderer (some demoMesh))

/-! ## Accesses to the shared buffers

The tasks of the Async and Parallel branches run `RenderTriangle` with no lock
and no atomic operation: the only synchronisation of `Render` is the launch of
the tasks and the wait for all of them (lines 104-107, 156-159). -/

/-- A load from, or a store into, one entry of the two per-pixel buffers. -/
inductive Access where
  /-- The load `m_pDepthBufferPixels[pixelIdx]` of the depth test (line 325). -/
  | depthRead (pixelIdx : Nat)
  /-- The store `m_pDepthBufferPixels[pixelIdx] = ...` (line 328). -/
  | depthWrite (pixelIdx : Nat)
  /-- The store `m_pBackBufferPixels[pixelIdx] = ...` (lines 297 and 518). -/
  | pixelWrite (pixelIdx : Nat)
deriving DecidableEq, Repr

/-- The entry an access goes to. -/
def Access.pixelIdx : Access → Nat
  | .depthRead i => i
  | .depthWrite i => i
  | .pixelWrite i => i

/-- The access is a store. -/
def Access.isStore : Access → Bool
  | .depthRead _ => false
  | .depthWrite _ => true
  | .pixelWrite _ => true

/-- The access goes to the depth buffer (and not to the pixel buffer). -/
def Access.onDepthBuffer : Access → Bool
  | .depthRead _ => true
  | .depthWrite _ => true
  | .pixelWrite _ => false

/-- Two accesses conflict: the same entry of the same buffer, and at least one
of them a store. -/
def Access.conflicts (a b : Access) : Bool :=
  (a.onDepthBuffer == b.onDepthBuffer) && (a.pixelIdx == b.pixelIdx) &&
    (a.isStore || b.isStore)

/-- The accesses the scan-loop body of `RenderTriangle` makes at the pixel
`(px, py)` when the depth it loads there is `d` (lines 293-395, and the store
of `PixelShading`, line 518), in program order. -/
def pixelAccesses (r : SoftwareRenderer) (t : Triangle) (d : ℚ) (px py : Nat) : List Access :=
  let pixelIdx := px + py * r.m_Width
  if r.m_ShowBoundingBox then [Access.pixelWrite pixelIdx]
  else if cullRejects r.m_CullMode (t.isFrontFaceHit px py) (t.isBackFaceHit px py) then []
  else if d < t.interpolatedZDepth px py then [Access.depthRead pixelIdx]
  else [Access.depthRead pixelIdx, Access.depthWrite pixelIdx,
    Access.pixelWrite (px + py * r.m_Width)]

/-- The buffer and the entry of a recorded store. -/
def Write.target : Write → Bool × Nat
  | .depth i _ _ => (true, i)
  | .colour i _ => (false, i)

/-- Two lists of accesses, made by two tasks of one dispatch, hold a pair of
conflicting accesses. -/
def Conflicting (as1 as2 : List Access) : Prop :=
  ∃ a1 ∈ as1, ∃ a2 ∈ as2, a1.conflicts a2 = true

/-! ## Proof-side vocabulary: rejection and perspective weights -/

/-- The call of `RenderTriangle` gets past the `return` statements of lines
254-274 and enters the scan loops. -/
def reachesScanLoop (rasterVertices : List Vector2) (verticesOut : List Vertex_Out)
    (indices : List Nat) (curVertexIdx : Nat) (swapVertices : Bool) : Bool :=
  match resolveTriangle rasterVertices verticesOut indices curVertexIdx swapVertices with
  | .draw t => !decide (|t.fullTriangleArea| < FLT_EPSILON)
  | _ => false

/-- The renderer after its constructor: the size of the window, and the
default member initialisers of `SoftwareRenderer.h`. -/
def SoftwareRenderer.construct (width height : Nat) : SoftwareRenderer where
  m_Width := width
  m_Height := height
  m_ThreadMode := .Synchronous
  m_NextMode := .Synchronous
  m_ShowDepthBuffer := false
  m_ShowBoundingBox := false
  m_ThreadModeChange := false
  m_LightingMode := .Combined
  m_CullMode := .Back
  m_NormalMapActive := true
  m_pMesh := none

/-- The renderers that the public methods make from a constructed one: the
toggles and setters, and every `Render` that completes. -/
inductive Reachable (ext : Externals) : SoftwareRenderer → Prop where
  | construct (width height : Nat) : Reachable ext (SoftwareRenderer.construct width height)
  | toggleMultiThreading {r : SoftwareRenderer} :
    Reachable ext r → Reachable ext (ToggleMultiThreading r)
  | render {r r' : SoftwareRenderer} {b b' : Buffers} (nrCores : Nat)
    (useUniformBackground : Bool) :
    Reachable ext r → Render ext nrCores useUniformBackground r b = some (r', b') →
    Reachable ext r'
  | setMesh {r : SoftwareRenderer} (pMesh : Option Mesh) :
    Reachable ext r → Reachable ext (SetMesh r pMesh)
  | setCulling {r : SoftwareRenderer} (cullMode : CullMode) :
    Reachable ext r → Reachable ext (SetCulling r cullMode)
  | toggleDepthBuffer {r : SoftwareRenderer} :
    Reachable ext r → Reachable ext (ToggleDepthBuffer r)
  | toggleBoundingBoxVisible {r : SoftwareRenderer} :
    Reachable ext r → Reachable ext (ToggleBoundingBoxVisible r)
  | toggleLightingMode {r : SoftwareRenderer} :
    Reachable ext r → Reachable ext (ToggleLightingMode r)
  | toggleNormalMap {r : SoftwareRenderer} :
    Reachable ext r → Reachable ext (ToggleNormalMap r)

/-! ## Texture sampling (`Texture.cpp`) -/

/-- A `Texture`, as far as `Sample` reads it: the size of its surface, the
pixels of the surface (`w * h` of them), and the decoding `SDL_GetRGB` of a
pixel in the format of the surface. -/
structure Texture where
  w : Nat
  h : Nat
  m_pSurfacePixels : List Nat
  getRGB : Nat → Nat × Nat × Nat

/-- The `int x` of `Texture::Sample` (line 73). -/
def Texture.sampleX (tex : Texture) (uv : Vector2) : Int :=
  truncToInt ((if uv.x < 0 then 0 else if 1 < uv.x then 1 else uv.x) * tex.w)

/-- The `int y` of `Texture::Sample` (line 74). -/
def Texture.sampleY (tex : Texture) (uv : Vector2) : Int :=
  truncToInt ((if uv.y < 0 then 0 else if 1 < uv.y then 1 else uv.y) * tex.h)

/-- The index `x + y * m_pSurface->w` at which `Texture::Sample` reads (line 77). -/
def Texture.sampleIndex (tex : Texture) (uv : Vector2) : Int :=
  tex.sampleX uv + tex.sampleY uv * tex.w

/-- The method `Texture::Sample`; a read outside the pixels of the surface is
a fault (`none`). The three channels are `Uint8` values divided by `255.0f`. -/
def Texture.Sample (tex : Texture) (uv : Vector2) : Option ColorRGB :=
  if tex.sampleIndex uv < 0 then none
  else
    match tex.m_pSurfacePixels[(tex.sampleIndex uv).toNat]? with
    | none => none
    | some pixel =>
      let rgb := tex.getRGB pixel
      some ⟨((rgb.1 % 256 : Nat) : ℚ) / 255, ((rgb.2.1 % 256 : Nat) : ℚ) / 255,
        ((rgb.2.2 % 256 : Nat) : ℚ) / 255⟩

/-! ## The concrete scene, continued -/

/-- Raster coordinates of a triangle of area `2^-24`, below `FLT_EPSILON`. -/
def demoTinyRaster : List Vector2 := [⟨1, 1⟩, ⟨1 + 1 / 4096, 1⟩, ⟨1, 1 + 1 / 4096⟩]

/-- A 2 x 2 texture whose pixels are 24-bit `0xRRGGBB` values. -/
def demoTexture : Texture where
  w := 2
  h := 2
  m_pSurfacePixels := [16711680, 65280, 255, 16777215]
  getRGB := fun pixel => (pixel / 65536 % 256, pixel / 256 % 256, pixel % 256)

/-! ## The binary32 reading of the rasterizer

The definitions above compute with exact rationals. The ones below read the
same lines of `RenderTriangle` in binary32: every `float` operation is rounded
to the nearest binary32 value (ties to even), once per operation, and a
division by zero gives an infinity or a NaN. Zero has no sign here, and the
edge functions, whose operands are raster coordinates inside the window, are
taken to stay below `FLT_MAX`. -/

/-- Rounding to the nearest integer, a tie going to the even one. -/
def roundHalfEven (q : ℚ) : Int :=
  if q - ⌊q⌋ < 1 / 2 then ⌊q⌋
  else if 1 / 2 < q - ⌊q⌋ then ⌊q⌋ + 1
  else if ⌊q⌋ % 2 = 0 then ⌊q⌋ else ⌊q⌋ + 1

/-- The exponent `e` of the binade `2^e <= |q| < 2^(e+1)` of a binary32 value,
`-126` in the subnormal range. -/
def binade (q : ℚ) : Int := max (Int.log 2 |q|) (-126)

/-- The binary32 value nearest to `q` (24 significant bits), without the
overflow to infinity. -/
def roundFloat (q : ℚ) : ℚ :=
  roundHalfEven (q / 2 ^ (binade q - 23)) * 2 ^ (binade q - 23)

/-- A `float`: a number, an infinity or a NaN. -/
inductive Binary32 where
  | finite (q : ℚ)
  | posInf
  | negInf
  | nan
deriving DecidableEq, Repr

/-- The `float` an exact result is rounded to: the nearest binary32 value, an
infinity past `FLT_MAX`. -/
def Binary32.ofRat (q : ℚ) : Binary32 :=
  if FLT_MAX < roundFloat q then .posInf
  else if roundFloat q < -FLT_MAX then .negInf
  else .finite (roundFloat q)

/-- The `float` sum `a + b`. -/
def Binary32.add : Binary32 → Binary32 → Binary32
  | .nan, _ => .nan
  | _, .nan => .nan
  | .finite a, .finite b => Binary32.ofRat (a + b)
  | .posInf, .negInf => .nan
  | .negInf, .posInf => .nan
  | .posInf, _ => .posInf
  | _, .posInf => .posInf
  | .negInf, _ => .negInf
  | _, .negInf => .negInf

/-- The `float` product `a * b`. -/
def Binary32.mul : Binary32 → Binary32 → Binary32
  | .nan, _ => .nan
  | _, .nan => .nan
  | .finite a, .finite b => Binary32.ofRat (a * b)
  | .posInf, .finite b => if b = 0 then .nan else if 0 < b then .posInf else .negInf
  | .negInf, .finite b => if b = 0 then .nan else if 0 < b then .negInf else .posInf
  | .finite a, .posInf => if a = 0 then .nan else if 0 < a then .posInf else .negInf
  | .finite a, .negInf => if a = 0 then .nan else if 0 < a then .negInf else .posInf
  | .posInf, .posInf => .posInf
  | .negInf, .negInf => .posInf
  | .posInf, .negInf => .negInf
  | .negInf, .posInf => .negInf

/-- The `float` quotient `a / b`: a number divided by zero is an infinity, and
`0 / 0` and the quotient of two infinities are NaN. -/
def Binary32.div : Binary32 → Binary32 → Binary32
  | .nan, _ => .nan
  | _, .nan => .nan
  | .finite a, .finite b =>
    if b = 0 then (if a = 0 then .nan else if 0 < a then .posInf else .negInf)
    else Binary32.ofRat (a / b)
  | .finite _, .posInf => .finite 0
  | .finite _, .negInf => .finite 0
  | .posInf, .finite b => if 0 ≤ b then .posInf else .negInf
  | .negInf, .finite b => if 0 ≤ b then .negInf else .posInf
  | .posInf, .posInf => .nan
  | .posInf, .negInf => .nan
  | .negInf, .posInf => .nan
  | .negInf, .negInf => .nan

/-- The `float` comparison `a < b`: false when either side is a NaN. -/
def Binary32.lt : Binary32 → Binary32 → Bool
  | .nan, _ => false
  | _, .nan => false
  | .finite a, .finite b => decide (a < b)
  | .finite _, .posInf => true
  | .finite _, .negInf => false
  | .posInf, _ => false
  | .negInf, .negInf => false
  | .negInf, _ => true

/-- The `float` comparison `a <= b`: false when either side is a NaN. -/
def Binary32.le : Binary32 → Binary32 → Bool
  | .nan, _ => false
  | _, .nan => false
  | .finite a, .finite b => decide (a ≤ b)
  | .finite _, .posInf => true
  | .finite _, .negInf => false
  | .posInf, .posInf => true
  | .posInf, _ => false
  | .negInf, _ => true

/-- Modelled from the spec: `Vector2::operator-` (missing with `Math.h`), the
componentwise difference, each component rounded. -/
def Vector2.sub32 (a b : Vector2) : Vector2 := ⟨roundFloat (a.x - b.x), roundFloat (a.y - b.y)⟩

/-- Modelled from the spec: `Vector2::Cross` (missing with `Math.h`), the 2-D
cross product `a.x * b.y - a.y * b.x`, the two products and the difference
rounded. -/
def Vector2.Cross32 (a b : Vector2) : ℚ :=
  roundFloat (roundFloat (a.x * b.y) - roundFloat (a.y * b.x))

/-- The method `SoftwareRenderer::CalculateNDCToRaster`, in binary32. -/
def CalculateNDCToRaster32 (r : SoftwareRenderer) (ndcVertex : Vector4) : Vector2 :=
  ⟨roundFloat (roundFloat (roundFloat (ndcVertex.x + 1) / 2) * r.m_Width),
    roundFloat (roundFloat (roundFloat (1 - ndcVertex.y) / 2) * r.m_Height)⟩

/-- The float `fullTriangleArea` (lines 266-271), in binary32. -/
def Triangle.fullTriangleArea32 (t : Triangle) : ℚ :=
  Vector2.Cross32 (Vector2.sub32 t.v1 t.v0) (Vector2.sub32 t.v2 t.v1)

/-- The float `edge01PointCross` (line 305), in binary32. -/
def Triangle.edge01PointCross32 (t : Triangle) (px py : Nat) : ℚ :=
  Vector2.Cross32 (Vector2.sub32 t.v1 t.v0) (Vector2.sub32 (curPixel px py) t.v0)

/-- The float `edge12PointCross` (line 306), in binary32. -/
def Triangle.edge12PointCross32 (t : Triangle) (px py : Nat) : ℚ :=
  Vector2.Cross32 (Vector2.sub32 t.v2 t.v1) (Vector2.sub32 (curPixel px py) t.v1)

/-- The float `edge20PointCross` (line 307), in binary32. -/
def Triangle.edge20PointCross32 (t : Triangle) (px py : Nat) : ℚ :=
  Vector2.Cross32 (Vector2.sub32 t.v0 t.v2) (Vector2.sub32 (curPixel px py) t.v2)

/-- The flag `isFrontFaceHit` (line 309) as a function of the three edge values. -/
def frontFaceHit (edge01PointCross edge12PointCross edge20PointCross : ℚ) : Bool :=
  decide (edge01PointCross ≥ 0) && decide (edge12PointCross ≥ 0) &&
    decide (edge20PointCross ≥ 0)

/-- The flag `isBackFaceHit` (line 310) as a function of the three edge values. -/
def backFaceHit (edge01PointCross edge12PointCross edge20PointCross : ℚ) : Bool :=
  decide (edge01PointCross ≤ 0) && decide (edge12PointCross ≤ 0) &&
    decide (edge20PointCross ≤ 0)

/-- The flag `isFrontFaceHit` (line 309), in binary32. -/
def Triangle.isFrontFaceHit32 (t : Triangle) (px py : Nat) : Bool :=
  frontFaceHit (t.edge01PointCross32 px py) (t.edge12PointCross32 px py)
    (t.edge20PointCross32 px py)

/-- The flag `isBackFaceHit` (line 310), in binary32. -/
def Triangle.isBackFaceHit32 (t : Triangle) (px py : Nat) : Bool :=
  backFaceHit (t.edge01PointCross32 px py) (t.edge12PointCross32 px py)
    (t.edge20PointCross32 px py)

/-- The float `weightV0` (line 317), in binary32. -/
def Triangle.weightV0_32 (t : Triangle) (px py : Nat) : Binary32 :=
  Binary32.div (.finite (t.edge12PointCross32 px py)) (.finite t.fullTriangleArea32)

/-- The float `weightV1` (line 318), in binary32. -/
def Triangle.weightV1_32 (t : Triangle) (px py : Nat) : Binary32 :=
  Binary32.div (.finite (t.edge20PointCross32 px py)) (.finite t.fullTriangleArea32)

/-- The float `weightV2` (line 319), in binary32. -/
def Triangle.weightV2_32 (t : Triangle) (px py : Nat) : Binary32 :=
  Binary32.div (.finite (t.edge01PointCross32 px py)) (.finite t.fullTriangleArea32)

/-- The float `interpolatedZDepth` (line 322), in binary32. -/
def Triangle.interpolatedZDepth32 (t : Triangle) (px py : Nat) : Binary32 :=
  Binary32.div (.finite 1)
    (Binary32.add
      (Binary32.add (Binary32.div (t.weightV0_32 px py) (.finite t.o0.position.z))
        (Binary32.div (t.weightV1_32 px py) (.finite t.o1.position.z)))
      (Binary32.div (t.weightV2_32 px py) (.finite t.o2.position.z)))

/-- The depth test of line 325 skips the pixel: `stored < interpolated`. -/
def depthTestSkips (stored interpolated : Binary32) : Bool := Binary32.lt stored interpolated

/-- The body of the scan loop of `RenderTriangle` at the pixel `(px, py)`
(lines 301-395), in binary32 and with the bounding-box view off, on the entry
of the pixel in the two buffers: its stored depth and its colour. `colour` is
the value `PixelShading` stores for this triangle at the pixel. -/
def scanPixel32 (r : SoftwareRenderer) (t : Triangle) (colour : Nat) (entry : Binary32 × Nat)
    (px py : Nat) : Binary32 × Nat :=
  if cullRejects r.m_CullMode (t.isFrontFaceHit32 px py) (t.isBackFaceHit32 px py) then entry
  else if depthTestSkips entry.1 (t.interpolatedZDepth32 px py) then entry
  else (t.interpolatedZDepth32 px py, colour)

/-- The loop body stores at the pixel: the cull test and the depth test both let it pass. -/
def storesAt32 (r : SoftwareRenderer) (t : Triangle) (stored : Binary32) (px py : Nat) : Bool :=
  !cullRejects r.m_CullMode (t.isFrontFaceHit32 px py) (t.isBackFaceHit32 px py) &&
    !depthTestSkips stored (t.interpolatedZDepth32 px py)

/-! ## The concrete scene in binary32 -/

/-- The demo triangle with its third vertex on the near plane: post-divide
`z = 0`, which `IsOutsideFrustum` lets pass. -/
def demoTriangleOnNearPlane : Triangle :=
  ⟨⟨1, 1⟩, ⟨5, 1⟩, ⟨1, 5⟩, demoVertex (-3 / 4) (3 / 4) 1, demoVertex (1 / 4) (3 / 4) 1,
    demoVertex (-3 / 4) (-1 / 4) 0⟩

theorem Vector2.sub_def (a b : Vector2) : a - b = ⟨a.x - b.x, a.y - b.y⟩ := rfl

theorem truncToInt_natCast (n : Nat) : truncToInt (n : ℚ) = n := by
  unfold truncToInt
  rw [if_pos (Nat.cast_nonneg n), Int.floor_natCast]
theorem forRange_chunk (step : Nat) (hstep : 0 < step) :
    ∀ (n cur fuel : Nat), n * step ≤ fuel →
      forRange (cur + n * step) step fuel cur = List.range' cur n step := by
  intro n
  induction n with
  | zero =>
    intro cur fuel _
    cases fuel with
    | zero => simp [forRange]
    | succ f => simp [forRange]
  | succ k ih =>
    intro cur fuel hfuel
    cases fuel with
    | zero =>
      have : 0 < (k + 1) * step := Nat.mul_pos (Nat.succ_pos k) hstep
      omega
    | succ f =>
      have hlt : cur < cur + (k + 1) * step := by
        have : 0 < (k + 1) * step := Nat.mul_pos (Nat.succ_pos k) hstep
        omega
      have hk : k * step ≤ f := by
        have : (k + 1) * step = k * step + step := by ring
        omega
      have hstop : cur + (k + 1) * step = (cur + step) + k * step := by ring
      simp only [forRange, hlt, if_true, List.range'_succ]
      rw [hstop, ih (cur + step) f hk]

/-- The triangles a task of the Async triangle-list branch draws, by triangle number. -/
theorem asyncListTask_eq (size c taskSize : Nat) :
    asyncListTask size (3 * c) taskSize =
      ((List.range' c taskSize).filter fun t => decide (3 * t + 2 < size)).map
        fun t => (⟨3 * t, false⟩ : Call) := by
  unfold asyncListTask
  simp only
  rw [forRange_chunk 3 (by decide) taskSize (3 * c) (taskSize * 3) (le_refl _)]
  have h : List.range' (3 * c) taskSize 3 = (List.range' c taskSize).map (fun t => 3 * t) := by
    induction taskSize generalizing c with
    | zero => simp
    | succ k ih =>
      simp only [List.range'_succ, List.map_cons]
      rw [show 3 * c + 3 = 3 * (c + 1) by ring, ih (c + 1)]
  rw [h, List.filter_map, List.map_map]
  rfl

theorem asyncListCores_eq (size tpt : Nat) :
    ∀ (cores rem c : Nat),
      asyncListCores size tpt cores rem (3 * c) =
        ((List.range' c (cores * tpt + min cores rem)).filter
          fun t => decide (3 * t + 2 < size)).map fun t => (⟨3 * t, false⟩ : Call) := by
  intro cores
  induction cores with
  | zero => intro rem c; simp [asyncListCores]
  | succ k ih =>
    intro rem c
    by_cases hrem : rem > 0
    · have hcur : 3 * c + (tpt + 1) * 3 = 3 * (c + (tpt + 1)) := by ring
      simp only [asyncListCores, hrem, if_true]
      rw [hcur, ih, asyncListTask_eq, ← List.map_append, ← List.filter_append]
      have hlen : (k + 1) * tpt + min (k + 1) rem = (k * tpt + min k (rem - 1)) + (tpt + 1) := by
        have : (k + 1) * tpt = k * tpt + tpt := by ring
        omega
      have := List.range'_append c (tpt + 1) (k * tpt + min k (rem - 1)) 1
      simp only [one_mul] at this
      rw [this, hlen]
    · have hcur : 3 * c + tpt * 3 = 3 * (c + tpt) := by ring
      have h0 : rem = 0 := by omega
      subst h0
      simp only [asyncListCores, gt_iff_lt, lt_self_iff_false, if_false]
      rw [hcur, ih, asyncListTask_eq, ← List.map_append, ← List.filter_append]
      have hlen : (k + 1) * tpt + min (k + 1) 0 = (k * tpt + min k 0) + tpt := by
        have : (k + 1) * tpt = k * tpt + tpt := by ring
        omega
      have := List.range'_append c tpt (k * tpt + min k 0) 1
      simp only [one_mul] at this
      rw [this, hlen]

theorem filter_range_cover (T total : Nat) (h : T ≤ total) :
    (List.range' 0 total).filter (fun t => decide (3 * t + 2 < 3 * T)) = List.range T := by
  obtain ⟨d, rfl⟩ : ∃ d, total = d + T := ⟨total - T, by omega⟩
  have := List.range'_append 0 T d 1
  simp only [one_mul, zero_add] at this
  rw [← this, List.filter_append]
  have h1 : (List.range' 0 T).filter (fun t => decide (3 * t + 2 < 3 * T)) = List.range' 0 T := by
    rw [List.filter_eq_self]
    intro a ha
    rw [List.mem_range'] at ha
    obtain ⟨i, hi, rfl⟩ := ha
    simp only [decide_eq_true_eq]
    omega
  have h2 : (List.range' T d).filter (fun t => decide (3 * t + 2 < 3 * T)) = [] := by
    rw [List.filter_eq_nil_iff]
    intro a ha
    rw [List.mem_range'] at ha
    obtain ⟨i, hi, rfl⟩ := ha
    simp only [decide_eq_true_eq]
    omega
  rw [h1, h2, List.append_nil, List.range_eq_range']

theorem asyncListCalls_eq (T C : Nat) (hC : 1 ≤ C) :
    asyncListCalls (3 * T) C = (List.range T).map fun k => (⟨3 * k, false⟩ : Call) := by
  unfold asyncListCalls
  simp only
  have h := asyncListCores_eq (3 * T) (3 * T / (3 * C)) C (3 * T % (3 * C)) 0
  rw [Nat.mul_zero] at h
  rw [h]
  have hdiv : 3 * T / (3 * C) = T / C := Nat.mul_div_mul_left T C (by decide)
  have hmod : 3 * T % (3 * C) = 3 * (T % C) := Nat.mul_mod_mul_left 3 T C
  have hcover : T ≤ C * (3 * T / (3 * C)) + min C (3 * T % (3 * C)) := by
    rw [hdiv, hmod]
    have h1 := Nat.div_add_mod T C
    have h2 : T % C < C := Nat.mod_lt T (by omega)
    omega
  rw [filter_range_cover T _ hcover]


/-! ## The scan loops, pixel by pixel -/

theorem RenderTriangle_eq_resolve (ext : Externals) (r : SoftwareRenderer) (b : Buffers)
    (rv : List Vector2) (vo : List Vertex_Out) (indices : List Nat) (cur : Nat) (swap : Bool) :
    RenderTriangle ext r b rv vo indices cur swap =
      match resolveTriangle rv vo indices cur swap with
      | .fault => none
      | .skip => some b
      | .draw t => some (rasterize ext r t b) := by
  unfold RenderTriangle resolveTriangle
  split
  · split
    · rfl
    · split
      · rfl
      · split
        · rfl
        · split
          · rfl
          · split
            · rfl
            · split
              · rfl
              · split
                · rfl
                · split
                  · rfl
                  · rfl
  · rfl

theorem scanPixel_depth_other (ext : Externals) (r : SoftwareRenderer) (t : Triangle)
    (b : Buffers) (px py i : Nat) (h : i ≠ pixelIdx r px py) :
    (scanPixel ext r t b px py).depthBufferPixels i = b.depthBufferPixels i ∧
      (scanPixel ext r t b px py).backBufferPixels i = b.backBufferPixels i := by
  unfold pixelIdx at h
  unfold scanPixel PixelShading Buffers.storePixel Buffers.storeDepth
  simp only
  split_ifs <;> simp [h]

theorem scanPixel_writes (ext : Externals) (r : SoftwareRenderer) (t : Triangle)
    (b : Buffers) (px py : Nat) :
    (scanPixel ext r t b px py).writes =
      b.writes ++ pixelWrites ext r t (b.depthBufferPixels (pixelIdx r px py)) px py := by
  unfold scanPixel pixelWrites PixelShading Buffers.storePixel Buffers.storeDepth pixelIdx
  simp only
  split_ifs <;> simp

theorem scanPixel_local (ext : Externals) (r : SoftwareRenderer) (t : Triangle)
    (b b' : Buffers) (px py : Nat)
    (hd : b.depthBufferPixels (pixelIdx r px py) = b'.depthBufferPixels (pixelIdx r px py))
    (hp : b.backBufferPixels (pixelIdx r px py) = b'.backBufferPixels (pixelIdx r px py)) :
    (scanPixel ext r t b px py).depthBufferPixels (pixelIdx r px py) =
        (scanPixel ext r t b' px py).depthBufferPixels (pixelIdx r px py) ∧
      (scanPixel ext r t b px py).backBufferPixels (pixelIdx r px py) =
        (scanPixel ext r t b' px py).backBufferPixels (pixelIdx r px py) := by
  unfold pixelIdx at hd hp ⊢
  unfold scanPixel PixelShading Buffers.storePixel Buffers.storeDepth
  simp only
  rw [hd]
  split_ifs <;> simp [hd, hp]

theorem scanList_other (ext : Externals) (r : SoftwareRenderer) (t : Triangle) (i : Nat) :
    ∀ (ks : List (Nat × Nat)) (b : Buffers), (∀ k ∈ ks, pixelIdx r k.1 k.2 ≠ i) →
      (scanList ext r t ks b).depthBufferPixels i = b.depthBufferPixels i ∧
        (scanList ext r t ks b).backBufferPixels i = b.backBufferPixels i := by
  intro ks
  induction ks with
  | nil => intro b _; exact ⟨rfl, rfl⟩
  | cons k rest ih =>
    intro b h
    have hk : i ≠ pixelIdx r k.1 k.2 := fun e => h k (List.mem_cons_self _ _) e.symm
    have hrest := ih (scanPixel ext r t b k.1 k.2) (fun k' hk' => h k' (List.mem_cons_of_mem _ hk'))
    have hstep := scanPixel_depth_other ext r t b k.1 k.2 i hk
    simp only [scanList, List.foldl_cons] at hrest ⊢
    exact ⟨hrest.1.trans hstep.1, hrest.2.trans hstep.2⟩

theorem scanList_at (ext : Externals) (r : SoftwareRenderer) (t : Triangle) :
    ∀ (ks : List (Nat × Nat)) (b : Buffers), (ks.map fun k => pixelIdx r k.1 k.2).Nodup →
      ∀ k ∈ ks,
        (scanList ext r t ks b).depthBufferPixels (pixelIdx r k.1 k.2) =
            (scanPixel ext r t b k.1 k.2).depthBufferPixels (pixelIdx r k.1 k.2) ∧
          (scanList ext r t ks b).backBufferPixels (pixelIdx r k.1 k.2) =
            (scanPixel ext r t b k.1 k.2).backBufferPixels (pixelIdx r k.1 k.2) := by
  intro ks
  induction ks with
  | nil => intro b _ k hk; cases hk
  | cons k0 rest ih =>
    intro b hnd k hk
    rw [List.map_cons, List.nodup_cons] at hnd
    obtain ⟨hnotin, hnd'⟩ := hnd
    rcases List.mem_cons.1 hk with rfl | hk'
    · have hoth : ∀ k' ∈ rest, pixelIdx r k'.1 k'.2 ≠ pixelIdx r k.1 k.2 := by
        intro k' hk' e
        exact hnotin (List.mem_map.2 ⟨k', hk', e⟩)
      have := scanList_other ext r t (pixelIdx r k.1 k.2) rest (scanPixel ext r t b k.1 k.2) hoth
      simpa only [scanList, List.foldl_cons] using this
    · have hne : pixelIdx r k.1 k.2 ≠ pixelIdx r k0.1 k0.2 := by
        intro e
        exact hnotin (List.mem_map.2 ⟨k, hk', e⟩)
      have hstep := scanPixel_depth_other ext r t b k0.1 k0.2 (pixelIdx r k.1 k.2) hne
      have hrec := ih (scanPixel ext r t b k0.1 k0.2) hnd' k hk'
      have hloc := scanPixel_local ext r t (scanPixel ext r t b k0.1 k0.2) b k.1 k.2 hstep.1 hstep.2
      simp only [scanList, List.foldl_cons] at hrec ⊢
      exact ⟨hrec.1.trans hloc.1, hrec.2.trans hloc.2⟩

theorem scanList_writes (ext : Externals) (r : SoftwareRenderer) (t : Triangle) :
    ∀ (ks : List (Nat × Nat)) (b : Buffers), (ks.map fun k => pixelIdx r k.1 k.2).Nodup →
      ∃ added, (scanList ext r t ks b).writes = b.writes ++ added ∧
        ∀ w, w ∈ added ↔
          ∃ k ∈ ks, w ∈ pixelWrites ext r t (b.depthBufferPixels (pixelIdx r k.1 k.2)) k.1 k.2 := by
  intro ks
  induction ks with
  | nil => intro b _; exact ⟨[], by simp [scanList], by simp⟩
  | cons k0 rest ih =>
    intro b hnd
    rw [List.map_cons, List.nodup_cons] at hnd
    obtain ⟨hnotin, hnd'⟩ := hnd
    obtain ⟨added1, hw1, hmem1⟩ := ih (scanPixel ext r t b k0.1 k0.2) hnd'
    have hsame : ∀ k ∈ rest,
        (scanPixel ext r t b k0.1 k0.2).depthBufferPixels (pixelIdx r k.1 k.2) =
          b.depthBufferPixels (pixelIdx r k.1 k.2) := by
      intro k hk
      have hne : pixelIdx r k.1 k.2 ≠ pixelIdx r k0.1 k0.2 := by
        intro e
        exact hnotin (List.mem_map.2 ⟨k, hk, e⟩)
      exact (scanPixel_depth_other ext r t b k0.1 k0.2 _ hne).1
    refine ⟨pixelWrites ext r t (b.depthBufferPixels (pixelIdx r k0.1 k0.2)) k0.1 k0.2 ++ added1,
      ?_, ?_⟩
    · simp only [scanList, List.foldl_cons] at hw1 ⊢
      rw [hw1, scanPixel_writes, List.append_assoc]
    · intro w
      rw [List.mem_append, hmem1]
      constructor
      · rintro (h | ⟨k, hk, h⟩)
        · exact ⟨k0, List.mem_cons_self _ _, h⟩
        · rw [hsame k hk] at h
          exact ⟨k, List.mem_cons_of_mem _ hk, h⟩
      · rintro ⟨k, hk, h⟩
        rcases List.mem_cons.1 hk with rfl | hk'
        · exact Or.inl h
        · rw [← hsame k hk'] at h
          exact Or.inr ⟨k, hk', h⟩

theorem scanTriangle_eq_scanList (ext : Externals) (r : SoftwareRenderer) (t : Triangle)
    (b : Buffers) : scanTriangle ext r t b = scanList ext r t (scanBox r t) b := by
  unfold scanTriangle scanList scanBox
  generalize List.range' t.startY (t.endY r - t.startY) = rows
  induction rows generalizing b with
  | nil => rfl
  | cons py rest ih =>
    rw [List.foldl_cons, List.flatMap_cons, List.foldl_append, ih]
    congr 1
    unfold scanRow
    rw [List.foldl_map]

theorem mem_scanBox (r : SoftwareRenderer) (t : Triangle) (k : Nat × Nat) :
    k ∈ scanBox r t ↔ InScanBox r t k.1 k.2 := by
  unfold scanBox InScanBox
  simp only [List.mem_flatMap, List.mem_map, List.mem_range']
  constructor
  · rintro ⟨py, ⟨j, hj, rfl⟩, px, ⟨i, hi, rfl⟩, rfl⟩
    simp only
    omega
  · rintro ⟨h1, h2, h3, h4⟩
    refine ⟨k.2, ⟨k.2 - t.startY, by omega, by omega⟩, k.1, ⟨k.1 - t.startX, by omega, by omega⟩, rfl⟩

theorem endX_le_width (r : SoftwareRenderer) (t : Triangle) : t.endX r ≤ r.m_Width := by
  unfold Triangle.endX
  rw [Int.toNat_le]
  exact min_le_right _ _

theorem endY_le_height (r : SoftwareRenderer) (t : Triangle) : t.endY r ≤ r.m_Height := by
  unfold Triangle.endY
  rw [Int.toNat_le]
  exact min_le_right _ _

theorem pixelIdx_inj (r : SoftwareRenderer) (px py px' py' : Nat) (h1 : px < r.m_Width)
    (h2 : px' < r.m_Width) (h : pixelIdx r px py = pixelIdx r px' py') : px = px' ∧ py = py' := by
  unfold pixelIdx at h
  have hy : py = py' := by
    rcases Nat.lt_trichotomy py py' with hlt | heq | hgt
    · exfalso
      have : (py + 1) * r.m_Width ≤ py' * r.m_Width := Nat.mul_le_mul_right _ hlt
      have e : (py + 1) * r.m_Width = py * r.m_Width + r.m_Width := by ring
      omega
    · exact heq
    · exfalso
      have : (py' + 1) * r.m_Width ≤ py * r.m_Width := Nat.mul_le_mul_right _ hgt
      have e : (py' + 1) * r.m_Width = py' * r.m_Width + r.m_Width := by ring
      omega
  subst hy
  exact ⟨by omega, rfl⟩

theorem scanBox_nodup (r : SoftwareRenderer) (t : Triangle) :
    ((scanBox r t).map fun k => pixelIdx r k.1 k.2).Nodup := by
  have hnd : (scanBox r t).Nodup := by
    unfold scanBox
    rw [List.nodup_flatMap]
    constructor
    · intro py _
      exact (List.nodup_range' _ _).map (fun a b h => by simpa using h)
    · refine (List.pairwise_lt_range' t.startY (t.endY r - t.startY)).imp ?_
      intro a c hac
      simp only [Function.onFun]
      intro k hk1 hk2
      simp only [List.mem_map] at hk1 hk2
      obtain ⟨_, _, rfl⟩ := hk1
      obtain ⟨_, _, h⟩ := hk2
      have := congrArg Prod.snd h
      simp only at this
      omega
  refine List.Nodup.map_on ?_ hnd
  intro k hk k' hk' h
  rw [mem_scanBox] at hk hk'
  have hw := endX_le_width r t
  have := pixelIdx_inj r k.1 k.2 k'.1 k'.2 (by have := hk.2.1; omega) (by have := hk'.2.1; omega) h
  exact Prod.ext this.1 this.2

theorem scanTriangle_at (ext : Externals) (r : SoftwareRenderer) (t : Triangle) (b : Buffers)
    (px py : Nat) (h : InScanBox r t px py) :
    (scanTriangle ext r t b).depthBufferPixels (pixelIdx r px py) =
        (scanPixel ext r t b px py).depthBufferPixels (pixelIdx r px py) ∧
      (scanTriangle ext r t b).backBufferPixels (pixelIdx r px py) =
        (scanPixel ext r t b px py).backBufferPixels (pixelIdx r px py) := by
  rw [scanTriangle_eq_scanList]
  exact scanList_at ext r t (scanBox r t) b (scanBox_nodup r t) (px, py)
    ((mem_scanBox r t (px, py)).2 h)

theorem scanTriangle_other (ext : Externals) (r : SoftwareRenderer) (t : Triangle) (b : Buffers)
    (i : Nat) (h : ∀ px py, InScanBox r t px py → pixelIdx r px py ≠ i) :
    (scanTriangle ext r t b).depthBufferPixels i = b.depthBufferPixels i ∧
      (scanTriangle ext r t b).backBufferPixels i = b.backBufferPixels i := by
  rw [scanTriangle_eq_scanList]
  exact scanList_other ext r t i (scanBox r t) b
    (fun k hk => h k.1 k.2 ((mem_scanBox r t k).1 hk))

theorem scanTriangle_writes (ext : Externals) (r : SoftwareRenderer) (t : Triangle) (b : Buffers) :
    ∃ added, (scanTriangle ext r t b).writes = b.writes ++ added ∧
      ∀ w, w ∈ added ↔
        ∃ px py, InScanBox r t px py ∧
          w ∈ pixelWrites ext r t (b.depthBufferPixels (pixelIdx r px py)) px py := by
  rw [scanTriangle_eq_scanList]
  obtain ⟨added, h1, h2⟩ := scanList_writes ext r t (scanBox r t) b (scanBox_nodup r t)
  refine ⟨added, h1, fun w => ?_⟩
  rw [h2]
  constructor
  · rintro ⟨k, hk, h⟩
    exact ⟨k.1, k.2, (mem_scanBox r t k).1 hk, h⟩
  · rintro ⟨px, py, hk, h⟩
    exact ⟨(px, py), (mem_scanBox r t (px, py)).2 hk, h⟩

/-- The scan-loop body at its own pixel, with the bounding-box view off. -/
theorem scanPixel_self (ext : Externals) (r : SoftwareRenderer) (t : Triangle) (b : Buffers)
    (px py : Nat) (hbb : r.m_ShowBoundingBox = false) :
    (scanPixel ext r t b px py).depthBufferPixels (pixelIdx r px py) =
        (if PassesCull r t px py ∧
            ¬ b.depthBufferPixels (pixelIdx r px py) < t.interpolatedZDepth px py
          then t.interpolatedZDepth px py else b.depthBufferPixels (pixelIdx r px py)) ∧
      (scanPixel ext r t b px py).backBufferPixels (pixelIdx r px py) =
        (if PassesCull r t px py ∧
            ¬ b.depthBufferPixels (pixelIdx r px py) < t.interpolatedZDepth px py
          then shadedPixel ext r (t.pixelInfo ext r px py)
          else b.backBufferPixels (pixelIdx r px py)) := by
  unfold scanPixel PixelShading Buffers.storePixel Buffers.storeDepth PassesCull pixelIdx
  simp only [hbb]
  by_cases hc : cullRejects r.m_CullMode (t.isFrontFaceHit px py) (t.isBackFaceHit px py) = true
  · simp [hc]
  · simp only [Bool.not_eq_true] at hc
    by_cases hd : b.depthBufferPixels (px + py * r.m_Width) < t.interpolatedZDepth px py
    · simp [hc, hd]
    · simp [hc, hd]

theorem pixelWrites_pixelIdx (ext : Externals) (r : SoftwareRenderer) (t : Triangle) (d : ℚ)
    (px py : Nat) (w : Write) (h : w ∈ pixelWrites ext r t d px py) :
    w.pixelIdx = pixelIdx r px py := by
  unfold pixelWrites at h
  split_ifs at h
  · simp at h; subst h; rfl
  · simp at h
  · simp at h
  · simp at h
    rcases h with rfl | rfl <;> rfl

/-- The stores of the scan-loop body with the bounding-box view off. -/
theorem pixelWrites_off (ext : Externals) (r : SoftwareRenderer) (t : Triangle) (d : ℚ)
    (px py : Nat) (hbb : r.m_ShowBoundingBox = false) :
    pixelWrites ext r t d px py =
      if PassesCull r t px py ∧ ¬ d < t.interpolatedZDepth px py then
        [Write.depth (pixelIdx r px py) d (t.interpolatedZDepth px py),
          Write.colour (pixelIdx r px py) (shadedPixel ext r (t.pixelInfo ext r px py))]
      else [] := by
  unfold pixelWrites PassesCull
  simp only [hbb]
  by_cases hc : cullRejects r.m_CullMode (t.isFrontFaceHit px py) (t.isBackFaceHit px py) = true
  · simp [hc]
  · simp only [Bool.not_eq_true] at hc
    by_cases hd : d < t.interpolatedZDepth px py
    · simp [hc, hd]
    · simp [hc, hd]

theorem IsOutsideFrustum_iff (v : Vector4) : IsOutsideFrustum v = true ↔ OutsideClipVolume v := by
  unfold IsOutsideFrustum OutsideClipVolume
  simp only [Bool.or_eq_true, decide_eq_true_eq, gt_iff_lt, or_assoc]

/-! ## Dispatch stage -/

/-- C1: for a triangle-list index buffer of `3 * T` entries and `C >= 1` cores,
the Async (TaskParallel) dispatch of `Render` calls `RenderTriangle` with start
index `3 * k` and swap flag `false` exactly once for every `k < T`, and makes no
other call: the calls in launch order are those of triangles `0, 1, .., T - 1`. -/
theorem C1_async_list_each_triangle_once (T C : Nat) (hC : 1 ≤ C) :
    ∃ calls, dispatchCalls .TriangleList .Async (3 * T) C = some calls ∧
      calls = (List.range T).map (fun k => (⟨3 * k, false⟩ : Call)) ∧
      (∀ k, k < T → calls.count ⟨3 * k, false⟩ = 1) ∧
      (∀ c ∈ calls, ∃ k, k < T ∧ c = ⟨3 * k, false⟩) := by
  refine ⟨(List.range T).map (fun k => (⟨3 * k, false⟩ : Call)), ?_, rfl, ?_, ?_⟩
  · have h0 : C ≠ 0 := by omega
    simp only [dispatchCalls, h0, if_false]
    rw [asyncListCalls_eq T C hC]
  · intro k hk
    apply List.count_eq_one_of_mem
    · refine (List.nodup_range T).map ?_
      intro a c h
      have := congrArg Call.curVertexIdx h
      simp only at this
      omega
    · exact List.mem_map.2 ⟨k, List.mem_range.2 hk, rfl⟩
  · intro c hc
    obtain ⟨k, hk, rfl⟩ := List.mem_map.1 hc
    exact ⟨k, List.mem_range.1 hk, rfl⟩

/-- C1, an instance: five triangles on four cores. -/
theorem C1_async_list_each_triangle_once_witness :
    1 ≤ 4 ∧ ∃ calls, dispatchCalls .TriangleList .Async (3 * 5) 4 = some calls ∧
      calls = (List.range 5).map (fun k => (⟨3 * k, false⟩ : Call)) ∧
      (∀ k, k < 5 → calls.count ⟨3 * k, false⟩ = 1) ∧
      (∀ c ∈ calls, ∃ k, k < 5 ∧ c = ⟨3 * k, false⟩) :=
  ⟨by decide, C1_async_list_each_triangle_once 5 4 (by decide)⟩

/-- C2: on a triangle list of four indices the three thread modes do not make
the same calls: the Synchronous loop also calls `RenderTriangle` with start
index 3, a call the Async branch filters out (`triangleIdx + 2 < indices.size()`)
and the Parallel branch never makes; that call reads the index buffer at
positions 4 and 5, outside the buffer. -/
theorem C2_sync_list_makes_extra_call :
    dispatchCalls .TriangleList .Synchronous 4 1 = some [⟨0, false⟩, ⟨3, false⟩] ∧
      dispatchCalls .TriangleList .Async 4 1 = some [⟨0, false⟩] ∧
      dispatchCalls .TriangleList .Parallel 4 1 = some [⟨0, false⟩] ∧
      ∀ (ext : Externals) (r : SoftwareRenderer) (b : Buffers) (rasterVertices : List Vector2)
        (verticesOut : List Vertex_Out),
        RenderTriangle ext r b rasterVertices verticesOut [0, 1, 2, 0] 3 false = none := by
  refine ⟨by decide, by decide, by decide, ?_⟩
  intro ext r b rv vo
  simp [RenderTriangle]

/-! ## Rasterization stage: rejected triangles -/

/-- C3, as stated, fails: with a single vertex and the index triple `(0, 1, 2)`,
whose indices 1 and 2 are out of range, `RenderTriangle` does not skip the
triangle but reads the vertex array out of range. -/
theorem C3_out_of_range_read :
    (1 : Nat) ≥ [demoVertex 0 0 (1 / 2)].length ∧
      RenderTriangle demoExternals demoRenderer demoBuffers [⟨4, 4⟩]
        [demoVertex 0 0 (1 / 2)] [0, 1, 2] 0 false = none := by
  constructor
  · decide
  · norm_num [RenderTriangle, demoVertex, IsOutsideFrustum]

/-- C3, amended: `RenderTriangle` never compares a vertex index with the number
of vertices. For a resolved index triple that contains an out-of-range index it
draws nothing: either it leaves both buffers unchanged or it reads the vertex
array out of range. It returns without that read exactly when two of the three
indices are equal, or vertex 0 is in range and outside the clip volume, or
vertices 0 and 1 are in range and vertex 1 is outside the clip volume. -/
theorem C3_out_of_range_index (ext : Externals) (r : SoftwareRenderer) (b : Buffers)
    (rasterVertices : List Vector2) (verticesOut : List Vertex_Out) (indices : List Nat)
    (curVertexIdx : Nat) (swapVertices : Bool) (i0 i1 i2 : Nat)
    (h0 : indices[curVertexIdx]? = some i0)
    (h1 : indices[curVertexIdx + 1 * (!swapVertices).toNat + 2 * swapVertices.toNat]? = some i1)
    (h2 : indices[curVertexIdx + 2 * (!swapVertices).toNat + 1 * swapVertices.toNat]? = some i2)
    (hout : verticesOut.length ≤ i0 ∨ verticesOut.length ≤ i1 ∨ verticesOut.length ≤ i2) :
    (RenderTriangle ext r b rasterVertices verticesOut indices curVertexIdx swapVertices = some b ∨
      RenderTriangle ext r b rasterVertices verticesOut indices curVertexIdx swapVertices = none) ∧
    (RenderTriangle ext r b rasterVertices verticesOut indices curVertexIdx swapVertices = some b ↔
      (i0 = i1 ∨ i1 = i2 ∨ i0 = i2) ∨
        ∃ o0, verticesOut[i0]? = some o0 ∧
          (OutsideClipVolume o0.position ∨
            ∃ o1, verticesOut[i1]? = some o1 ∧ OutsideClipVolume o1.position)) := by
  unfold RenderTriangle
  simp only [h0, h1, h2]
  by_cases heq : i0 = i1 ∨ i1 = i2 ∨ i0 = i2
  · simp [heq]
  · rw [if_neg heq]
    simp only [heq, false_or]
    cases hv0 : verticesOut[i0]? with
    | none => simp
    | some o0 =>
      simp only [Option.some.injEq, exists_eq_left']
      by_cases hf0 : IsOutsideFrustum o0.position = true
      · simp [hf0, (IsOutsideFrustum_iff _).1 hf0]
      · have hf0' : ¬ OutsideClipVolume o0.position := fun h => hf0 ((IsOutsideFrustum_iff _).2 h)
        simp only [hf0, if_false, hf0', false_or]
        cases hv1 : verticesOut[i1]? with
        | none => simp
        | some o1 =>
          simp only [Option.some.injEq, exists_eq_left']
          by_cases hf1 : IsOutsideFrustum o1.position = true
          · simp [hf1, (IsOutsideFrustum_iff _).1 hf1]
          · have hf1' : ¬ OutsideClipVolume o1.position :=
              fun h => hf1 ((IsOutsideFrustum_iff _).2 h)
            simp only [hf1, if_false, hf1']
            have hlt0 : i0 < verticesOut.length := by
              by_contra hge
              rw [List.getElem?_eq_none (by omega)] at hv0
              cases hv0
            have hlt1 : i1 < verticesOut.length := by
              by_contra hge
              rw [List.getElem?_eq_none (by omega)] at hv1
              cases hv1
            have hge2 : verticesOut.length ≤ i2 := by omega
            rw [List.getElem?_eq_none hge2]
            simp

/-- C3, an instance of the amended statement: the triple `(0, 0, 5)` on a
single vertex is skipped without a read of the vertex array. -/
theorem C3_out_of_range_index_witness :
    ([0, 0, 5] : List Nat)[0]? = some 0 ∧
      ([0, 0, 5] : List Nat)[0 + 1 * (!false).toNat + 2 * false.toNat]? = some 0 ∧
      ([0, 0, 5] : List Nat)[0 + 2 * (!false).toNat + 1 * false.toNat]? = some 5 ∧
      ([demoVertex 0 0 (1 / 2)].length ≤ 0 ∨ [demoVertex 0 0 (1 / 2)].length ≤ 0 ∨
        [demoVertex 0 0 (1 / 2)].length ≤ 5) ∧
      RenderTriangle demoExternals demoRenderer demoBuffers [⟨4, 4⟩] [demoVertex 0 0 (1 / 2)]
        [0, 0, 5] 0 false = some demoBuffers :=
  ⟨rfl, rfl, rfl, Or.inr (Or.inr (by decide)),
    ((C3_out_of_range_index demoExternals demoRenderer demoBuffers [⟨4, 4⟩]
      [demoVertex 0 0 (1 / 2)] [0, 0, 5] 0 false 0 0 5 rfl rfl rfl
      (Or.inr (Or.inr (by decide)))).2).2 (Or.inl (Or.inl rfl))⟩

/-- C4: `RenderTriangle` leaves the depth buffer and the pixel buffer unchanged
(and stores nothing) whenever two of the three resolved vertex indices are
equal, or one of the three vertices has a post-divide position with `x` or `y`
outside `[-1, 1]` or `z` outside `[0, 1]`, or the raster-space signed area
`Cross(edge01, edge12)` is zero. -/
theorem C4_rejected_triangle_unchanged (ext : Externals) (r : SoftwareRenderer) (b : Buffers)
    (rasterVertices : List Vector2) (verticesOut : List Vertex_Out) (indices : List Nat)
    (curVertexIdx : Nat) (swapVertices : Bool) (i0 i1 i2 : Nat) (o0 o1 o2 : Vertex_Out)
    (v0 v1 v2 : Vector2)
    (h0 : indices[curVertexIdx]? = some i0)
    (h1 : indices[curVertexIdx + 1 * (!swapVertices).toNat + 2 * swapVertices.toNat]? = some i1)
    (h2 : indices[curVertexIdx + 2 * (!swapVertices).toNat + 1 * swapVertices.toNat]? = some i2)
    (ho0 : verticesOut[i0]? = some o0) (ho1 : verticesOut[i1]? = some o1)
    (ho2 : verticesOut[i2]? = some o2) (hv0 : rasterVertices[i0]? = some v0)
    (hv1 : rasterVertices[i1]? = some v1) (hv2 : rasterVertices[i2]? = some v2)
    (hrej : (i0 = i1 ∨ i1 = i2 ∨ i0 = i2) ∨ OutsideClipVolume o0.position ∨
      OutsideClipVolume o1.position ∨ OutsideClipVolume o2.position ∨
      Vector2.Cross (v1 - v0) (v2 - v1) = 0) :
    RenderTriangle ext r b rasterVertices verticesOut indices curVertexIdx swapVertices =
      some b := by
  unfold RenderTriangle
  simp only [h0, h1, h2, ho0, ho1, ho2, hv0, hv1, hv2]
  by_cases heq : i0 = i1 ∨ i1 = i2 ∨ i0 = i2
  · rw [if_pos heq]
  · rw [if_neg heq]
    by_cases hf0 : IsOutsideFrustum o0.position = true
    · rw [if_pos hf0]
    · rw [if_neg hf0]
      by_cases hf1 : IsOutsideFrustum o1.position = true
      · rw [if_pos hf1]
      · rw [if_neg hf1]
        by_cases hf2 : IsOutsideFrustum o2.position = true
        · rw [if_pos hf2]
        · rw [if_neg hf2]
          have harea : Vector2.Cross (v1 - v0) (v2 - v1) = 0 := by
            rcases hrej with h | h | h | h | h
            · exact absurd h heq
            · exact absurd ((IsOutsideFrustum_iff _).2 h) hf0
            · exact absurd ((IsOutsideFrustum_iff _).2 h) hf1
            · exact absurd ((IsOutsideFrustum_iff _).2 h) hf2
            · exact h
          have hlt : |Triangle.fullTriangleArea ⟨v0, v1, v2, o0, o1, o2⟩| < FLT_EPSILON := by
            unfold Triangle.fullTriangleArea
            simp only [harea, abs_zero]
            unfold FLT_EPSILON
            norm_num
          unfold rasterize
          rw [if_pos hlt]

/-- C4, an instance: the three demo vertices in a row, `(1,1)`, `(5,1)`,
`(3,1)`, make a triangle of zero area. -/
theorem C4_rejected_triangle_unchanged_witness :
    ([0, 1, 2] : List Nat)[0]? = some 0 ∧
      ([0, 1, 2] : List Nat)[0 + 1 * (!false).toNat + 2 * false.toNat]? = some 1 ∧
      ([0, 1, 2] : List Nat)[0 + 2 * (!false).toNat + 1 * false.toNat]? = some 2 ∧
      Vector2.Cross ((⟨5, 1⟩ : Vector2) - ⟨1, 1⟩) ((⟨3, 1⟩ : Vector2) - ⟨5, 1⟩) = 0 ∧
      RenderTriangle demoExternals demoRenderer demoBuffers [⟨1, 1⟩, ⟨5, 1⟩, ⟨3, 1⟩]
        demoVerticesOut [0, 1, 2] 0 false = some demoBuffers :=
  have harea : Vector2.Cross ((⟨5, 1⟩ : Vector2) - ⟨1, 1⟩) ((⟨3, 1⟩ : Vector2) - ⟨5, 1⟩) = 0 := by
    norm_num [Vector2.Cross, Vector2.sub_def]
  ⟨rfl, rfl, rfl, harea,
    C4_rejected_triangle_unchanged demoExternals demoRenderer demoBuffers
      [⟨1, 1⟩, ⟨5, 1⟩, ⟨3, 1⟩] demoVerticesOut [0, 1, 2] 0 false 0 1 2
      (demoVertex (-3 / 4) (3 / 4) (1 / 2)) (demoVertex (1 / 4) (3 / 4) (1 / 2))
      (demoVertex (-3 / 4) (-1 / 4) (1 / 2)) ⟨1, 1⟩ ⟨5, 1⟩ ⟨3, 1⟩ rfl rfl rfl rfl rfl rfl rfl rfl rfl
      (Or.inr (Or.inr (Or.inr (Or.inr harea))))⟩

/-! ## Rasterization stage: barycentric weights -/

/-- C8: for a triangle of non-zero raster-space signed area and any pixel
`(px, py)`, the three edge-function values of `RenderTriangle` sum to
`fullTriangleArea = Cross(edge01, edge12)`, and the three barycentric weights
`weightV0`, `weightV1`, `weightV2` sum to exactly 1. -/
theorem C8_barycentric_weights_sum_to_one (t : Triangle) (px py : Nat)
    (harea : t.fullTriangleArea ≠ 0) :
    t.edge01PointCross px py + t.edge12PointCross px py + t.edge20PointCross px py =
        t.fullTriangleArea ∧
      t.fullTriangleArea = Vector2.Cross (t.v1 - t.v0) (t.v2 - t.v1) ∧
      t.weightV0 px py + t.weightV1 px py + t.weightV2 px py = 1 := by
  have hsum : t.edge01PointCross px py + t.edge12PointCross px py + t.edge20PointCross px py =
      t.fullTriangleArea := by
    unfold Triangle.edge01PointCross Triangle.edge12PointCross Triangle.edge20PointCross
      Triangle.fullTriangleArea
    simp only [Vector2.Cross, Vector2.sub_def, curPixel]
    ring
  refine ⟨hsum, rfl, ?_⟩
  unfold Triangle.weightV0 Triangle.weightV1 Triangle.weightV2
  rw [← add_div, ← add_div, show t.edge12PointCross px py + t.edge20PointCross px py +
    t.edge01PointCross px py = t.fullTriangleArea by rw [← hsum]; ring]
  exact div_self harea

/-- C8, an instance: the demo triangle, of area 16, at the pixel `(2, 2)`. -/
theorem C8_barycentric_weights_sum_to_one_witness :
    demoTriangle.fullTriangleArea ≠ 0 ∧
      demoTriangle.edge01PointCross 2 2 + demoTriangle.edge12PointCross 2 2 +
          demoTriangle.edge20PointCross 2 2 = demoTriangle.fullTriangleArea ∧
      demoTriangle.fullTriangleArea =
        Vector2.Cross (demoTriangle.v1 - demoTriangle.v0) (demoTriangle.v2 - demoTriangle.v1) ∧
      demoTriangle.weightV0 2 2 + demoTriangle.weightV1 2 2 + demoTriangle.weightV2 2 2 = 1 :=
  have harea : demoTriangle.fullTriangleArea ≠ 0 := by
    norm_num [Triangle.fullTriangleArea, demoTriangle, Vector2.Cross, Vector2.sub_def]
  ⟨harea, C8_barycentric_weights_sum_to_one demoTriangle 2 2 harea⟩

/-! ## Depth never increases -/

theorem scanPixel_depth_le (ext : Externals) (r : SoftwareRenderer) (t : Triangle) (b : Buffers)
    (px py i : Nat) :
    (scanPixel ext r t b px py).depthBufferPixels i ≤ b.depthBufferPixels i := by
  unfold scanPixel PixelShading Buffers.storePixel Buffers.storeDepth
  simp only
  split_ifs with h1 h2 h3
  · exact le_refl _
  · exact le_refl _
  · exact le_refl _
  · simp only
    split_ifs with h4
    · subst h4
      exact not_lt.1 h3
    · exact le_refl _

theorem scanList_depth_le (ext : Externals) (r : SoftwareRenderer) (t : Triangle) (i : Nat) :
    ∀ (ks : List (Nat × Nat)) (b : Buffers),
      (scanList ext r t ks b).depthBufferPixels i ≤ b.depthBufferPixels i := by
  intro ks
  induction ks with
  | nil => intro b; exact le_refl _
  | cons k rest ih =>
    intro b
    have h1 := ih (scanPixel ext r t b k.1 k.2)
    have h2 := scanPixel_depth_le ext r t b k.1 k.2 i
    simp only [scanList, List.foldl_cons] at h1 ⊢
    exact le_trans h1 h2

theorem rasterize_depth_le (ext : Externals) (r : SoftwareRenderer) (t : Triangle) (b : Buffers)
    (i : Nat) : (rasterize ext r t b).depthBufferPixels i ≤ b.depthBufferPixels i := by
  unfold rasterize
  split_ifs
  · exact le_refl _
  · rw [scanTriangle_eq_scanList]
    exact scanList_depth_le ext r t i _ b

theorem RenderTriangle_depth_le (ext : Externals) (r : SoftwareRenderer) (b b' : Buffers)
    (rv : List Vector2) (vo : List Vertex_Out) (indices : List Nat) (cur : Nat) (swap : Bool)
    (h : RenderTriangle ext r b rv vo indices cur swap = some b') (i : Nat) :
    b'.depthBufferPixels i ≤ b.depthBufferPixels i := by
  rw [RenderTriangle_eq_resolve] at h
  cases hres : resolveTriangle rv vo indices cur swap with
  | fault => rw [hres] at h; cases h
  | skip =>
    rw [hres] at h
    simp only [Option.some.injEq] at h
    subst h
    exact le_refl _
  | draw t =>
    rw [hres] at h
    simp only [Option.some.injEq] at h
    subst h
    exact rasterize_depth_le ext r t b i

theorem runCalls_depth_le (ext : Externals) (r : SoftwareRenderer) (rv : List Vector2)
    (vo : List Vertex_Out) (indices : List Nat) (i : Nat) :
    ∀ (calls : List Call) (b b' : Buffers), runCalls ext r rv vo indices calls b = some b' →
      b'.depthBufferPixels i ≤ b.depthBufferPixels i := by
  intro calls
  induction calls with
  | nil =>
    intro b b' h
    simp only [runCalls, Option.some.injEq] at h
    subst h
    exact le_refl _
  | cons c rest ih =>
    intro b b' h
    simp only [runCalls] at h
    cases hc : RenderTriangle ext r b rv vo indices c.curVertexIdx c.swapVertices with
    | none => rw [hc] at h; cases h
    | some b1 =>
      rw [hc] at h
      exact le_trans (ih b1 b' h) (RenderTriangle_depth_le ext r b b1 rv vo indices _ _ hc i)

theorem beginFrame_depth (ext : Externals) (u : Bool) (b : Buffers) (i : Nat) :
    (beginFrame ext u b).depthBufferPixels i = FLT_MAX := rfl

theorem beginFrame_pixels (ext : Externals) (u : Bool) (b : Buffers) (i : Nat) :
    (beginFrame ext u b).backBufferPixels i =
      ext.mapRGB (clearColorValue u) (clearColorValue u) (clearColorValue u) := rfl

theorem beginFrame_writes (ext : Externals) (u : Bool) (b : Buffers) :
    (beginFrame ext u b).writes = [] := rfl

theorem Render_depth_le (ext : Externals) (nrCores : Nat) (u : Bool) (r r' : SoftwareRenderer)
    (b b' : Buffers) (h : Render ext nrCores u r b = some (r', b')) (i : Nat) :
    b'.depthBufferPixels i ≤ FLT_MAX := by
  unfold Render at h
  simp only at h
  cases hm : r.m_pMesh with
  | none =>
    rw [hm] at h
    simp only [Option.some.injEq, Prod.mk.injEq] at h
    rw [← h.2]
    exact le_refl _
  | some mesh =>
    rw [hm] at h
    simp only at h
    cases hd : dispatchCalls mesh.m_PrimitiveTopology r.m_ThreadMode mesh.m_Indices.length
        nrCores with
    | none => rw [hd] at h; cases h
    | some calls =>
      rw [hd] at h
      simp only [Option.map_eq_some', Prod.mk.injEq] at h
      obtain ⟨b1, hrun, -, rfl⟩ := h
      exact runCalls_depth_le ext r _ _ _ i calls _ _ hrun

/-- A drawn triangle: `RenderTriangle` reaches the scan loops. -/
theorem RenderTriangle_draw (ext : Externals) (r : SoftwareRenderer) (b : Buffers)
    (rv : List Vector2) (vo : List Vertex_Out) (indices : List Nat) (cur : Nat) (swap : Bool)
    (t : Triangle) (hres : resolveTriangle rv vo indices cur swap = .draw t)
    (harea : FLT_EPSILON ≤ |t.fullTriangleArea|) :
    RenderTriangle ext r b rv vo indices cur swap = some (scanTriangle ext r t b) := by
  rw [RenderTriangle_eq_resolve, hres]
  simp only [rasterize, if_neg (not_lt.2 harea)]

/-! ## A drawn triangle, pixel by pixel -/

/-- A pixel of the scan box after the scan, with the bounding-box view off. -/
theorem scanTriangle_pixel (ext : Externals) (r : SoftwareRenderer) (t : Triangle) (b : Buffers)
    (px py : Nat) (hbb : r.m_ShowBoundingBox = false) (hbox : InScanBox r t px py) :
    (scanTriangle ext r t b).depthBufferPixels (pixelIdx r px py) =
        (if PassesCull r t px py ∧
            ¬ b.depthBufferPixels (pixelIdx r px py) < t.interpolatedZDepth px py
          then t.interpolatedZDepth px py else b.depthBufferPixels (pixelIdx r px py)) ∧
      (scanTriangle ext r t b).backBufferPixels (pixelIdx r px py) =
        (if PassesCull r t px py ∧
            ¬ b.depthBufferPixels (pixelIdx r px py) < t.interpolatedZDepth px py
          then shadedPixel ext r (t.pixelInfo ext r px py)
          else b.backBufferPixels (pixelIdx r px py)) := by
  have hat := scanTriangle_at ext r t b px py hbox
  have hself := scanPixel_self ext r t b px py hbb
  exact ⟨hat.1.trans hself.1, hat.2.trans hself.2⟩

/-- A pixel of the scan box that passes the cull test and the depth test. -/
theorem scanTriangle_pixel_pass (ext : Externals) (r : SoftwareRenderer) (t : Triangle)
    (b : Buffers) (px py : Nat) (hbb : r.m_ShowBoundingBox = false)
    (hbox : InScanBox r t px py) (hcull : PassesCull r t px py)
    (hd : ¬ b.depthBufferPixels (pixelIdx r px py) < t.interpolatedZDepth px py) :
    (scanTriangle ext r t b).depthBufferPixels (pixelIdx r px py) = t.interpolatedZDepth px py ∧
      (scanTriangle ext r t b).backBufferPixels (pixelIdx r px py) =
        shadedPixel ext r (t.pixelInfo ext r px py) := by
  have h := scanTriangle_pixel ext r t b px py hbb hbox
  simp only [hcull, hd, not_false_eq_true, and_self, if_true] at h
  exact h

/-- A pixel of the scan box that fails the cull test or the depth test. -/
theorem scanTriangle_pixel_fail (ext : Externals) (r : SoftwareRenderer) (t : Triangle)
    (b : Buffers) (px py : Nat) (hbb : r.m_ShowBoundingBox = false)
    (hbox : InScanBox r t px py)
    (hd : ¬ PassesCull r t px py ∨
      b.depthBufferPixels (pixelIdx r px py) < t.interpolatedZDepth px py) :
    (scanTriangle ext r t b).depthBufferPixels (pixelIdx r px py) =
        b.depthBufferPixels (pixelIdx r px py) ∧
      (scanTriangle ext r t b).backBufferPixels (pixelIdx r px py) =
        b.backBufferPixels (pixelIdx r px py) := by
  have h := scanTriangle_pixel ext r t b px py hbb hbox
  have hcond : ¬ (PassesCull r t px py ∧
      ¬ b.depthBufferPixels (pixelIdx r px py) < t.interpolatedZDepth px py) := by
    rintro ⟨h1, h2⟩
    rcases hd with hd | hd
    · exact hd h1
    · exact h2 hd
  simp only [hcond, if_false] at h
  exact h

/-- The stores a scan adds go to pixels of the scan box that pass the cull
test and the depth test (bounding-box view off). -/
theorem scanTriangle_added (ext : Externals) (r : SoftwareRenderer) (t : Triangle) (b : Buffers)
    (hbb : r.m_ShowBoundingBox = false) :
    ∃ added, (scanTriangle ext r t b).writes = b.writes ++ added ∧
      ∀ w, w ∈ added ↔
        ∃ px py, InScanBox r t px py ∧ PassesCull r t px py ∧
          ¬ b.depthBufferPixels (pixelIdx r px py) < t.interpolatedZDepth px py ∧
          (w = Write.depth (pixelIdx r px py) (b.depthBufferPixels (pixelIdx r px py))
              (t.interpolatedZDepth px py) ∨
            w = Write.colour (pixelIdx r px py) (shadedPixel ext r (t.pixelInfo ext r px py))) := by
  obtain ⟨added, hw, hmem⟩ := scanTriangle_writes ext r t b
  refine ⟨added, hw, fun w => ?_⟩
  rw [hmem]
  constructor
  · rintro ⟨px, py, hbox, hin⟩
    rw [pixelWrites_off ext r t _ px py hbb] at hin
    split_ifs at hin with hc
    · refine ⟨px, py, hbox, hc.1, hc.2, ?_⟩
      simpa using hin
    · cases hin
  · rintro ⟨px, py, hbox, hc, hd, hw'⟩
    refine ⟨px, py, hbox, ?_⟩
    rw [pixelWrites_off ext r t _ px py hbb, if_pos ⟨hc, hd⟩]
    simpa using hw'

theorem Write.pixelIdx_depth (i : Nat) (d v : ℚ) : (Write.depth i d v).pixelIdx = i := rfl

theorem Write.pixelIdx_colour (i c : Nat) : (Write.colour i c).pixelIdx = i := rfl

/-- The pixels stored to after a scan (bounding-box view off). -/
theorem scanTriangle_written (ext : Externals) (r : SoftwareRenderer) (t : Triangle)
    (b : Buffers) (hbb : r.m_ShowBoundingBox = false) (i : Nat) :
    (scanTriangle ext r t b).Written i ↔
      b.Written i ∨
        ∃ px py, InScanBox r t px py ∧ pixelIdx r px py = i ∧ PassesCull r t px py ∧
          ¬ b.depthBufferPixels i < t.interpolatedZDepth px py := by
  obtain ⟨added, hw, hmem⟩ := scanTriangle_added ext r t b hbb
  unfold Buffers.Written
  rw [hw]
  constructor
  · rintro ⟨w, hwin, hwi⟩
    rcases List.mem_append.1 hwin with h | h
    · exact Or.inl ⟨w, h, hwi⟩
    · obtain ⟨px, py, hbox, hc, hd, hw'⟩ := (hmem w).1 h
      have hidx : pixelIdx r px py = i := by
        rcases hw' with rfl | rfl
        · exact hwi
        · exact hwi
      refine Or.inr ⟨px, py, hbox, hidx, hc, ?_⟩
      rw [← hidx]
      exact hd
  · rintro (⟨w, hwin, hwi⟩ | ⟨px, py, hbox, hidx, hc, hd⟩)
    · exact ⟨w, List.mem_append_left _ hwin, hwi⟩
    · refine ⟨Write.depth (pixelIdx r px py) (b.depthBufferPixels (pixelIdx r px py))
        (t.interpolatedZDepth px py), List.mem_append_right _ ?_, hidx⟩
      refine (hmem _).2 ⟨px, py, hbox, hc, ?_, Or.inl rfl⟩
      rw [hidx]
      exact hd

/-! ## Facts about the concrete scene -/

theorem demo_resolve :
    resolveTriangle demoRaster demoVerticesOut [0, 1, 2] 0 false = .draw demoTriangle := by
  simp [resolveTriangle, demoRaster, demoVerticesOut, IsOutsideFrustum, demoVertex, demoTriangle]
  norm_num

theorem demo_area : FLT_EPSILON ≤ |demoTriangle.fullTriangleArea| := by
  norm_num [Triangle.fullTriangleArea, demoTriangle, Vector2.Cross, Vector2.sub_def, FLT_EPSILON]

theorem demo_inScanBox : InScanBox demoRenderer demoTriangle 2 2 := by
  have h6 : truncToInt (6 : ℚ) = 6 := by exact_mod_cast truncToInt_natCast 6
  have h0 : truncToInt (0 : ℚ) = 0 := by exact_mod_cast truncToInt_natCast 0
  norm_num [InScanBox, Triangle.startX, Triangle.endX, Triangle.startY, Triangle.endY,
    demoTriangle, Vector2.Min, Vector2.Max, demoRenderer, h6, h0]

theorem demo_passesCull : PassesCull demoRenderer demoTriangle 2 2 := by
  norm_num [PassesCull, cullRejects, Triangle.isFrontFaceHit, Triangle.isBackFaceHit,
    Triangle.edge01PointCross, Triangle.edge12PointCross, Triangle.edge20PointCross, curPixel,
    demoTriangle, Vector2.Cross, Vector2.sub_def, demoRenderer]
  decide

theorem demo_depth : demoTriangle.interpolatedZDepth 2 2 = 1 / 2 := by
  norm_num [Triangle.interpolatedZDepth, Triangle.weightV0, Triangle.weightV1,
    Triangle.weightV2, Triangle.fullTriangleArea, Triangle.edge01PointCross,
    Triangle.edge12PointCross, Triangle.edge20PointCross, curPixel, demoTriangle, Vector2.Cross,
    Vector2.sub_def, demoVertex]

theorem demo_pixelIdx : pixelIdx demoRenderer 2 2 = 18 := rfl

/-! ## The scan box holds every pixel that passes the cull test -/

theorem passesCull_hit (r : SoftwareRenderer) (t : Triangle) (px py : Nat)
    (h : PassesCull r t px py) :
    t.isFrontFaceHit px py = true ∨ t.isBackFaceHit px py = true := by
  unfold PassesCull cullRejects at h
  cases hf : t.isFrontFaceHit px py <;> cases hb : t.isBackFaceHit px py <;>
    cases hm : r.m_CullMode <;> simp [hf, hb, hm] at h ⊢

theorem FLT_EPSILON_pos : 0 < FLT_EPSILON := by
  unfold FLT_EPSILON
  norm_num

/-- A point with barycentric weights of one sign lies between the least and
the greatest of the three coordinates. -/
theorem between_of_weights (e0 e1 e2 a x0 x1 x2 p lo hi : ℚ) (hsum : e0 + e1 + e2 = a)
    (hp : a * p = e0 * x0 + e1 * x1 + e2 * x2) (ha : a ≠ 0)
    (hsign : (0 ≤ e0 ∧ 0 ≤ e1 ∧ 0 ≤ e2) ∨ (e0 ≤ 0 ∧ e1 ≤ 0 ∧ e2 ≤ 0))
    (hlo0 : lo ≤ x0) (hlo1 : lo ≤ x1) (hlo2 : lo ≤ x2)
    (hhi0 : x0 ≤ hi) (hhi1 : x1 ≤ hi) (hhi2 : x2 ≤ hi) : lo ≤ p ∧ p ≤ hi := by
  rcases hsign with ⟨h0, h1, h2⟩ | ⟨h0, h1, h2⟩
  · have hapos : 0 < a := lt_of_le_of_ne (by linarith) (Ne.symm ha)
    constructor
    · have h : a * lo ≤ a * p := by
        rw [hp, ← hsum]
        nlinarith [mul_le_mul_of_nonneg_left hlo0 h0, mul_le_mul_of_nonneg_left hlo1 h1,
          mul_le_mul_of_nonneg_left hlo2 h2]
      exact le_of_mul_le_mul_left h hapos
    · have h : a * p ≤ a * hi := by
        rw [hp, ← hsum]
        nlinarith [mul_le_mul_of_nonneg_left hhi0 h0, mul_le_mul_of_nonneg_left hhi1 h1,
          mul_le_mul_of_nonneg_left hhi2 h2]
      exact le_of_mul_le_mul_left h hapos
  · have haneg : a < 0 := lt_of_le_of_ne (by linarith) ha
    constructor
    · have h : a * p ≤ a * lo := by
        rw [hp, ← hsum]
        nlinarith [mul_le_mul_of_nonpos_left hlo0 h0, mul_le_mul_of_nonpos_left hlo1 h1,
          mul_le_mul_of_nonpos_left hlo2 h2]
      by_contra hcon
      have := mul_lt_mul_of_neg_left (not_le.1 hcon) haneg
      linarith
    · have h : a * hi ≤ a * p := by
        rw [hp, ← hsum]
        nlinarith [mul_le_mul_of_nonpos_left hhi0 h0, mul_le_mul_of_nonpos_left hhi1 h1,
          mul_le_mul_of_nonpos_left hhi2 h2]
      by_contra hcon
      have := mul_lt_mul_of_neg_left (not_le.1 hcon) haneg
      linarith

theorem startBound_le (m : ℚ) (p : Nat) (h : m ≤ (p : ℚ)) :
    (max (truncToInt (m - 1)) 0).toNat ≤ p := by
  rw [Int.toNat_le]
  apply max_le
  · unfold truncToInt
    split_ifs with h0
    · have h1 : ((⌊m - 1⌋ : Int) : ℚ) ≤ m - 1 := Int.floor_le _
      have h2 : ((⌊m - 1⌋ : Int) : ℚ) ≤ ((p : Int) : ℚ) := by
        push_cast
        linarith
      exact_mod_cast h2
    · rw [Int.ceil_le]
      push_cast
      linarith
  · exact Int.natCast_nonneg p

theorem lt_endBound (m : ℚ) (p W : Nat) (h : (p : ℚ) ≤ m) (hW : p < W) :
    p < (min (truncToInt (m + 1)) (W : Int)).toNat := by
  rw [Int.lt_toNat]
  apply lt_min
  · unfold truncToInt
    have hp : (0 : ℚ) ≤ p := Nat.cast_nonneg p
    rw [if_pos (by linarith)]
    have : ((p : Int) + 1) ≤ ⌊m + 1⌋ := by
      rw [Int.le_floor]
      push_cast
      linarith
    omega
  · exact_mod_cast hW

/-- Every pixel of the buffer that passes the cull test of a triangle with
non-zero area is visited by the scan loops. -/
theorem inScanBox_of_passesCull (r : SoftwareRenderer) (t : Triangle) (px py : Nat)
    (harea : FLT_EPSILON ≤ |t.fullTriangleArea|) (hpx : px < r.m_Width)
    (hpy : py < r.m_Height) (hcull : PassesCull r t px py) : InScanBox r t px py := by
  have ha : t.fullTriangleArea ≠ 0 := by
    intro h0
    rw [h0, abs_zero] at harea
    exact absurd harea (not_le.2 FLT_EPSILON_pos)
  have hsum : t.edge12PointCross px py + t.edge20PointCross px py + t.edge01PointCross px py =
      t.fullTriangleArea := by
    unfold Triangle.edge01PointCross Triangle.edge12PointCross Triangle.edge20PointCross
      Triangle.fullTriangleArea
    simp only [Vector2.Cross, Vector2.sub_def, curPixel]
    ring
  have hx : t.fullTriangleArea * (px : ℚ) =
      t.edge12PointCross px py * t.v0.x + t.edge20PointCross px py * t.v1.x +
        t.edge01PointCross px py * t.v2.x := by
    unfold Triangle.edge01PointCross Triangle.edge12PointCross Triangle.edge20PointCross
      Triangle.fullTriangleArea
    simp only [Vector2.Cross, Vector2.sub_def, curPixel]
    ring
  have hy : t.fullTriangleArea * (py : ℚ) =
      t.edge12PointCross px py * t.v0.y + t.edge20PointCross px py * t.v1.y +
        t.edge01PointCross px py * t.v2.y := by
    unfold Triangle.edge01PointCross Triangle.edge12PointCross Triangle.edge20PointCross
      Triangle.fullTriangleArea
    simp only [Vector2.Cross, Vector2.sub_def, curPixel]
    ring
  have hsign : (0 ≤ t.edge12PointCross px py ∧ 0 ≤ t.edge20PointCross px py ∧
        0 ≤ t.edge01PointCross px py) ∨
      (t.edge12PointCross px py ≤ 0 ∧ t.edge20PointCross px py ≤ 0 ∧
        t.edge01PointCross px py ≤ 0) := by
    rcases passesCull_hit r t px py hcull with h | h
    · left
      unfold Triangle.isFrontFaceHit at h
      simp only [ge_iff_le, Bool.and_eq_true, decide_eq_true_eq] at h
      exact ⟨h.1.2, h.2, h.1.1⟩
    · right
      unfold Triangle.isBackFaceHit at h
      simp only [Bool.and_eq_true, decide_eq_true_eq] at h
      exact ⟨h.1.2, h.2, h.1.1⟩
  have hbx := between_of_weights _ _ _ _ t.v0.x t.v1.x t.v2.x (px : ℚ)
    (Vector2.Min t.v0 (Vector2.Min t.v1 t.v2)).x (Vector2.Max t.v0 (Vector2.Max t.v1 t.v2)).x
    hsum hx ha hsign (min_le_left _ _) (le_trans (min_le_right _ _) (min_le_left _ _))
    (le_trans (min_le_right _ _) (min_le_right _ _)) (le_max_left _ _)
    (le_trans (le_max_left _ _) (le_max_right _ _))
    (le_trans (le_max_right _ _) (le_max_right _ _))
  have hby := between_of_weights _ _ _ _ t.v0.y t.v1.y t.v2.y (py : ℚ)
    (Vector2.Min t.v0 (Vector2.Min t.v1 t.v2)).y (Vector2.Max t.v0 (Vector2.Max t.v1 t.v2)).y
    hsum hy ha hsign (min_le_left _ _) (le_trans (min_le_right _ _) (min_le_left _ _))
    (le_trans (min_le_right _ _) (min_le_right _ _)) (le_max_left _ _)
    (le_trans (le_max_left _ _) (le_max_right _ _))
    (le_trans (le_max_right _ _) (le_max_right _ _))
  exact ⟨startBound_le _ px hbx.1, lt_endBound _ px r.m_Width hbx.2 hpx,
    startBound_le _ py hby.1, lt_endBound _ py r.m_Height hby.2 hpy⟩

/-! ## Rasterization stage: the depth test -/

/-- In exact arithmetic, where every depth is a number: with the bounding-box
view off, at every pixel of the buffer that passes the cull test
`RenderTriangle` stores nothing when the stored depth is strictly less than the
interpolated depth, and otherwise stores the interpolated depth and the pixel's
colour; the stored depth afterwards is `min(old, interpolated)`, and no
depth-buffer entry increases. -/
theorem depth_test_keeps_minimum_exact (ext : Externals) (r : SoftwareRenderer) (b : Buffers)
    (rasterVertices : List Vector2) (verticesOut : List Vertex_Out) (indices : List Nat)
    (curVertexIdx : Nat) (swapVertices : Bool) (t : Triangle)
    (hbb : r.m_ShowBoundingBox = false)
    (hres : resolveTriangle rasterVertices verticesOut indices curVertexIdx swapVertices =
      .draw t)
    (harea : FLT_EPSILON ≤ |t.fullTriangleArea|) :
    ∃ b' added,
      RenderTriangle ext r b rasterVertices verticesOut indices curVertexIdx swapVertices =
        some b' ∧
      b'.writes = b.writes ++ added ∧
      (∀ px py, px < r.m_Width → py < r.m_Height → PassesCull r t px py →
        (b.depthBufferPixels (pixelIdx r px py) < t.interpolatedZDepth px py →
          b'.depthBufferPixels (pixelIdx r px py) = b.depthBufferPixels (pixelIdx r px py) ∧
          b'.backBufferPixels (pixelIdx r px py) = b.backBufferPixels (pixelIdx r px py) ∧
          ∀ w ∈ added, w.pixelIdx ≠ pixelIdx r px py) ∧
        (¬ b.depthBufferPixels (pixelIdx r px py) < t.interpolatedZDepth px py →
          b'.depthBufferPixels (pixelIdx r px py) = t.interpolatedZDepth px py ∧
          b'.backBufferPixels (pixelIdx r px py) = shadedPixel ext r (t.pixelInfo ext r px py) ∧
          Write.depth (pixelIdx r px py) (b.depthBufferPixels (pixelIdx r px py))
            (t.interpolatedZDepth px py) ∈ added ∧
          Write.colour (pixelIdx r px py) (shadedPixel ext r (t.pixelInfo ext r px py)) ∈ added) ∧
        b'.depthBufferPixels (pixelIdx r px py) =
          min (b.depthBufferPixels (pixelIdx r px py)) (t.interpolatedZDepth px py)) ∧
      (∀ i, b'.depthBufferPixels i ≤ b.depthBufferPixels i) ∧
      (∀ calls bStart bEnd,
        runCalls ext r rasterVertices verticesOut indices calls bStart = some bEnd →
        ∀ i, bEnd.depthBufferPixels i ≤ bStart.depthBufferPixels i) ∧
      (∀ nrCores useUniformBackground rStart bStart rEnd bEnd,
        Render ext nrCores useUniformBackground rStart bStart = some (rEnd, bEnd) →
        ∀ i, bEnd.depthBufferPixels i ≤ FLT_MAX) := by
  have hrt := RenderTriangle_draw ext r b rasterVertices verticesOut indices curVertexIdx
    swapVertices t hres harea
  obtain ⟨added, hw, hmem⟩ := scanTriangle_writes ext r t b
  refine ⟨scanTriangle ext r t b, added, hrt, hw, ?_, ?_, ?_, ?_⟩
  · intro px py hpx hpy hcull
    have hbox := inScanBox_of_passesCull r t px py harea hpx hpy hcull
    have hat := scanTriangle_at ext r t b px py hbox
    have hself := scanPixel_self ext r t b px py hbb
    rw [hself.1] at hat
    rw [hself.2] at hat
    refine ⟨?_, ?_, ?_⟩
    · intro hlt
      have hcond : ¬ (PassesCull r t px py ∧
          ¬ b.depthBufferPixels (pixelIdx r px py) < t.interpolatedZDepth px py) :=
        fun h => h.2 hlt
      rw [if_neg hcond] at hat
      rw [if_neg hcond] at hat
      refine ⟨hat.1, hat.2, ?_⟩
      intro w hwmem hidx
      obtain ⟨qx, qy, hq, hwq⟩ := (hmem w).1 hwmem
      have hqi := pixelWrites_pixelIdx ext r t _ qx qy w hwq
      have hxw : qx < r.m_Width := lt_of_lt_of_le hq.2.1 (endX_le_width r t)
      have hpw : px < r.m_Width := lt_of_lt_of_le hbox.2.1 (endX_le_width r t)
      have hsame := pixelIdx_inj r qx qy px py hxw hpw (hqi.symm.trans hidx)
      obtain ⟨rfl, rfl⟩ := hsame
      rw [pixelWrites_off ext r t _ qx qy hbb, if_neg hcond] at hwq
      cases hwq
    · intro hge
      have hcond : PassesCull r t px py ∧
          ¬ b.depthBufferPixels (pixelIdx r px py) < t.interpolatedZDepth px py := ⟨hcull, hge⟩
      rw [if_pos hcond] at hat
      rw [if_pos hcond] at hat
      refine ⟨hat.1, hat.2, ?_, ?_⟩
      · refine (hmem _).2 ⟨px, py, hbox, ?_⟩
        rw [pixelWrites_off ext r t _ px py hbb, if_pos hcond]
        exact List.mem_cons_self _ _
      · refine (hmem _).2 ⟨px, py, hbox, ?_⟩
        rw [pixelWrites_off ext r t _ px py hbb, if_pos hcond]
        exact List.mem_cons_of_mem _ (List.mem_cons_self _ _)
    · rw [hat.1]
      by_cases hlt : b.depthBufferPixels (pixelIdx r px py) < t.interpolatedZDepth px py
      · rw [if_neg (fun h => h.2 hlt), min_eq_left (le_of_lt hlt)]
      · rw [if_pos ⟨hcull, hlt⟩, min_eq_right (not_lt.1 hlt)]
  · intro i
    exact RenderTriangle_depth_le ext r b _ rasterVertices verticesOut indices curVertexIdx
      swapVertices hrt i
  · intro calls bStart bEnd hrun i
    exact runCalls_depth_le ext r rasterVertices verticesOut indices i calls bStart bEnd hrun
  · intro nrCores u rStart bStart rEnd bEnd hrender i
    exact Render_depth_le ext nrCores u rStart rEnd bStart bEnd hrender i

theorem demo2_resolve_far :
    resolveTriangle demoRaster2 demoVerticesOut2 [0, 1, 2, 3, 4, 5] 0 false =
      .draw demoTriangle := by
  simp [resolveTriangle, demoRaster2, demoVerticesOut2, demoRaster, demoVerticesOut,
    IsOutsideFrustum, demoVertex, demoTriangle]
  norm_num

theorem demo2_resolve_near :
    resolveTriangle demoRaster2 demoVerticesOut2 [0, 1, 2, 3, 4, 5] 3 false =
      .draw demoTriangleNear := by
  simp [resolveTriangle, demoRaster2, demoVerticesOut2, demoRaster, demoVerticesOut,
    IsOutsideFrustum, demoVertex, demoTriangleNear]
  norm_num

theorem demoNear_area : FLT_EPSILON ≤ |demoTriangleNear.fullTriangleArea| := by
  norm_num [Triangle.fullTriangleArea, demoTriangleNear, Vector2.Cross, Vector2.sub_def,
    FLT_EPSILON]

theorem demoNear_passesCull : PassesCull demoRenderer demoTriangleNear 2 2 := by
  norm_num [PassesCull, cullRejects, Triangle.isFrontFaceHit, Triangle.isBackFaceHit,
    Triangle.edge01PointCross, Triangle.edge12PointCross, Triangle.edge20PointCross, curPixel,
    demoTriangleNear, Vector2.Cross, Vector2.sub_def, demoRenderer]
  decide

theorem demoNear_depth : demoTriangleNear.interpolatedZDepth 2 2 = 1 / 4 := by
  norm_num [Triangle.interpolatedZDepth, Triangle.weightV0, Triangle.weightV1,
    Triangle.weightV2, Triangle.fullTriangleArea, Triangle.edge01PointCross,
    Triangle.edge12PointCross, Triangle.edge20PointCross, curPixel, demoTriangleNear,
    Vector2.Cross, Vector2.sub_def, demoVertex]

theorem half_le_FLT_MAX : (1 / 2 : ℚ) ≤ FLT_MAX := by
  norm_num [FLT_MAX]

theorem quarter_le_FLT_MAX : (1 / 4 : ℚ) ≤ FLT_MAX := by
  norm_num [FLT_MAX]

/-- In exact arithmetic, where every depth is a number: two triangles cover the
same pixel of the buffer, both passing the cull test there, and their
interpolated depths there differ (both at most `FLT_MAX`). Rendered one after
the other from a freshly reset frame with the bounding-box view off, in either
order, they leave the pixel with the smaller of the two depths and with the
colour of the triangle that has it. -/
theorem nearer_triangle_wins_in_either_order_exact (ext : Externals) (r : SoftwareRenderer)
    (rasterVertices : List Vector2) (verticesOut : List Vertex_Out) (indices : List Nat)
    (cA cB : Call) (tA tB : Triangle) (useUniformBackground : Bool) (b : Buffers) (px py : Nat)
    (hbb : r.m_ShowBoundingBox = false)
    (hresA : resolveTriangle rasterVertices verticesOut indices cA.curVertexIdx
      cA.swapVertices = .draw tA)
    (hresB : resolveTriangle rasterVertices verticesOut indices cB.curVertexIdx
      cB.swapVertices = .draw tB)
    (hareaA : FLT_EPSILON ≤ |tA.fullTriangleArea|)
    (hareaB : FLT_EPSILON ≤ |tB.fullTriangleArea|)
    (hpx : px < r.m_Width) (hpy : py < r.m_Height)
    (hcullA : PassesCull r tA px py) (hcullB : PassesCull r tB px py)
    (hne : tA.interpolatedZDepth px py ≠ tB.interpolatedZDepth px py)
    (hfinA : tA.interpolatedZDepth px py ≤ FLT_MAX)
    (hfinB : tB.interpolatedZDepth px py ≤ FLT_MAX) :
    ∃ bAB bBA,
      runCalls ext r rasterVertices verticesOut indices [cA, cB]
        (beginFrame ext useUniformBackground b) = some bAB ∧
      runCalls ext r rasterVertices verticesOut indices [cB, cA]
        (beginFrame ext useUniformBackground b) = some bBA ∧
      bAB.depthBufferPixels (pixelIdx r px py) =
        min (tA.interpolatedZDepth px py) (tB.interpolatedZDepth px py) ∧
      bBA.depthBufferPixels (pixelIdx r px py) =
        min (tA.interpolatedZDepth px py) (tB.interpolatedZDepth px py) ∧
      bAB.backBufferPixels (pixelIdx r px py) =
        (if tA.interpolatedZDepth px py < tB.interpolatedZDepth px py
          then shadedPixel ext r (tA.pixelInfo ext r px py)
          else shadedPixel ext r (tB.pixelInfo ext r px py)) ∧
      bBA.backBufferPixels (pixelIdx r px py) =
        (if tA.interpolatedZDepth px py < tB.interpolatedZDepth px py
          then shadedPixel ext r (tA.pixelInfo ext r px py)
          else shadedPixel ext r (tB.pixelInfo ext r px py)) := by
  have hboxA := inScanBox_of_passesCull r tA px py hareaA hpx hpy hcullA
  have hboxB := inScanBox_of_passesCull r tB px py hareaB hpx hpy hcullB
  have hnA : ¬ (beginFrame ext useUniformBackground b).depthBufferPixels (pixelIdx r px py) <
      tA.interpolatedZDepth px py := by
    rw [beginFrame_depth]; exact not_lt.2 hfinA
  have hnB : ¬ (beginFrame ext useUniformBackground b).depthBufferPixels (pixelIdx r px py) <
      tB.interpolatedZDepth px py := by
    rw [beginFrame_depth]; exact not_lt.2 hfinB
  have hA := scanTriangle_pixel_pass ext r tA _ px py hbb hboxA hcullA hnA
  have hB := scanTriangle_pixel_pass ext r tB _ px py hbb hboxB hcullB hnB
  refine ⟨scanTriangle ext r tB (scanTriangle ext r tA (beginFrame ext useUniformBackground b)),
    scanTriangle ext r tA (scanTriangle ext r tB (beginFrame ext useUniformBackground b)),
    ?_, ?_, ?_⟩
  · simp only [runCalls, RenderTriangle_draw ext r _ _ _ _ _ _ tA hresA hareaA,
      RenderTriangle_draw ext r _ _ _ _ _ _ tB hresB hareaB]
  · simp only [runCalls, RenderTriangle_draw ext r _ _ _ _ _ _ tA hresA hareaA,
      RenderTriangle_draw ext r _ _ _ _ _ _ tB hresB hareaB]
  · by_cases hlt : tA.interpolatedZDepth px py < tB.interpolatedZDepth px py
    · have hnlt : ¬ tB.interpolatedZDepth px py < tA.interpolatedZDepth px py :=
        not_lt.2 (le_of_lt hlt)
      have hAB := scanTriangle_pixel_fail ext r tB
        (scanTriangle ext r tA (beginFrame ext useUniformBackground b)) px py hbb hboxB
        (Or.inr (by rw [hA.1]; exact hlt))
      have hBA := scanTriangle_pixel_pass ext r tA
        (scanTriangle ext r tB (beginFrame ext useUniformBackground b)) px py hbb hboxA hcullA
        (by rw [hB.1]; exact hnlt)
      rw [hAB.1, hAB.2, hBA.1, hBA.2, hA.1, hA.2, if_pos hlt, min_eq_left (le_of_lt hlt)]
      exact ⟨rfl, rfl, rfl, rfl⟩
    · have hlt' : tB.interpolatedZDepth px py < tA.interpolatedZDepth px py :=
        lt_of_le_of_ne (not_lt.1 hlt) (Ne.symm hne)
      have hAB := scanTriangle_pixel_pass ext r tB
        (scanTriangle ext r tA (beginFrame ext useUniformBackground b)) px py hbb hboxB hcullB
        (by rw [hA.1]; exact hlt)
      have hBA := scanTriangle_pixel_fail ext r tA
        (scanTriangle ext r tB (beginFrame ext useUniformBackground b)) px py hbb hboxA
        (Or.inr (by rw [hB.1]; exact hlt'))
      rw [hAB.1, hAB.2, hBA.1, hBA.2, hB.1, hB.2, if_neg hlt, min_eq_right (not_lt.1 hlt)]
      exact ⟨rfl, rfl, rfl, rfl⟩

/-- C7, as stated, fails: the demo triangle drawn twice into freshly reset
buffers. The second pass finds its own depth `1/2` stored at the pixel of index
18, the depth test `stored < interpolated` does not skip it, and the entry is
overwritten by a depth that is not strictly less than the one it replaces. -/
theorem C7_equal_depth_is_overwritten :
    ∃ b1 b2 added,
      RenderTriangle demoExternals demoRenderer demoBuffers demoRaster demoVerticesOut
        [0, 1, 2] 0 false = some b1 ∧
      RenderTriangle demoExternals demoRenderer b1 demoRaster demoVerticesOut
        [0, 1, 2] 0 false = some b2 ∧
      b2.writes = b1.writes ++ added ∧
      Write.depth 18 (1 / 2) (1 / 2) ∈ added ∧ ¬ ((1 / 2 : ℚ) < 1 / 2) := by
  have hfresh : ¬ demoBuffers.depthBufferPixels (pixelIdx demoRenderer 2 2) <
      demoTriangle.interpolatedZDepth 2 2 := by
    rw [demo_depth]
    exact not_lt.2 half_le_FLT_MAX
  have h1 := scanTriangle_pixel_pass demoExternals demoRenderer demoTriangle demoBuffers 2 2 rfl
    demo_inScanBox demo_passesCull hfresh
  obtain ⟨added, hw, hmem⟩ := scanTriangle_added demoExternals demoRenderer demoTriangle
    (scanTriangle demoExternals demoRenderer demoTriangle demoBuffers) rfl
  refine ⟨scanTriangle demoExternals demoRenderer demoTriangle demoBuffers,
    scanTriangle demoExternals demoRenderer demoTriangle
      (scanTriangle demoExternals demoRenderer demoTriangle demoBuffers), added,
    RenderTriangle_draw _ _ _ _ _ _ _ _ _ demo_resolve demo_area,
    RenderTriangle_draw _ _ _ _ _ _ _ _ _ demo_resolve demo_area, hw, ?_, lt_irrefl _⟩
  refine (hmem _).2 ⟨2, 2, demo_inScanBox, demo_passesCull, ?_, Or.inl ?_⟩
  · rw [h1.1]
    exact lt_irrefl _
  · rw [h1.1, demo_depth, demo_pixelIdx]

/-- In exact arithmetic, where every depth is a number: every depth-buffer store
of `RenderTriangle` replaces the stored depth by one that is less than or equal
to it; the store leaves that depth in the buffer and comes with a store of the
pixel's colour. -/
theorem depth_write_not_farther_exact (ext : Externals) (r : SoftwareRenderer) (b b' : Buffers)
    (rasterVertices : List Vector2) (verticesOut : List Vertex_Out) (indices : List Nat)
    (curVertexIdx : Nat) (swapVertices : Bool)
    (h : RenderTriangle ext r b rasterVertices verticesOut indices curVertexIdx swapVertices =
      some b') :
    ∃ added, b'.writes = b.writes ++ added ∧
      ∀ i old value, Write.depth i old value ∈ added →
        value ≤ old ∧ old = b.depthBufferPixels i ∧ b'.depthBufferPixels i = value ∧
          ∃ c, Write.colour i c ∈ added ∧ b'.backBufferPixels i = c := by
  rw [RenderTriangle_eq_resolve] at h
  cases hres : resolveTriangle rasterVertices verticesOut indices curVertexIdx swapVertices with
  | fault => rw [hres] at h; cases h
  | skip =>
    rw [hres] at h
    simp only [Option.some.injEq] at h
    subst h
    exact ⟨[], by simp, by simp⟩
  | draw t =>
    rw [hres] at h
    simp only [Option.some.injEq] at h
    subst h
    unfold rasterize
    split_ifs with harea
    · exact ⟨[], by simp, by simp⟩
    · by_cases hbb : r.m_ShowBoundingBox = true
      · obtain ⟨added, hw, hmem⟩ := scanTriangle_writes ext r t b
        refine ⟨added, hw, ?_⟩
        intro i old value hin
        obtain ⟨px, py, -, hpw⟩ := (hmem _).1 hin
        unfold pixelWrites at hpw
        rw [if_pos hbb] at hpw
        simp at hpw
      · simp only [Bool.not_eq_true] at hbb
        obtain ⟨added, hw, hmem⟩ := scanTriangle_added ext r t b hbb
        refine ⟨added, hw, ?_⟩
        intro i old value hin
        obtain ⟨px, py, hbox, hcull, hd, hcase⟩ := (hmem _).1 hin
        rcases hcase with heq | heq
        · simp only [Write.depth.injEq] at heq
          obtain ⟨rfl, rfl, rfl⟩ := heq
          have hp := scanTriangle_pixel_pass ext r t b px py hbb hbox hcull hd
          refine ⟨not_lt.1 hd, rfl, hp.1, shadedPixel ext r (t.pixelInfo ext r px py), ?_, hp.2⟩
          exact (hmem _).2 ⟨px, py, hbox, hcull, hd, Or.inr rfl⟩
        · cases heq

/-! ## Rasterization stage: pixels outside the triangle -/

/-- C10: with the bounding-box view off and in every cull mode, a triangle that
`RenderTriangle` draws leaves the colour and the depth unchanged, and makes no
store, at every pixel whose three edge-function values are neither all `>= 0`
nor all `<= 0` and at every pixel outside the scan box; drawn into a freshly
reset frame, those pixels still hold the background clear colour (and the depth
`FLT_MAX`). -/
theorem C10_pixels_outside_triangle_untouched (ext : Externals) (r : SoftwareRenderer)
    (b : Buffers) (rasterVertices : List Vector2) (verticesOut : List Vertex_Out)
    (indices : List Nat) (curVertexIdx : Nat) (swapVertices : Bool) (t : Triangle)
    (hbb : r.m_ShowBoundingBox = false)
    (hres : resolveTriangle rasterVertices verticesOut indices curVertexIdx swapVertices =
      .draw t) :
    ∃ b' added,
      RenderTriangle ext r b rasterVertices verticesOut indices curVertexIdx swapVertices =
        some b' ∧
      b'.writes = b.writes ++ added ∧
      ∀ px py, px < r.m_Width →
        ((¬ (0 ≤ t.edge01PointCross px py ∧ 0 ≤ t.edge12PointCross px py ∧
              0 ≤ t.edge20PointCross px py) ∧
            ¬ (t.edge01PointCross px py ≤ 0 ∧ t.edge12PointCross px py ≤ 0 ∧
              t.edge20PointCross px py ≤ 0)) ∨
          ¬ InScanBox r t px py) →
        b'.depthBufferPixels (pixelIdx r px py) = b.depthBufferPixels (pixelIdx r px py) ∧
          b'.backBufferPixels (pixelIdx r px py) = b.backBufferPixels (pixelIdx r px py) ∧
          (∀ w ∈ added, w.pixelIdx ≠ pixelIdx r px py) ∧
          ∀ useUniformBackground b0, b = beginFrame ext useUniformBackground b0 →
            b'.depthBufferPixels (pixelIdx r px py) = FLT_MAX ∧
              b'.backBufferPixels (pixelIdx r px py) =
                ext.mapRGB (clearColorValue useUniformBackground)
                  (clearColorValue useUniformBackground)
                  (clearColorValue useUniformBackground) := by
  have hrt : RenderTriangle ext r b rasterVertices verticesOut indices curVertexIdx
      swapVertices = some (rasterize ext r t b) := by
    rw [RenderTriangle_eq_resolve, hres]
  by_cases harea : |t.fullTriangleArea| < FLT_EPSILON
  · have hras : rasterize ext r t b = b := by
      simp only [rasterize, if_pos harea]
    rw [hras] at hrt
    refine ⟨b, [], hrt, by simp, ?_⟩
    intro px py _ _
    refine ⟨rfl, rfl, by simp, ?_⟩
    rintro u b0 rfl
    exact ⟨rfl, rfl⟩
  · have hras : rasterize ext r t b = scanTriangle ext r t b := by
      simp only [rasterize, if_neg harea]
    rw [hras] at hrt
    obtain ⟨added, hw, hmem⟩ := scanTriangle_added ext r t b hbb
    refine ⟨scanTriangle ext r t b, added, hrt, hw, ?_⟩
    intro px py hpx hout
    have hnocull : InScanBox r t px py → ¬ PassesCull r t px py := by
      intro hbox hcull
      rcases hout with ⟨hf, hbk⟩ | hnb
      · have hff : t.isFrontFaceHit px py = false := by
          unfold Triangle.isFrontFaceHit
          simp only [ge_iff_le, Bool.and_eq_false_imp, Bool.and_eq_true, decide_eq_true_eq,
            decide_eq_false_iff_not]
          intro h1
          exact fun h3 => hf ⟨h1.1, h1.2, h3⟩
        have hbf : t.isBackFaceHit px py = false := by
          unfold Triangle.isBackFaceHit
          simp only [Bool.and_eq_false_imp, Bool.and_eq_true, decide_eq_true_eq,
            decide_eq_false_iff_not]
          intro h1
          exact fun h3 => hbk ⟨h1.1, h1.2, h3⟩
        unfold PassesCull cullRejects at hcull
        rw [hff, hbf] at hcull
        cases hm : r.m_CullMode <;> rw [hm] at hcull <;> simp at hcull
      · exact hnb hbox
    have hunch : (scanTriangle ext r t b).depthBufferPixels (pixelIdx r px py) =
          b.depthBufferPixels (pixelIdx r px py) ∧
        (scanTriangle ext r t b).backBufferPixels (pixelIdx r px py) =
          b.backBufferPixels (pixelIdx r px py) := by
      by_cases hbox : InScanBox r t px py
      · exact scanTriangle_pixel_fail ext r t b px py hbb hbox (Or.inl (hnocull hbox))
      · apply scanTriangle_other
        intro qx qy hq heq
        have hqw : qx < r.m_Width := lt_of_lt_of_le hq.2.1 (endX_le_width r t)
        obtain ⟨rfl, rfl⟩ := pixelIdx_inj r qx qy px py hqw hpx heq
        exact hbox hq
    refine ⟨hunch.1, hunch.2, ?_, ?_⟩
    · intro w hwin hidx
      obtain ⟨qx, qy, hq, hcull, -, hcase⟩ := (hmem w).1 hwin
      have hqi : pixelIdx r qx qy = pixelIdx r px py := by
        rcases hcase with rfl | rfl
        · exact hidx
        · exact hidx
      have hqw : qx < r.m_Width := lt_of_lt_of_le hq.2.1 (endX_le_width r t)
      obtain ⟨rfl, rfl⟩ := pixelIdx_inj r qx qy px py hqw hpx hqi
      exact hnocull hq hcull
    · rintro u b0 rfl
      rw [hunch.1, hunch.2]
      exact ⟨rfl, rfl⟩

/-- C10, an instance: the pixel `(5, 5)` lies in the scan box of the demo
triangle but beyond its edge from `(5,1)` to `(1,5)`; it keeps the clear colour. -/
theorem C10_pixels_outside_triangle_untouched_witness :
    demoRenderer.m_ShowBoundingBox = false ∧
      resolveTriangle demoRaster demoVerticesOut [0, 1, 2] 0 false = .draw demoTriangle ∧
      ∃ b', RenderTriangle demoExternals demoRenderer (beginFrame demoExternals true demoBuffers)
          demoRaster demoVerticesOut [0, 1, 2] 0 false = some b' ∧
        b'.depthBufferPixels (pixelIdx demoRenderer 5 5) = FLT_MAX ∧
        b'.backBufferPixels (pixelIdx demoRenderer 5 5) =
          demoExternals.mapRGB (clearColorValue true) (clearColorValue true)
            (clearColorValue true) := by
  refine ⟨rfl, demo_resolve, ?_⟩
  obtain ⟨b', added, hrt, -, hpix⟩ :=
    C10_pixels_outside_triangle_untouched demoExternals demoRenderer
      (beginFrame demoExternals true demoBuffers) demoRaster demoVerticesOut [0, 1, 2] 0 false
      demoTriangle rfl demo_resolve
  have hout : (¬ (0 ≤ demoTriangle.edge01PointCross 5 5 ∧ 0 ≤ demoTriangle.edge12PointCross 5 5 ∧
        0 ≤ demoTriangle.edge20PointCross 5 5) ∧
      ¬ (demoTriangle.edge01PointCross 5 5 ≤ 0 ∧ demoTriangle.edge12PointCross 5 5 ≤ 0 ∧
        demoTriangle.edge20PointCross 5 5 ≤ 0)) := by
    norm_num [Triangle.edge01PointCross, Triangle.edge12PointCross, Triangle.edge20PointCross,
      curPixel, demoTriangle, Vector2.Cross, Vector2.sub_def]
  have h := (hpix 5 5 (by decide) (Or.inl hout)).2.2.2 true demoBuffers rfl
  exact ⟨b', hrt, h.1, h.2⟩

/-! ## The three cull modes side by side -/

theorem passesCull_none (r : SoftwareRenderer) (t : Triangle) (px py : Nat) :
    PassesCull (SetCulling r .None) t px py ↔
      (t.isFrontFaceHit px py = true ∨ t.isBackFaceHit px py = true) := by
  unfold PassesCull cullRejects SetCulling
  cases t.isFrontFaceHit px py <;> cases t.isBackFaceHit px py <;> simp

theorem passesCull_back (r : SoftwareRenderer) (t : Triangle) (px py : Nat) :
    PassesCull (SetCulling r .Back) t px py ↔ t.isFrontFaceHit px py = true := by
  unfold PassesCull cullRejects SetCulling
  cases t.isFrontFaceHit px py <;> cases t.isBackFaceHit px py <;> simp

theorem passesCull_front (r : SoftwareRenderer) (t : Triangle) (px py : Nat) :
    PassesCull (SetCulling r .Front) t px py ↔ t.isBackFaceHit px py = true := by
  unfold PassesCull cullRejects SetCulling
  cases t.isFrontFaceHit px py <;> cases t.isBackFaceHit px py <;> simp

/-- One pixel of the scan box: the depth and the written flag after the scan. -/
theorem scanTriangle_cell (ext : Externals) (r : SoftwareRenderer) (t : Triangle) (b : Buffers)
    (px py : Nat) (hbb : r.m_ShowBoundingBox = false) (hbox : InScanBox r t px py) :
    ((PassesCull r t px py ∧
          ¬ b.depthBufferPixels (pixelIdx r px py) < t.interpolatedZDepth px py) →
        (scanTriangle ext r t b).depthBufferPixels (pixelIdx r px py) =
            t.interpolatedZDepth px py ∧
          (scanTriangle ext r t b).Written (pixelIdx r px py)) ∧
      (¬ (PassesCull r t px py ∧
          ¬ b.depthBufferPixels (pixelIdx r px py) < t.interpolatedZDepth px py) →
        (scanTriangle ext r t b).depthBufferPixels (pixelIdx r px py) =
            b.depthBufferPixels (pixelIdx r px py) ∧
          ((scanTriangle ext r t b).Written (pixelIdx r px py) ↔
            b.Written (pixelIdx r px py))) := by
  have hwr := scanTriangle_written ext r t b hbb (pixelIdx r px py)
  constructor
  · rintro ⟨hc, hd⟩
    refine ⟨(scanTriangle_pixel_pass ext r t b px py hbb hbox hc hd).1, ?_⟩
    exact hwr.2 (Or.inr ⟨px, py, hbox, rfl, hc, hd⟩)
  · intro hn
    have hn' : ¬ PassesCull r t px py ∨
        b.depthBufferPixels (pixelIdx r px py) < t.interpolatedZDepth px py := by
      by_cases hc : PassesCull r t px py
      · right
        by_contra hd
        exact hn ⟨hc, hd⟩
      · exact Or.inl hc
    refine ⟨(scanTriangle_pixel_fail ext r t b px py hbb hbox hn').1, ?_⟩
    rw [hwr]
    constructor
    · rintro (h | ⟨qx, qy, hq, hqi, hc, hd⟩)
      · exact h
      · exfalso
        have hqw : qx < r.m_Width := lt_of_lt_of_le hq.2.1 (endX_le_width r t)
        have hpw : px < r.m_Width := lt_of_lt_of_le hbox.2.1 (endX_le_width r t)
        obtain ⟨rfl, rfl⟩ := pixelIdx_inj r qx qy px py hqw hpw hqi
        exact hn ⟨hc, hd⟩
    · exact Or.inl

/-- A pixel index outside the scan box: nothing changes there. -/
theorem scanTriangle_cell_other (ext : Externals) (r : SoftwareRenderer) (t : Triangle)
    (b : Buffers) (i : Nat) (hbb : r.m_ShowBoundingBox = false)
    (hout : ∀ px py, InScanBox r t px py → pixelIdx r px py ≠ i) :
    (scanTriangle ext r t b).depthBufferPixels i = b.depthBufferPixels i ∧
      ((scanTriangle ext r t b).Written i ↔ b.Written i) := by
  refine ⟨(scanTriangle_other ext r t b i hout).1, ?_⟩
  rw [scanTriangle_written ext r t b hbb i]
  constructor
  · rintro (h | ⟨qx, qy, hq, hqi, -, -⟩)
    · exact h
    · exact absurd hqi (hout qx qy hq)
  · exact Or.inl

/-- The per-pixel step that keeps `CullInv`, in terms of the two depths, the
new depth `z` and the two face flags. -/
theorem cullInv_cell (dN dB dF z M : ℚ) (dN' dB' dF' : ℚ) (WN WB WF WN' WB' WF' f bk : Prop)
    (hdN : dN = min dB dF) (hWN : WN ↔ WB ∨ WF) (hB : dB ≤ M) (hF : dF ≤ M)
    (hWB : dB < M → WB) (hWF : dF < M → WF)
    (hN1 : ((f ∨ bk) ∧ ¬ dN < z) → dN' = z ∧ WN')
    (hN2 : ¬ ((f ∨ bk) ∧ ¬ dN < z) → dN' = dN ∧ (WN' ↔ WN))
    (hB1 : (f ∧ ¬ dB < z) → dB' = z ∧ WB')
    (hB2 : ¬ (f ∧ ¬ dB < z) → dB' = dB ∧ (WB' ↔ WB))
    (hF1 : (bk ∧ ¬ dF < z) → dF' = z ∧ WF')
    (hF2 : ¬ (bk ∧ ¬ dF < z) → dF' = dF ∧ (WF' ↔ WF)) :
    dN' = min dB' dF' ∧ (WN' ↔ WB' ∨ WF') ∧ dB' ≤ M ∧ dF' ≤ M ∧
      (dB' < M → WB') ∧ (dF' < M → WF') := by
  subst hdN
  by_cases cB : f ∧ ¬ dB < z
  · obtain ⟨eB, wB⟩ := hB1 cB
    have hzB : z ≤ dB := not_lt.1 cB.2
    by_cases cF : bk ∧ ¬ dF < z
    · obtain ⟨eF, wF⟩ := hF1 cF
      have hzF : z ≤ dF := not_lt.1 cF.2
      have cN : (f ∨ bk) ∧ ¬ min dB dF < z := ⟨Or.inl cB.1, not_lt.2 (le_min hzB hzF)⟩
      obtain ⟨eN, wN⟩ := hN1 cN
      subst eB eF eN
      refine ⟨(min_self _).symm, ⟨fun _ => Or.inl wB, fun _ => wN⟩, ?_, ?_, fun _ => wB,
        fun _ => wF⟩
      · exact le_trans hzB hB
      · exact le_trans hzF hF
    · obtain ⟨eF, wF⟩ := hF2 cF
      by_cases cN : (f ∨ bk) ∧ ¬ min dB dF < z
      · obtain ⟨eN, wN⟩ := hN1 cN
        have hzF : z ≤ dF := le_trans (not_lt.1 cN.2) (min_le_right _ _)
        subst eB eF eN
        refine ⟨(min_eq_left hzF).symm, ⟨fun _ => Or.inl wB, fun _ => wN⟩, ?_, hF,
          fun _ => wB, fun h => wF.2 (hWF h)⟩
        exact le_trans hzB hB
      · obtain ⟨eN, wN⟩ := hN2 cN
        have hlt : min dB dF < z := by
          by_contra hcon
          exact cN ⟨Or.inl cB.1, hcon⟩
        have hFz : dF < z := by
          rcases min_lt_iff.1 hlt with h | h
          · exact absurd h cB.2
          · exact h
        have hWF' : WF := hWF (lt_of_lt_of_le hFz (le_trans hzB hB))
        subst eB eF eN
        refine ⟨?_, ⟨fun _ => Or.inl wB, fun _ => wN.2 (hWN.2 (Or.inr hWF'))⟩, ?_, hF,
          fun _ => wB, fun h => wF.2 (hWF h)⟩
        · rw [min_eq_right (le_trans (le_of_lt hFz) hzB), min_eq_right (le_of_lt hFz)]
        · exact le_trans hzB hB
  · obtain ⟨eB, wB⟩ := hB2 cB
    by_cases cF : bk ∧ ¬ dF < z
    · obtain ⟨eF, wF⟩ := hF1 cF
      have hzF : z ≤ dF := not_lt.1 cF.2
      by_cases cN : (f ∨ bk) ∧ ¬ min dB dF < z
      · obtain ⟨eN, wN⟩ := hN1 cN
        have hzB : z ≤ dB := le_trans (not_lt.1 cN.2) (min_le_left _ _)
        subst eB eF eN
        refine ⟨(min_eq_right hzB).symm, ⟨fun _ => Or.inr wF, fun _ => wN⟩, hB, ?_,
          fun h => wB.2 (hWB h), fun _ => wF⟩
        exact le_trans hzF hF
      · obtain ⟨eN, wN⟩ := hN2 cN
        have hlt : min dB dF < z := by
          by_contra hcon
          exact cN ⟨Or.inr cF.1, hcon⟩
        have hBz : dB < z := by
          rcases min_lt_iff.1 hlt with h | h
          · exact h
          · exact absurd h cF.2
        have hWB' : WB := hWB (lt_of_lt_of_le hBz (le_trans hzF hF))
        subst eB eF eN
        refine ⟨?_, ⟨fun _ => Or.inr wF, fun _ => wN.2 (hWN.2 (Or.inl hWB'))⟩, hB, ?_,
          fun h => wB.2 (hWB h), fun _ => wF⟩
        · rw [min_eq_left (le_trans (le_of_lt hBz) hzF), min_eq_left (le_of_lt hBz)]
        · exact le_trans hzF hF
    · obtain ⟨eF, wF⟩ := hF2 cF
      have cN : ¬ ((f ∨ bk) ∧ ¬ min dB dF < z) := by
        rintro ⟨hfb, hnot⟩
        have hz := not_lt.1 hnot
        rcases hfb with h | h
        · exact cB ⟨h, not_lt.2 (le_trans hz (min_le_left _ _))⟩
        · exact cF ⟨h, not_lt.2 (le_trans hz (min_le_right _ _))⟩
      obtain ⟨eN, wN⟩ := hN2 cN
      subst eB eF eN
      refine ⟨rfl, ?_, hB, hF, fun h => wB.2 (hWB h), fun h => wF.2 (hWF h)⟩
      rw [wN, wB, wF]
      exact hWN

theorem cullInv_scanTriangle (ext : Externals) (r : SoftwareRenderer) (t : Triangle)
    (bN bB bF : Buffers) (hbb : r.m_ShowBoundingBox = false) (hinv : CullInv bN bB bF) :
    CullInv (scanTriangle ext (SetCulling r .None) t bN)
      (scanTriangle ext (SetCulling r .Back) t bB)
      (scanTriangle ext (SetCulling r .Front) t bF) := by
  intro i
  obtain ⟨h1, h2, h3, h4, h5, h6⟩ := hinv i
  by_cases hcov : ∃ px py, InScanBox r t px py ∧ pixelIdx r px py = i
  · obtain ⟨px, py, hbox, rfl⟩ := hcov
    have cN := scanTriangle_cell ext (SetCulling r .None) t bN px py hbb hbox
    have cB := scanTriangle_cell ext (SetCulling r .Back) t bB px py hbb hbox
    have cF := scanTriangle_cell ext (SetCulling r .Front) t bF px py hbb hbox
    rw [passesCull_none] at cN
    rw [passesCull_back] at cB
    rw [passesCull_front] at cF
    exact cullInv_cell _ _ _ (t.interpolatedZDepth px py) FLT_MAX _ _ _ _ _ _ _ _ _
      (t.isFrontFaceHit px py = true) (t.isBackFaceHit px py = true) h1 h2 h3 h4 h5 h6
      cN.1 cN.2 cB.1 cB.2 cF.1 cF.2
  · have hout : ∀ px py, InScanBox r t px py → pixelIdx r px py ≠ i :=
      fun px py hbox heq => hcov ⟨px, py, hbox, heq⟩
    have cN := scanTriangle_cell_other ext (SetCulling r .None) t bN i hbb hout
    have cB := scanTriangle_cell_other ext (SetCulling r .Back) t bB i hbb hout
    have cF := scanTriangle_cell_other ext (SetCulling r .Front) t bF i hbb hout
    rw [cN.1, cN.2, cB.1, cB.2, cF.1, cF.2]
    exact ⟨h1, h2, h3, h4, h5, h6⟩

theorem cullInv_runCalls (ext : Externals) (r : SoftwareRenderer) (rv : List Vector2)
    (vo : List Vertex_Out) (indices : List Nat) (hbb : r.m_ShowBoundingBox = false) :
    ∀ (calls : List Call) (bN bB bF : Buffers), CullInv bN bB bF →
      (runCalls ext (SetCulling r .None) rv vo indices calls bN = none ∧
        runCalls ext (SetCulling r .Back) rv vo indices calls bB = none ∧
        runCalls ext (SetCulling r .Front) rv vo indices calls bF = none) ∨
      ∃ bN' bB' bF',
        runCalls ext (SetCulling r .None) rv vo indices calls bN = some bN' ∧
        runCalls ext (SetCulling r .Back) rv vo indices calls bB = some bB' ∧
        runCalls ext (SetCulling r .Front) rv vo indices calls bF = some bF' ∧
        CullInv bN' bB' bF' := by
  intro calls
  induction calls with
  | nil =>
    intro bN bB bF hinv
    exact Or.inr ⟨bN, bB, bF, rfl, rfl, rfl, hinv⟩
  | cons c rest ih =>
    intro bN bB bF hinv
    simp only [runCalls, RenderTriangle_eq_resolve]
    cases hres : resolveTriangle rv vo indices c.curVertexIdx c.swapVertices with
    | fault => exact Or.inl ⟨rfl, rfl, rfl⟩
    | skip => exact ih bN bB bF hinv
    | draw t =>
      simp only [rasterize]
      by_cases harea : |t.fullTriangleArea| < FLT_EPSILON
      · simp only [if_pos harea]
        exact ih bN bB bF hinv
      · simp only [if_neg harea]
        exact ih _ _ _ (cullInv_scanTriangle ext r t bN bB bF hbb hinv)

theorem cullInv_beginFrame (ext : Externals) (u : Bool) (b : Buffers) :
    CullInv (beginFrame ext u b) (beginFrame ext u b) (beginFrame ext u b) := by
  intro i
  have hw : ¬ (beginFrame ext u b).Written i := by
    rintro ⟨w, hw, -⟩
    rw [beginFrame_writes] at hw
    cases hw
  refine ⟨?_, ?_, ?_, ?_, ?_, ?_⟩
  · rw [min_self]
  · exact ⟨fun h => absurd h hw, fun h => h.elim id id⟩
  · rw [beginFrame_depth]
  · rw [beginFrame_depth]
  · rw [beginFrame_depth]; exact fun h => absurd h (lt_irrefl _)
  · rw [beginFrame_depth]; exact fun h => absurd h (lt_irrefl _)

/-! ## Cull modes -/

/-- C9: for any triangles rendered one after the other from a freshly cleared
frame, with the bounding-box view off, the pixels stored to under
`CullMode::None` are exactly those stored to under `CullMode::Back` or under
`CullMode::Front` (the three runs read the same arrays, so either all three
fault or none does). -/
theorem C9_cull_none_writes_union_of_back_and_front (ext : Externals) (r : SoftwareRenderer)
    (rasterVertices : List Vector2) (verticesOut : List Vertex_Out) (indices : List Nat)
    (calls : List Call) (useUniformBackground : Bool) (b : Buffers)
    (hbb : r.m_ShowBoundingBox = false) :
    (runCalls ext (SetCulling r .None) rasterVertices verticesOut indices calls
          (beginFrame ext useUniformBackground b) = none ∧
        runCalls ext (SetCulling r .Back) rasterVertices verticesOut indices calls
          (beginFrame ext useUniformBackground b) = none ∧
        runCalls ext (SetCulling r .Front) rasterVertices verticesOut indices calls
          (beginFrame ext useUniformBackground b) = none) ∨
      ∃ bN bB bF,
        runCalls ext (SetCulling r .None) rasterVertices verticesOut indices calls
          (beginFrame ext useUniformBackground b) = some bN ∧
        runCalls ext (SetCulling r .Back) rasterVertices verticesOut indices calls
          (beginFrame ext useUniformBackground b) = some bB ∧
        runCalls ext (SetCulling r .Front) rasterVertices verticesOut indices calls
          (beginFrame ext useUniformBackground b) = some bF ∧
        ∀ i, bN.Written i ↔ bB.Written i ∨ bF.Written i := by
  rcases cullInv_runCalls ext r rasterVertices verticesOut indices hbb calls _ _ _
    (cullInv_beginFrame ext useUniformBackground b) with h | ⟨bN, bB, bF, h1, h2, h3, hinv⟩
  · exact Or.inl h
  · exact Or.inr ⟨bN, bB, bF, h1, h2, h3, fun i => (hinv i).2.1⟩

/-- C9, an instance: the demo triangle and its nearer copy, drawn in that
order; none of the three runs faults. -/
theorem C9_cull_none_writes_union_of_back_and_front_witness :
    demoRenderer.m_ShowBoundingBox = false ∧
      ∃ bN bB bF,
        runCalls demoExternals (SetCulling demoRenderer .None) demoRaster2 demoVerticesOut2
          [0, 1, 2, 3, 4, 5] [⟨0, false⟩, ⟨3, false⟩]
          (beginFrame demoExternals true demoBuffers) = some bN ∧
        runCalls demoExternals (SetCulling demoRenderer .Back) demoRaster2 demoVerticesOut2
          [0, 1, 2, 3, 4, 5] [⟨0, false⟩, ⟨3, false⟩]
          (beginFrame demoExternals true demoBuffers) = some bB ∧
        runCalls demoExternals (SetCulling demoRenderer .Front) demoRaster2 demoVerticesOut2
          [0, 1, 2, 3, 4, 5] [⟨0, false⟩, ⟨3, false⟩]
          (beginFrame demoExternals true demoBuffers) = some bF ∧
        ∀ i, bN.Written i ↔ bB.Written i ∨ bF.Written i := by
  refine ⟨rfl, ?_⟩
  rcases C9_cull_none_writes_union_of_back_and_front demoExternals demoRenderer demoRaster2
    demoVerticesOut2 [0, 1, 2, 3, 4, 5] [⟨0, false⟩, ⟨3, false⟩] true demoBuffers rfl
    with h | h
  · exfalso
    have hrun := h.1
    simp only [runCalls, RenderTriangle_eq_resolve, demo2_resolve_far, demo2_resolve_near] at hrun
    cases hrun
  · exact h

/-! ## Shading stage -/

theorem ColorRGB.zero_add (c : ColorRGB) : (⟨0, 0, 0⟩ : ColorRGB) + c = c := by
  cases c
  show ColorRGB.add _ _ = _
  simp [ColorRGB.add]

theorem ColorRGB.add_def (a c : ColorRGB) : a + c = ⟨a.r + c.r, a.g + c.g, a.b + c.b⟩ := rfl

theorem shadedPixel_eq_storedChannels (ext : Externals) (r : SoftwareRenderer)
    (pixelInfo : Vertex_Out) :
    shadedPixel ext r pixelInfo =
      ext.mapRGB (storedChannels ext r pixelInfo).1 (storedChannels ext r pixelInfo).2.1
        (storedChannels ext r pixelInfo).2.2 := rfl

theorem observedArea_nonneg (ext : Externals) (r : SoftwareRenderer) (pixelInfo : Vertex_Out) :
    0 ≤ observedArea ext r pixelInfo := by
  unfold observedArea Vector3.DotClamped
  exact le_max_left _ _

/-- The colour before the clamp in Diffuse mode with a pure red diffuse texture. -/
theorem finalColor_diffuse_red (ext : Externals) (r : SoftwareRenderer) (pixelInfo : Vertex_Out)
    (hdepth : r.m_ShowDepthBuffer = false) (hmode : r.m_LightingMode = .Diffuse)
    (htex : ∀ uv, ext.sampleDiffuse uv = ⟨1, 0, 0⟩) :
    finalColor ext r pixelInfo =
      ⟨7 * observedArea ext r pixelInfo * ext.invPi + 25 / 1000, 25 / 1000, 25 / 1000⟩ := by
  unfold finalColor
  simp only [hdepth, hmode, htex, Lambert, ColorRGB.scale, ColorRGB.zero_add, ColorRGB.add_def,
    ambientColor, lightIntensity]
  simp

theorem truncToInt_of_nonneg (q : ℚ) (h : 0 ≤ q) : truncToInt q = ⌊q⌋ := by
  unfold truncToInt
  rw [if_pos h]

theorem toUint8_eq (q : ℚ) (n : Nat) (hn : n < 256) (h1 : (n : ℚ) ≤ q) (h2 : q < n + 1) :
    toUint8 q = n := by
  have hq : 0 ≤ q := le_trans (Nat.cast_nonneg n) h1
  have hfl : ⌊q⌋ = (n : Int) := by
    rw [Int.floor_eq_iff]
    exact ⟨by exact_mod_cast h1, by exact_mod_cast h2⟩
  unfold toUint8
  rw [truncToInt_of_nonneg q hq, hfl]
  omega

/-- C11, as stated, fails: in Diffuse mode with a pure red diffuse texture, a
pixel whose normal faces the viewer is stored with the channels (255, 4, 4):
green and blue are not 0. -/
theorem C11_diffuse_red_has_green_and_blue :
    demoDiffuseRenderer.m_ShowDepthBuffer = false ∧
      demoDiffuseRenderer.m_LightingMode = .Diffuse ∧
      (∀ uv, demoExternals.sampleDiffuse uv = ⟨1, 0, 0⟩) ∧
      storedChannels demoExternals demoDiffuseRenderer demoPixelInfo = (255, 4, 4) ∧
      (storedChannels demoExternals demoDiffuseRenderer demoPixelInfo).2.1 ≠ 0 ∧
      (storedChannels demoExternals demoDiffuseRenderer demoPixelInfo).2.2 ≠ 0 := by
  have hfc : finalColor demoExternals demoDiffuseRenderer demoPixelInfo =
      ⟨2057 / 1500, 1 / 40, 1 / 40⟩ := by
    rw [finalColor_diffuse_red demoExternals demoDiffuseRenderer demoPixelInfo rfl rfl
      (fun _ => rfl)]
    simp only [observedArea, useNormal, demoDiffuseRenderer, demoRenderer, demoPixelInfo,
      Vertex_Out.default, demoExternals, lightDirection, Vector3.DotClamped, Vector3.Dot,
      Vector3.neg, id, Bool.false_eq_true, if_false]
    norm_num
  have hch : storedChannels demoExternals demoDiffuseRenderer demoPixelInfo = (255, 4, 4) := by
    unfold storedChannels
    rw [hfc]
    have hmax : ColorRGB.MaxToOne ⟨2057 / 1500, 1 / 40, 1 / 40⟩ =
        ⟨1, 75 / 4114, 75 / 4114⟩ := by
      unfold ColorRGB.MaxToOne
      norm_num
    simp only [hmax]
    rw [toUint8_eq (1 * 255) 255 (by norm_num) (by norm_num) (by norm_num),
      toUint8_eq (75 / 4114 * 255) 4 (by norm_num) (by norm_num) (by norm_num)]
  refine ⟨rfl, rfl, fun _ => rfl, hch, ?_, ?_⟩
  · rw [hch]; decide
  · rw [hch]; decide

theorem toUint8_ne_zero (q : ℚ) (h1 : 1 ≤ q) (h2 : q < 256) : toUint8 q ≠ 0 := by
  have hq : 0 ≤ q := le_trans zero_le_one h1
  have hlo : (1 : Int) ≤ ⌊q⌋ := by
    rw [Int.le_floor]
    exact_mod_cast h1
  have hhi : ⌊q⌋ < 256 := by
    rw [Int.floor_lt]
    exact_mod_cast h2
  unfold toUint8
  rw [truncToInt_of_nonneg q hq]
  omega

/-- C11, amended: in Diffuse lighting mode (depth view off) with a diffuse
texture that samples pure red at every uv, the colour before the clamp is
`(7 * observedArea / pi + 0.025, 0.025, 0.025)` for every normal and view
direction: the ambient term is added to the three channels. The pixel is stored
with a non-zero red channel and with equal green and blue channels, which are
not 0 while the red value before the clamp is at most 6.375, and are 6 when it
is at most 1. -/
theorem C11_diffuse_red_channels (ext : Externals) (r : SoftwareRenderer)
    (pixelInfo : Vertex_Out) (hdepth : r.m_ShowDepthBuffer = false)
    (hmode : r.m_LightingMode = .Diffuse) (htex : ∀ uv, ext.sampleDiffuse uv = ⟨1, 0, 0⟩)
    (hpi : 0 ≤ ext.invPi) :
    finalColor ext r pixelInfo =
        ⟨7 * observedArea ext r pixelInfo * ext.invPi + 25 / 1000, 25 / 1000, 25 / 1000⟩ ∧
      shadedPixel ext r pixelInfo =
        ext.mapRGB (storedChannels ext r pixelInfo).1 (storedChannels ext r pixelInfo).2.1
          (storedChannels ext r pixelInfo).2.2 ∧
      (storedChannels ext r pixelInfo).1 ≠ 0 ∧
      (storedChannels ext r pixelInfo).2.1 = (storedChannels ext r pixelInfo).2.2 ∧
      (7 * observedArea ext r pixelInfo * ext.invPi + 25 / 1000 ≤ 51 / 8 →
        (storedChannels ext r pixelInfo).2.1 ≠ 0 ∧ (storedChannels ext r pixelInfo).2.2 ≠ 0) ∧
      (7 * observedArea ext r pixelInfo * ext.invPi + 25 / 1000 ≤ 1 →
        (storedChannels ext r pixelInfo).2.1 = 6 ∧ (storedChannels ext r pixelInfo).2.2 = 6) := by
  have hfc := finalColor_diffuse_red ext r pixelInfo hdepth hmode htex
  have hoa := observedArea_nonneg ext r pixelInfo
  have hR : (25 / 1000 : ℚ) ≤ 7 * observedArea ext r pixelInfo * ext.invPi + 25 / 1000 := by
    have : 0 ≤ 7 * observedArea ext r pixelInfo * ext.invPi :=
      mul_nonneg (mul_nonneg (by norm_num) hoa) hpi
    linarith
  refine ⟨hfc, rfl, ?_⟩
  unfold storedChannels
  rw [hfc]
  generalize 7 * observedArea ext r pixelInfo * ext.invPi + 25 / 1000 = R at hR ⊢
  have hmaxv : max R (max (25 / 1000 : ℚ) (25 / 1000)) = R := by
    rw [max_self, max_eq_left hR]
  by_cases hgt : R > 1
  · have hm : ColorRGB.MaxToOne ⟨R, 25 / 1000, 25 / 1000⟩ =
        ⟨R / R, 25 / 1000 / R, 25 / 1000 / R⟩ := by
      unfold ColorRGB.MaxToOne
      simp only [hmaxv, if_pos hgt]
    have hRpos : 0 < R := lt_trans zero_lt_one hgt
    simp only [hm]
    refine ⟨?_, trivial, ?_, ?_⟩
    · rw [div_self (ne_of_gt hRpos)]
      exact toUint8_ne_zero _ (by norm_num) (by norm_num)
    · intro hle
      have hq1 : (1 : ℚ) ≤ 25 / 1000 / R * 255 := by
        rw [div_mul_eq_mul_div, le_div_iff₀ hRpos]
        linarith
      have hq2 : (25 / 1000 / R * 255 : ℚ) < 256 := by
        rw [div_mul_eq_mul_div, div_lt_iff₀ hRpos]
        linarith
      exact ⟨toUint8_ne_zero _ hq1 hq2, toUint8_ne_zero _ hq1 hq2⟩
    · intro hle
      exact absurd hgt (not_lt.2 hle)
  · have hm : ColorRGB.MaxToOne ⟨R, 25 / 1000, 25 / 1000⟩ = ⟨R, 25 / 1000, 25 / 1000⟩ := by
      unfold ColorRGB.MaxToOne
      simp only [hmaxv, if_neg hgt]
    have hle1 : R ≤ 1 := not_lt.1 hgt
    simp only [hm]
    have h6 : toUint8 (25 / 1000 * 255) = 6 :=
      toUint8_eq _ 6 (by norm_num) (by norm_num) (by norm_num)
    refine ⟨?_, trivial, ?_, ?_⟩
    · exact toUint8_ne_zero _ (by linarith) (by linarith)
    · intro _
      rw [h6]
      exact ⟨by decide, by decide⟩
    · intro _
      exact ⟨h6, h6⟩

/-- C11, an instance of the amended statement: the demo scene in Diffuse mode. -/
theorem C11_diffuse_red_channels_witness :
    demoDiffuseRenderer.m_ShowDepthBuffer = false ∧
      demoDiffuseRenderer.m_LightingMode = .Diffuse ∧
      (∀ uv, demoExternals.sampleDiffuse uv = ⟨1, 0, 0⟩) ∧
      0 ≤ demoExternals.invPi ∧
      (storedChannels demoExternals demoDiffuseRenderer demoPixelInfo).1 ≠ 0 ∧
      (storedChannels demoExternals demoDiffuseRenderer demoPixelInfo).2.1 =
        (storedChannels demoExternals demoDiffuseRenderer demoPixelInfo).2.2 :=
  have hpi : 0 ≤ demoExternals.invPi := by
    show (0 : ℚ) ≤ 1 / 3
    norm_num
  have h := C11_diffuse_red_channels demoExternals demoDiffuseRenderer demoPixelInfo rfl rfl
    (fun _ => rfl) hpi
  ⟨rfl, rfl, fun _ => rfl, hpi, h.2.2.1, h.2.2.2.1⟩

/-- C12: in Combined lighting mode (depth view off) the colour `PixelShading`
computes before the clamp is `(lightIntensity * Lambert + specular) *
observedArea + ambient` with one more `ambient` on top: the Combined branch
adds `ambientColor` and the statement after the switch adds it again, so each
channel exceeds the claimed value by 0.025. -/
theorem C12_combined_adds_ambient_twice (ext : Externals) (r : SoftwareRenderer)
    (pixelInfo : Vertex_Out) (hdepth : r.m_ShowDepthBuffer = false)
    (hmode : r.m_LightingMode = .Combined) :
    lightIntensity = 7 ∧ ambientColor = ⟨25 / 1000, 25 / 1000, 25 / 1000⟩ ∧
      finalColor ext r pixelInfo =
        (ColorRGB.scale (observedArea ext r pixelInfo)
            (ColorRGB.scale lightIntensity (Lambert ext 1 (ext.sampleDiffuse pixelInfo.uv)) +
              specularColor ext r pixelInfo) + ambientColor) + ambientColor ∧
      finalColor ext r pixelInfo ≠
        ColorRGB.scale (observedArea ext r pixelInfo)
            (ColorRGB.scale lightIntensity (Lambert ext 1 (ext.sampleDiffuse pixelInfo.uv)) +
              specularColor ext r pixelInfo) + ambientColor ∧
      (finalColor ext r pixelInfo).r =
        (ColorRGB.scale (observedArea ext r pixelInfo)
            (ColorRGB.scale lightIntensity (Lambert ext 1 (ext.sampleDiffuse pixelInfo.uv)) +
              specularColor ext r pixelInfo) + ambientColor).r + 25 / 1000 := by
  have hfc : finalColor ext r pixelInfo =
      (ColorRGB.scale (observedArea ext r pixelInfo)
          (ColorRGB.scale lightIntensity (Lambert ext 1 (ext.sampleDiffuse pixelInfo.uv)) +
            specularColor ext r pixelInfo) + ambientColor) + ambientColor := by
    unfold finalColor
    simp only [hdepth, hmode, ColorRGB.zero_add, Bool.false_eq_true, if_false]
  refine ⟨rfl, rfl, hfc, ?_, ?_⟩
  · rw [hfc]
    intro h
    have hr := congrArg ColorRGB.r h
    simp only [ColorRGB.add_def, ambientColor] at hr
    linarith
  · rw [hfc]
    simp only [ColorRGB.add_def, ambientColor]

/-- C12, an instance: the demo scene, whose renderer is in Combined mode. -/
theorem C12_combined_adds_ambient_twice_witness :
    demoRenderer.m_ShowDepthBuffer = false ∧ demoRenderer.m_LightingMode = .Combined ∧
      finalColor demoExternals demoRenderer demoPixelInfo ≠
        ColorRGB.scale (observedArea demoExternals demoRenderer demoPixelInfo)
            (ColorRGB.scale lightIntensity
                (Lambert demoExternals 1 (demoExternals.sampleDiffuse demoPixelInfo.uv)) +
              specularColor demoExternals demoRenderer demoPixelInfo) + ambientColor :=
  ⟨rfl, rfl, (C12_combined_adds_ambient_twice demoExternals demoRenderer demoPixelInfo rfl
    rfl).2.2.2.1⟩

/-! ## Dispatch stage: chunk sizes -/

theorem asyncListTasks_calls (size tpt : Nat) :
    ∀ (cores rem cur : Nat),
      (asyncListTasks size tpt cores rem cur).flatMap Prod.snd =
        asyncListCores size tpt cores rem cur := by
  intro cores
  induction cores with
  | zero => intro rem cur; rfl
  | succ k ih =>
    intro rem cur
    simp only [asyncListTasks, asyncListCores, List.flatMap_cons, ih]

/-- C13: for 5 triangles on 4 cores the Async branch launches its tasks with
the sizes 2, 2, 2, 1 and not 2, 1, 1, 1: `remainingTriangles` is the remainder
`indices.size() % (3 * nrCores) = 3` in indices, three times the number of
left-over triangles. The tasks draw 2, 2, 1 and 0 triangles (the bounds check
drops the rest), so the chunks differ by two. -/
theorem C13_async_list_chunks_unbalanced :
    asyncListChunks (3 * 5) 4 =
        [(2, [⟨0, false⟩, ⟨3, false⟩]), (2, [⟨6, false⟩, ⟨9, false⟩]), (2, [⟨12, false⟩]),
          (1, [])] ∧
      (asyncListChunks (3 * 5) 4).map Prod.fst ≠ balancedChunkSizes 5 4 ∧
      balancedChunkSizes 5 4 = [2, 1, 1, 1] ∧
      ((asyncListChunks (3 * 5) 4).map Prod.fst).sum = 7 ∧
      (asyncListChunks (3 * 5) 4).map (fun task => task.2.length) = [2, 2, 1, 0] ∧
      dispatchCalls .TriangleList .Async (3 * 5) 4 =
        some ((asyncListChunks (3 * 5) 4).flatMap Prod.snd) := by
  refine ⟨by decide, by decide, by decide, by decide, by decide, ?_⟩
  simp only [dispatchCalls, asyncListCalls, asyncListChunks, asyncListTasks_calls]
  rfl

/-! ## Thread mode -/

theorem ToggleMultiThreading_iterate_mode (r : SoftwareRenderer) (n : Nat) :
    (ToggleMultiThreading^[n] r).m_ThreadMode = r.m_ThreadMode := by
  induction n generalizing r with
  | zero => rfl
  | succ k ih =>
    rw [Function.iterate_succ_apply, ih]
    rfl

theorem Render_renderer (ext : Externals) (nrCores : Nat) (u : Bool) (r r' : SoftwareRenderer)
    (b b' : Buffers) (h : Render ext nrCores u r b = some (r', b')) :
    r' = applyThreadModeChange r := by
  unfold Render at h
  simp only at h
  cases hm : r.m_pMesh with
  | none =>
    rw [hm] at h
    simp only [Option.some.injEq, Prod.mk.injEq] at h
    exact h.1.symm
  | some mesh =>
    rw [hm] at h
    simp only at h
    cases hd : dispatchCalls mesh.m_PrimitiveTopology r.m_ThreadMode mesh.m_Indices.length
        nrCores with
    | none => rw [hd] at h; cases h
    | some calls =>
      rw [hd] at h
      simp only [Option.map_eq_some', Prod.mk.injEq] at h
      obtain ⟨b1, -, h1, -⟩ := h
      exact h1.symm

theorem demoToggled_render :
    ∃ b', Render demoExternals 4 true demoToggledRenderer demoBuffers =
      some (applyThreadModeChange demoToggledRenderer, b') := by
  have hres : ∃ t, resolveTriangle
      ((VertexTransformationFunction demoExternals demoMesh).map fun ndcVertex =>
        CalculateNDCToRaster demoToggledRenderer ndcVertex.position)
      (VertexTransformationFunction demoExternals demoMesh) demoMesh.m_Indices 0 false =
        .draw t := by
    simp only [VertexTransformationFunction, transformVertex, demoMesh, demoMeshVertex,
      demoExternals, CalculateNDCToRaster, demoToggledRenderer, ToggleMultiThreading, SetMesh,
      demoRenderer, resolveTriangle, IsOutsideFrustum, List.map_cons, List.map_nil, id]
    norm_num
  obtain ⟨t, ht⟩ := hres
  have hcalls : dispatchCalls demoMesh.m_PrimitiveTopology demoToggledRenderer.m_ThreadMode
      demoMesh.m_Indices.length 4 = some [⟨0, false⟩] := by decide
  refine ⟨rasterize demoExternals demoToggledRenderer t (beginFrame demoExternals true demoBuffers),
    ?_⟩
  unfold Render
  simp only [show demoToggledRenderer.m_pMesh = some demoMesh from rfl, hcalls, runCalls,
    RenderTriangle_eq_resolve, ht, Option.map_some']

/-- C14: `ToggleMultiThreading`, however often it is called, and the other
setters leave the active mode `m_ThreadMode` alone. A `Render` dispatches the
whole frame with the mode that was active when it started (the renderer handed
to every `RenderTriangle` is the one it started with), and only at its end
makes a requested mode active. -/
theorem C14_thread_mode_changes_only_at_end_of_Render (ext : Externals) (nrCores : Nat)
    (useUniformBackground : Bool) (r r' : SoftwareRenderer) (b b' : Buffers)
    (h : Render ext nrCores useUniformBackground r b = some (r', b')) :
    (∀ n, (ToggleMultiThreading^[n] r).m_ThreadMode = r.m_ThreadMode) ∧
      (ToggleDepthBuffer r).m_ThreadMode = r.m_ThreadMode ∧
      (ToggleBoundingBoxVisible r).m_ThreadMode = r.m_ThreadMode ∧
      (ToggleLightingMode r).m_ThreadMode = r.m_ThreadMode ∧
      (ToggleNormalMap r).m_ThreadMode = r.m_ThreadMode ∧
      (∀ mode, (SetCulling r mode).m_ThreadMode = r.m_ThreadMode) ∧
      (∀ mesh, (SetMesh r mesh).m_ThreadMode = r.m_ThreadMode) ∧
      r'.m_ThreadMode = (if r.m_ThreadModeChange then r.m_NextMode else r.m_ThreadMode) ∧
      (∀ mesh, r.m_pMesh = some mesh →
        ∃ calls,
          dispatchCalls mesh.m_PrimitiveTopology r.m_ThreadMode mesh.m_Indices.length nrCores =
            some calls ∧
          runCalls ext r
            ((VertexTransformationFunction ext mesh).map fun ndcVertex =>
              CalculateNDCToRaster r ndcVertex.position)
            (VertexTransformationFunction ext mesh) mesh.m_Indices calls
            (beginFrame ext useUniformBackground b) = some b') := by
  refine ⟨ToggleMultiThreading_iterate_mode r, rfl, rfl, rfl, rfl, fun _ => rfl, fun _ => rfl,
    ?_, ?_⟩
  · rw [Render_renderer ext nrCores useUniformBackground r r' b b' h]
    unfold applyThreadModeChange
    split_ifs <;> rfl
  · intro mesh hm
    unfold Render at h
    simp only [hm] at h
    cases hd : dispatchCalls mesh.m_PrimitiveTopology r.m_ThreadMode mesh.m_Indices.length
        nrCores with
    | none => rw [hd] at h; cases h
    | some calls =>
      rw [hd] at h
      simp only [Option.map_eq_some', Prod.mk.injEq] at h
      obtain ⟨b1, hrun, -, rfl⟩ := h
      exact ⟨calls, rfl, hrun⟩

/-- C14, an instance: the demo mesh rendered after one `ToggleMultiThreading`;
the frame is dispatched in Synchronous mode and ends with Async active. -/
theorem C14_thread_mode_changes_only_at_end_of_Render_witness :
    ∃ r' b', Render demoExternals 4 true demoToggledRenderer demoBuffers = some (r', b') ∧
      demoToggledRenderer.m_ThreadMode = .Synchronous ∧ r'.m_ThreadMode = .Async ∧
      dispatchCalls demoMesh.m_PrimitiveTopology .Synchronous demoMesh.m_Indices.length 4 =
        some [⟨0, false⟩] := by
  obtain ⟨b', hb⟩ := demoToggled_render
  have h := C14_thread_mode_changes_only_at_end_of_Render demoExternals 4 true
    demoToggledRenderer (applyThreadModeChange demoToggledRenderer) demoBuffers b' hb
  exact ⟨_, b', hb, rfl, h.2.2.2.2.2.2.2.1, by decide⟩

theorem ToggleMultiThreading_next (r : SoftwareRenderer) :
    (ToggleMultiThreading r).m_NextMode = r.m_NextMode.next := by
  unfold ToggleMultiThreading
  cases h : r.m_NextMode <;> simp [ThreadMode.toInt, ThreadMode.ofInt, ThreadMode.next]

theorem ToggleMultiThreading_iterate_next (r : SoftwareRenderer) (n : Nat) :
    (ToggleMultiThreading^[n] r).m_NextMode = ThreadMode.next^[n] r.m_NextMode := by
  induction n generalizing r with
  | zero => rfl
  | succ k ih =>
    rw [Function.iterate_succ_apply, ih, ToggleMultiThreading_next, Function.iterate_succ_apply]

theorem ToggleMultiThreading_iterate_change (r : SoftwareRenderer) (n : Nat) (hn : 0 < n) :
    (ToggleMultiThreading^[n] r).m_ThreadModeChange = true := by
  cases n with
  | zero => omega
  | succ k =>
    rw [Function.iterate_succ_apply']
    rfl

theorem ThreadMode.next_three (m : ThreadMode) : ThreadMode.next^[3] m = m := by
  cases m <;> rfl

theorem ThreadMode.next_iterate_mod (m : ThreadMode) (n : Nat) :
    ThreadMode.next^[n] m = ThreadMode.next^[n % 3] m := by
  have h3 : ThreadMode.next^[3] = id := funext ThreadMode.next_three
  conv_lhs => rw [← Nat.mod_add_div n 3]
  rw [Function.iterate_add_apply, Function.iterate_mul, h3, Function.iterate_id]
  rfl

/-- C15: each `ToggleMultiThreading` moves the requested mode `m_NextMode` one
step along Synchronous, Async, Parallel, Synchronous, and marks a change as
requested. Starting where the requested mode is the active one (as after the
constructor and after every such `Render`), `n` toggles followed by a `Render`
leave the active mode `n mod 3` steps further, with no request pending; three
toggles and a `Render` bring back the original mode. -/
theorem C15_toggles_cycle_thread_mode (r : SoftwareRenderer)
    (hsync : r.m_NextMode = r.m_ThreadMode) :
    (ToggleMultiThreading r).m_NextMode = r.m_NextMode.next ∧
      (ToggleMultiThreading r).m_ThreadModeChange = true ∧
      (∀ n, (ToggleMultiThreading^[n] r).m_NextMode = ThreadMode.next^[n] r.m_NextMode) ∧
      (∀ n ext nrCores useUniformBackground b r' b',
        Render ext nrCores useUniformBackground (ToggleMultiThreading^[n] r) b = some (r', b') →
        r'.m_ThreadMode = ThreadMode.next^[n % 3] r.m_ThreadMode ∧
          r'.m_ThreadMode = ThreadMode.next^[n] r.m_ThreadMode ∧
          (0 < n → r'.m_NextMode = r'.m_ThreadMode ∧ r'.m_ThreadModeChange = false)) ∧
      (∀ ext nrCores useUniformBackground b r' b',
        Render ext nrCores useUniformBackground (ToggleMultiThreading^[3] r) b = some (r', b') →
        r'.m_ThreadMode = r.m_ThreadMode) := by
  have hmain : ∀ n ext nrCores useUniformBackground b r' b',
      Render ext nrCores useUniformBackground (ToggleMultiThreading^[n] r) b = some (r', b') →
      r'.m_ThreadMode = ThreadMode.next^[n] r.m_ThreadMode ∧
        (0 < n → r'.m_NextMode = r'.m_ThreadMode ∧ r'.m_ThreadModeChange = false) := by
    intro n ext nrCores u b r' b' h
    have hr := Render_renderer ext nrCores u _ r' b b' h
    subst hr
    have hnext := ToggleMultiThreading_iterate_next r n
    have hmode := ToggleMultiThreading_iterate_mode r n
    unfold applyThreadModeChange
    by_cases hc : (ToggleMultiThreading^[n] r).m_ThreadModeChange = true
    · rw [if_pos hc]
      refine ⟨?_, fun _ => ⟨rfl, rfl⟩⟩
      show (ToggleMultiThreading^[n] r).m_NextMode = _
      rw [hnext, hsync]
    · rw [if_neg hc]
      have hn0 : n = 0 := by
        by_contra hne
        exact hc (ToggleMultiThreading_iterate_change r n (Nat.pos_of_ne_zero hne))
      subst hn0
      exact ⟨rfl, fun h0 => absurd h0 (lt_irrefl 0)⟩
  refine ⟨ToggleMultiThreading_next r, rfl, ToggleMultiThreading_iterate_next r, ?_, ?_⟩
  · intro n ext nrCores u b r' b' h
    have := hmain n ext nrCores u b r' b' h
    exact ⟨by rw [← ThreadMode.next_iterate_mod]; exact this.1, this.1, this.2⟩
  · intro ext nrCores u b r' b' h
    rw [(hmain 3 ext nrCores u b r' b' h).1, ThreadMode.next_three]

/-- C15, an instance: the renderer as constructed (Synchronous, nothing
requested), toggled four times and rendered, is in Async mode. -/
theorem C15_toggles_cycle_thread_mode_witness :
    demoRenderer.m_NextMode = demoRenderer.m_ThreadMode ∧
      ∃ r' b', Render demoExternals 4 true (ToggleMultiThreading^[4] demoRenderer) demoBuffers =
          some (r', b') ∧
        r'.m_ThreadMode = .Async := by
  refine ⟨rfl, applyThreadModeChange (ToggleMultiThreading^[4] demoRenderer),
    beginFrame demoExternals true demoBuffers, rfl, ?_⟩
  exact ((C15_toggles_cycle_thread_mode demoRenderer rfl).2.2.2.1 4 demoExternals 4 true
    demoBuffers _ _ rfl).2.1

/-! ## Dispatch stage: triangle strips -/

theorem sizeMinusTwo_eq (n : Nat) (h2 : 2 ≤ n) (hn : n < 2 ^ 64) : sizeMinusTwo n = n - 2 := by
  unfold sizeMinusTwo
  have h : n + 2 ^ 64 - 2 = (n - 2) + 2 ^ 64 := by omega
  rw [h, Nat.add_mod_right, Nat.mod_eq_of_lt (by omega)]

theorem castInt_eq (m : Nat) (h : m < 2 ^ 31) : castInt m = (m : Int) := by
  unfold castInt
  have hm : m % 2 ^ 32 = m := Nat.mod_eq_of_lt (by omega)
  rw [hm, if_pos h]

theorem forRange_unit (m : Nat) : forRange m 1 m 0 = List.range m := by
  have h := forRange_chunk 1 (by decide) m 0 m (by omega)
  rw [Nat.zero_add, Nat.mul_one] at h
  rw [h, List.range_eq_range']

theorem asyncStripTask_eq (size cur taskSize : Nat) :
    asyncStripTask size cur taskSize =
      ((List.range' cur taskSize).filter fun t => decide (t + 2 < size)).map
        fun t => (⟨t, decide (t % 2 ≠ 0)⟩ : Call) := by
  unfold asyncStripTask
  simp only
  have h := forRange_chunk 1 (by decide) taskSize cur taskSize (by omega)
  rw [Nat.mul_one] at h
  rw [h]

theorem asyncStripCores_eq (size tpt : Nat) :
    ∀ (cores rem cur : Nat),
      asyncStripCores size tpt cores rem cur =
        ((List.range' cur (cores * tpt + min cores rem)).filter
          fun t => decide (t + 2 < size)).map fun t => (⟨t, decide (t % 2 ≠ 0)⟩ : Call) := by
  intro cores
  induction cores with
  | zero => intro rem cur; simp [asyncStripCores]
  | succ k ih =>
    intro rem cur
    by_cases hrem : rem > 0
    · simp only [asyncStripCores, hrem, if_true]
      rw [ih, asyncStripTask_eq, ← List.map_append, ← List.filter_append]
      have hlen : (k + 1) * tpt + min (k + 1) rem = (k * tpt + min k (rem - 1)) + (tpt + 1) := by
        have : (k + 1) * tpt = k * tpt + tpt := by ring
        omega
      have := List.range'_append cur (tpt + 1) (k * tpt + min k (rem - 1)) 1
      simp only [one_mul] at this
      rw [this, hlen]
    · have h0 : rem = 0 := by omega
      subst h0
      simp only [asyncStripCores, gt_iff_lt, lt_self_iff_false, if_false]
      rw [ih, asyncStripTask_eq, ← List.map_append, ← List.filter_append]
      have hlen : (k + 1) * tpt + min (k + 1) 0 = (k * tpt + min k 0) + tpt := by
        have : (k + 1) * tpt = k * tpt + tpt := by ring
        omega
      have := List.range'_append cur tpt (k * tpt + min k 0) 1
      simp only [one_mul] at this
      rw [this, hlen]

theorem asyncStripCalls_eq (n C : Nat) (h2 : 2 ≤ n) (hn : n < 2 ^ 64) (hC : 1 ≤ C) :
    asyncStripCalls n C =
      (List.range (n - 2)).map fun t => (⟨t, decide (t % 2 ≠ 0)⟩ : Call) := by
  unfold asyncStripCalls
  simp only
  rw [asyncStripCores_eq, sizeMinusTwo_eq n h2 hn]
  have htotal : C * ((n - 2) / C) + min C ((n - 2) % C) = n - 2 := by
    have h1 := Nat.div_add_mod (n - 2) C
    have h3 : (n - 2) % C < C := Nat.mod_lt _ (by omega)
    rw [min_eq_right (le_of_lt h3)]
    exact h1
  rw [htotal, List.range_eq_range']
  congr 1
  rw [List.filter_eq_self]
  intro a ha
  rw [List.mem_range'] at ha
  obtain ⟨i, hi, rfl⟩ := ha
  simp only [decide_eq_true_eq]
  omega

/-- The calls of a strip of `n` indices are the same in the three modes. -/
theorem strip_dispatch_eq (n C : Nat) (mode : ThreadMode) (hn : 3 ≤ n) (hint : n ≤ 2147483647)
    (hC : 1 ≤ C) :
    dispatchCalls .TriangleStrip mode n C =
      some ((List.range (n - 2)).map fun t => (⟨t, decide (t % 2 ≠ 0)⟩ : Call)) := by
  have hlt : n < 2 ^ 64 := by
    have : (2147483647 : Nat) < 2 ^ 64 := by norm_num
    omega
  cases mode with
  | Synchronous =>
    simp only [dispatchCalls, syncStripCalls]
    rw [sizeMinusTwo_eq n (by omega) hlt, forRange_unit]
  | Async =>
    have h0 : C ≠ 0 := by omega
    simp only [dispatchCalls, h0, if_false]
    rw [asyncStripCalls_eq n C (by omega) hlt hC]
  | Parallel =>
    simp only [dispatchCalls, parallelStripCalls]
    rw [sizeMinusTwo_eq n (by omega) hlt, castInt_eq (n - 2) (by
      have : (2 : Nat) ^ 31 = 2147483648 := by norm_num
      omega)]
    rfl

/-- When `RenderTriangle` gets to the scan stage: the three indices are read,
differ, and name vertices inside the clip volume. -/
theorem resolveTriangle_draw_iff (rv : List Vector2) (vo : List Vertex_Out) (indices : List Nat)
    (cur : Nat) (swap : Bool) (t : Triangle) :
    resolveTriangle rv vo indices cur swap = .draw t ↔
      ∃ i0 i1 i2,
        indices[cur]? = some i0 ∧
        indices[cur + 1 * (!swap).toNat + 2 * swap.toNat]? = some i1 ∧
        indices[cur + 2 * (!swap).toNat + 1 * swap.toNat]? = some i2 ∧
        ¬ (i0 = i1 ∨ i1 = i2 ∨ i0 = i2) ∧
        vo[i0]? = some t.o0 ∧ vo[i1]? = some t.o1 ∧ vo[i2]? = some t.o2 ∧
        IsOutsideFrustum t.o0.position = false ∧ IsOutsideFrustum t.o1.position = false ∧
        IsOutsideFrustum t.o2.position = false ∧
        rv[i0]? = some t.v0 ∧ rv[i1]? = some t.v1 ∧ rv[i2]? = some t.v2 := by
  unfold resolveTriangle
  cases h0 : indices[cur]? with
  | none => simp
  | some i0 =>
    cases h1 : indices[cur + 1 * (!swap).toNat + 2 * swap.toNat]? with
    | none => simp
    | some i1 =>
      cases h2 : indices[cur + 2 * (!swap).toNat + 1 * swap.toNat]? with
      | none => simp
      | some i2 =>
        simp only [Option.some.injEq, exists_and_left, exists_eq_left']
        by_cases heq : i0 = i1 ∨ i1 = i2 ∨ i0 = i2
        · simp [heq]
        · rw [if_neg heq]
          simp only [heq, not_false_eq_true, true_and]
          cases ho0 : vo[i0]? with
          | none => simp
          | some o0 =>
            dsimp only
            by_cases hf0 : IsOutsideFrustum o0.position = true
            · simp only [hf0, if_true, Option.some.injEq]
              constructor
              · intro h; cases h
              · rintro ⟨e, -, -, hh, -⟩
                rw [← e, hf0] at hh
                cases hh
            · rw [if_neg hf0]
              cases ho1 : vo[i1]? with
              | none => simp
              | some o1 =>
                dsimp only
                by_cases hf1 : IsOutsideFrustum o1.position = true
                · simp only [hf1, if_true, Option.some.injEq]
                  constructor
                  · intro h; cases h
                  · rintro ⟨-, e, -, -, hh, -⟩
                    rw [← e, hf1] at hh
                    cases hh
                · rw [if_neg hf1]
                  cases ho2 : vo[i2]? with
                  | none => simp
                  | some o2 =>
                    dsimp only
                    by_cases hf2 : IsOutsideFrustum o2.position = true
                    · simp only [hf2, if_true, Option.some.injEq]
                      constructor
                      · intro h; cases h
                      · rintro ⟨-, -, e, -, -, hh, -⟩
                        rw [← e, hf2] at hh
                        cases hh
                    · rw [if_neg hf2]
                      simp only [Bool.not_eq_true] at hf0 hf1 hf2
                      cases hv0 : rv[i0]? with
                      | none => simp
                      | some v0 =>
                        cases hv1 : rv[i1]? with
                        | none => simp
                        | some v1 =>
                          cases hv2 : rv[i2]? with
                          | none => simp
                          | some v2 =>
                            simp only [Resolved.draw.injEq, Option.some.injEq]
                            constructor
                            · rintro rfl
                              exact ⟨rfl, rfl, rfl, hf0, hf1, hf2, rfl, rfl, rfl⟩
                            · rintro ⟨e0, e1, e2, -, -, -, e3, e4, e5⟩
                              cases t
                              simp only at e0 e1 e2 e3 e4 e5
                              subst e0 e1 e2 e3 e4 e5
                              rfl

theorem swapped_area (v0 v1 v2 : Vector2) (o0 o1 o2 : Vertex_Out) :
    Triangle.fullTriangleArea ⟨v0, v2, v1, o0, o2, o1⟩ =
      -Triangle.fullTriangleArea ⟨v0, v1, v2, o0, o1, o2⟩ := by
  unfold Triangle.fullTriangleArea
  simp only [Vector2.Cross, Vector2.sub_def]
  ring

/-- C16: for a triangle strip of `n >= 3` indices (a count that fits the `int`
loop counters), in each of the three thread modes and on `C >= 1` cores, the
dispatch calls `RenderTriangle` exactly once for every start `i < n - 2`, with
the swap flag set exactly when `i` is odd, and makes no other call. A swapped
call that gets to the scan stage resolves the triple `(indices[i],
indices[i+2], indices[i+1])`: the vertices of the unswapped triangle with the
last two exchanged, and the opposite raster-space signed area. -/
theorem C16_strip_dispatch_alternates_winding (n C : Nat) (mode : ThreadMode) (hn : 3 ≤ n)
    (hint : n ≤ 2147483647) (hC : 1 ≤ C) :
    ∃ calls, dispatchCalls .TriangleStrip mode n C = some calls ∧
      calls = (List.range (n - 2)).map (fun i => (⟨i, decide (i % 2 = 1)⟩ : Call)) ∧
      (∀ i, i < n - 2 → calls.count ⟨i, decide (i % 2 = 1)⟩ = 1) ∧
      (∀ c ∈ calls, c.curVertexIdx < n - 2 ∧ (c.swapVertices = true ↔ c.curVertexIdx % 2 = 1)) ∧
      (∀ (rasterVertices : List Vector2) (verticesOut : List Vertex_Out) (indices : List Nat)
        (i : Nat) (t : Triangle),
        resolveTriangle rasterVertices verticesOut indices i true = .draw t →
        (∃ i0 i1 i2, indices[i]? = some i0 ∧ indices[i + 2]? = some i1 ∧
          indices[i + 1]? = some i2 ∧
          rasterVertices[i0]? = some t.v0 ∧ rasterVertices[i1]? = some t.v1 ∧
          rasterVertices[i2]? = some t.v2 ∧
          verticesOut[i0]? = some t.o0 ∧ verticesOut[i1]? = some t.o1 ∧
          verticesOut[i2]? = some t.o2) ∧
        resolveTriangle rasterVertices verticesOut indices i false =
          .draw ⟨t.v0, t.v2, t.v1, t.o0, t.o2, t.o1⟩ ∧
        t.fullTriangleArea = -Triangle.fullTriangleArea ⟨t.v0, t.v2, t.v1, t.o0, t.o2, t.o1⟩) := by
  have hfun : (fun t => (⟨t, decide (t % 2 ≠ 0)⟩ : Call)) =
      (fun i => (⟨i, decide (i % 2 = 1)⟩ : Call)) := by
    funext t
    congr 1
    rw [decide_eq_decide]
    exact Nat.mod_two_ne_zero
  refine ⟨(List.range (n - 2)).map (fun i => (⟨i, decide (i % 2 = 1)⟩ : Call)), ?_, rfl, ?_, ?_,
    ?_⟩
  · rw [strip_dispatch_eq n C mode hn hint hC, hfun]
  · intro i hi
    apply List.count_eq_one_of_mem
    · refine (List.nodup_range (n - 2)).map ?_
      intro a c h
      exact congrArg Call.curVertexIdx h
    · exact List.mem_map.2 ⟨i, List.mem_range.2 hi, rfl⟩
  · intro c hc
    obtain ⟨i, hi, rfl⟩ := List.mem_map.1 hc
    exact ⟨List.mem_range.1 hi, by simp⟩
  · intro rv vo indices i t hres
    obtain ⟨i0, i1, i2, h0, h1, h2, hne, ho0, ho1, ho2, hf0, hf1, hf2, hv0, hv1, hv2⟩ :=
      (resolveTriangle_draw_iff rv vo indices i true t).1 hres
    have h1' : indices[i + 2]? = some i1 := by simpa using h1
    have h2' : indices[i + 1]? = some i2 := by simpa using h2
    refine ⟨⟨i0, i1, i2, h0, h1', h2', hv0, hv1, hv2, ho0, ho1, ho2⟩, ?_, ?_⟩
    · rw [resolveTriangle_draw_iff]
      refine ⟨i0, i2, i1, h0, by simpa using h2', by simpa using h1', ?_, ho0, ho2, ho1, hf0,
        hf2, hf1, hv0, hv2, hv1⟩
      intro h
      apply hne
      rcases h with h | h | h
      · exact Or.inr (Or.inr h)
      · exact Or.inr (Or.inl h.symm)
      · exact Or.inl h
    · cases t
      rw [swapped_area]

/-- C16, an instance: a strip of 4 indices on 4 cores in Async mode draws two
triangles, start 0 unswapped and start 1 swapped. -/
theorem C16_strip_dispatch_alternates_winding_witness :
    3 ≤ 4 ∧ 4 ≤ 2147483647 ∧ 1 ≤ 4 ∧
      dispatchCalls .TriangleStrip .Async 4 4 = some [⟨0, false⟩, ⟨1, true⟩] := by
  obtain ⟨calls, h1, h2, -⟩ :=
    C16_strip_dispatch_alternates_winding 4 4 .Async (by decide) (by decide) (by decide)
  refine ⟨by decide, by decide, by decide, ?_⟩
  rw [h1, h2]
  decide

/-! ## Frames without triangles -/

theorem asyncStripCalls_zero (C : Nat) : asyncStripCalls 0 C = [] := by
  unfold asyncStripCalls
  simp only
  rw [asyncStripCores_eq]
  simp

/-- The one branch a frame without indices could not take: for a triangle-strip
mesh (which no `Mesh` is) whose index list is empty, the Synchronous loop bound
`indices.size() - 2` wraps around to `2^64 - 2`, the first iteration calls
`RenderTriangle` with start 0, and that call reads `indices[0]` of the empty
list. The Async and Parallel strip branches make no call. -/
theorem empty_strip_sync_reads_index (ext : Externals) (nrCores : Nat)
    (useUniformBackground : Bool) (r : SoftwareRenderer) (vertices : List Vertex)
    (b : Buffers) :
    sizeMinusTwo 0 = 18446744073709551614 ∧
      (syncStripCalls 0).head? = some ⟨0, false⟩ ∧
      RenderTriangle ext r b
        ((VertexTransformationFunction ext ⟨vertices, [], .TriangleStrip⟩).map fun ndcVertex =>
          CalculateNDCToRaster r ndcVertex.position)
        (VertexTransformationFunction ext ⟨vertices, [], .TriangleStrip⟩) [] 0 false = none ∧
      Render ext nrCores useUniformBackground
        { r with m_pMesh := some ⟨vertices, [], .TriangleStrip⟩, m_ThreadMode := .Synchronous }
        b = none ∧
      dispatchCalls .TriangleStrip .Parallel 0 nrCores = some [] ∧
      dispatchCalls .TriangleStrip .Async 0 (nrCores + 1) = some [] := by
  have hsize : sizeMinusTwo 0 = 18446744073709551613 + 1 := by decide
  have hcalls : syncStripCalls 0 =
      ⟨0, false⟩ :: (forRange (18446744073709551613 + 1) 1 18446744073709551613 (0 + 1)).map
        (fun curStartVertexIdx =>
          (⟨curStartVertexIdx, decide (curStartVertexIdx % 2 ≠ 0)⟩ : Call)) := by
    unfold syncStripCalls
    rw [hsize]
    rw [forRange]
    rw [if_pos (Nat.succ_pos _), List.map_cons]
    rfl
  obtain ⟨rest, hrest⟩ : ∃ rest, syncStripCalls 0 = ⟨0, false⟩ :: rest := ⟨_, hcalls⟩
  have hfault : ∀ (rv : List Vector2) (vo : List Vertex_Out) (b0 : Buffers)
      (r0 : SoftwareRenderer), RenderTriangle ext r0 b0 rv vo [] 0 false = none := by
    intro rv vo b0 r0
    simp [RenderTriangle]
  refine ⟨by decide, ?_, hfault _ _ _ _, ?_, ?_, ?_⟩
  · rw [hrest]
    rfl
  · unfold Render
    simp only [dispatchCalls, List.length_nil, hrest, runCalls, hfault, Option.map_none']
  · simp only [dispatchCalls, parallelStripCalls]
    have : castInt (sizeMinusTwo 0) = -2 := by decide
    rw [this]
    rfl
  · simp only [dispatchCalls, asyncStripCalls_zero]
    simp

/-! ## Debug views -/

theorem scanPixel_boundingBox (ext : Externals) (r : SoftwareRenderer) (t : Triangle)
    (b : Buffers) (px py : Nat) (hbb : r.m_ShowBoundingBox = true) :
    scanPixel ext r t b px py = b.storePixel (pixelIdx r px py) (ext.mapRGB 255 255 255) := by
  unfold scanPixel pixelIdx
  simp only [hbb, if_true]

theorem scanList_boundingBox_depth (ext : Externals) (r : SoftwareRenderer) (t : Triangle)
    (hbb : r.m_ShowBoundingBox = true) :
    ∀ (ks : List (Nat × Nat)) (b : Buffers),
      (scanList ext r t ks b).depthBufferPixels = b.depthBufferPixels := by
  intro ks
  induction ks with
  | nil => intro b; rfl
  | cons k rest ih =>
    intro b
    have h := ih (scanPixel ext r t b k.1 k.2)
    simp only [scanList, List.foldl_cons] at h ⊢
    rw [h, scanPixel_boundingBox ext r t b k.1 k.2 hbb]
    rfl

/-- The pixel buffer after a scan in bounding-box view. -/
theorem scanTriangle_boundingBox (ext : Externals) (r : SoftwareRenderer) (t : Triangle)
    (b : Buffers) (hbb : r.m_ShowBoundingBox = true) (i : Nat) :
    ((∃ px py, InScanBox r t px py ∧ pixelIdx r px py = i) →
        (scanTriangle ext r t b).backBufferPixels i = ext.mapRGB 255 255 255) ∧
      ((∀ px py, InScanBox r t px py → pixelIdx r px py ≠ i) →
        (scanTriangle ext r t b).backBufferPixels i = b.backBufferPixels i) := by
  constructor
  · rintro ⟨px, py, hbox, rfl⟩
    rw [(scanTriangle_at ext r t b px py hbox).2, scanPixel_boundingBox ext r t b px py hbb]
    simp [Buffers.storePixel]
  · intro hout
    exact (scanTriangle_other ext r t b i hout).2

theorem inScanBox_congr (r r2 : SoftwareRenderer) (t : Triangle) (px py : Nat)
    (hW : r2.m_Width = r.m_Width) (hH : r2.m_Height = r.m_Height) :
    InScanBox r2 t px py ↔ InScanBox r t px py := by
  unfold InScanBox Triangle.endX Triangle.endY
  rw [hW, hH]

/-- C18: with the bounding-box view on, a triangle that `RenderTriangle` does
not reject sets every pixel of the clamped scan box `[startX, endX) x [startY,
endY)` to the debug colour `SDL_MapRGB(255, 255, 255)`, changes no other pixel
and no depth-buffer entry; the pixels it leaves are the same for every cull
mode, lighting mode and content of the depth buffer. -/
theorem C18_bounding_box_view_fills_scan_box (ext : Externals) (r : SoftwareRenderer)
    (b : Buffers) (rasterVertices : List Vector2) (verticesOut : List Vertex_Out)
    (indices : List Nat) (curVertexIdx : Nat) (swapVertices : Bool) (t : Triangle)
    (hbb : r.m_ShowBoundingBox = true)
    (hres : resolveTriangle rasterVertices verticesOut indices curVertexIdx swapVertices =
      .draw t)
    (harea : FLT_EPSILON ≤ |t.fullTriangleArea|) :
    ∃ b',
      RenderTriangle ext r b rasterVertices verticesOut indices curVertexIdx swapVertices =
        some b' ∧
      (∀ px py, t.startX ≤ px → px < t.endX r → t.startY ≤ py → py < t.endY r →
        b'.backBufferPixels (px + py * r.m_Width) = ext.mapRGB 255 255 255) ∧
      (∀ i, (∀ px py, t.startX ≤ px → px < t.endX r → t.startY ≤ py → py < t.endY r →
          px + py * r.m_Width ≠ i) →
        b'.backBufferPixels i = b.backBufferPixels i) ∧
      (∀ i, b'.depthBufferPixels i = b.depthBufferPixels i) ∧
      (∀ (r2 : SoftwareRenderer) (b2 : Buffers), r2.m_Width = r.m_Width →
        r2.m_Height = r.m_Height → r2.m_ShowBoundingBox = true →
        b2.backBufferPixels = b.backBufferPixels →
        ∃ b2', RenderTriangle ext r2 b2 rasterVertices verticesOut indices curVertexIdx
            swapVertices = some b2' ∧
          b2'.backBufferPixels = b'.backBufferPixels) := by
  refine ⟨scanTriangle ext r t b, RenderTriangle_draw ext r b _ _ _ _ _ t hres harea, ?_, ?_, ?_,
    ?_⟩
  · intro px py h1 h2 h3 h4
    exact (scanTriangle_boundingBox ext r t b hbb _).1 ⟨px, py, ⟨h1, h2, h3, h4⟩, rfl⟩
  · intro i hout
    exact (scanTriangle_boundingBox ext r t b hbb i).2
      (fun px py hbox => hout px py hbox.1 hbox.2.1 hbox.2.2.1 hbox.2.2.2)
  · intro i
    rw [scanTriangle_eq_scanList, scanList_boundingBox_depth ext r t hbb]
  · intro r2 b2 hW hH hbb2 hpix
    refine ⟨scanTriangle ext r2 t b2, RenderTriangle_draw ext r2 b2 _ _ _ _ _ t hres harea, ?_⟩
    funext i
    by_cases hcov : ∃ px py, InScanBox r t px py ∧ pixelIdx r px py = i
    · rw [(scanTriangle_boundingBox ext r t b hbb i).1 hcov]
      obtain ⟨px, py, hbox, hidx⟩ := hcov
      refine (scanTriangle_boundingBox ext r2 t b2 hbb2 i).1
        ⟨px, py, (inScanBox_congr r r2 t px py hW hH).2 hbox, ?_⟩
      rw [← hidx]
      unfold pixelIdx
      rw [hW]
    · have hout : ∀ px py, InScanBox r t px py → pixelIdx r px py ≠ i :=
        fun px py hbox heq => hcov ⟨px, py, hbox, heq⟩
      rw [(scanTriangle_boundingBox ext r t b hbb i).2 hout, ← hpix]
      refine (scanTriangle_boundingBox ext r2 t b2 hbb2 i).2 ?_
      intro px py hbox heq
      refine hout px py ((inScanBox_congr r r2 t px py hW hH).1 hbox) ?_
      rw [← heq]
      unfold pixelIdx
      rw [hW]

/-- C18, an instance: the demo triangle in bounding-box view; the pixel
`(5, 5)`, outside the triangle but inside its scan box, becomes white. -/
theorem C18_bounding_box_view_fills_scan_box_witness :
    (ToggleBoundingBoxVisible demoRenderer).m_ShowBoundingBox = true ∧
      resolveTriangle demoRaster demoVerticesOut [0, 1, 2] 0 false = .draw demoTriangle ∧
      FLT_EPSILON ≤ |demoTriangle.fullTriangleArea| ∧
      ∃ b', RenderTriangle demoExternals (ToggleBoundingBoxVisible demoRenderer) demoBuffers
          demoRaster demoVerticesOut [0, 1, 2] 0 false = some b' ∧
        b'.backBufferPixels (5 + 5 * 8) = demoExternals.mapRGB 255 255 255 := by
  refine ⟨rfl, demo_resolve, demo_area, ?_⟩
  obtain ⟨b', hrt, hfill, -⟩ :=
    C18_bounding_box_view_fills_scan_box demoExternals (ToggleBoundingBoxVisible demoRenderer)
      demoBuffers demoRaster demoVerticesOut [0, 1, 2] 0 false demoTriangle rfl demo_resolve
      demo_area
  refine ⟨b', hrt, ?_⟩
  have h6 : truncToInt (6 : ℚ) = 6 := by exact_mod_cast truncToInt_natCast 6
  have h0 : truncToInt (0 : ℚ) = 0 := by exact_mod_cast truncToInt_natCast 0
  refine hfill 5 5 ?_ ?_ ?_ ?_ <;>
    norm_num [Triangle.startX, Triangle.endX, Triangle.startY, Triangle.endY, demoTriangle,
      Vector2.Min, Vector2.Max, demoRenderer, ToggleBoundingBoxVisible, h6, h0]

/-- C20: `CalculateNDCToRaster` maps a position with `x = 0` and `y = 0` to
`(width / 2, height / 2)`, the NDC corner `(-1, 1)` to the raster point
`(0, 0)`, and every position with `x` and `y` in `[-1, 1]` into
`[0, width] x [0, height]`. -/
theorem C20_ndc_to_raster (r : SoftwareRenderer) :
    (∀ z w, CalculateNDCToRaster r ⟨0, 0, z, w⟩ = ⟨(r.m_Width : ℚ) / 2, (r.m_Height : ℚ) / 2⟩) ∧
      (∀ z w, CalculateNDCToRaster r ⟨-1, 1, z, w⟩ = ⟨0, 0⟩) ∧
      (∀ v : Vector4, -1 ≤ v.x → v.x ≤ 1 → -1 ≤ v.y → v.y ≤ 1 →
        0 ≤ (CalculateNDCToRaster r v).x ∧ (CalculateNDCToRaster r v).x ≤ r.m_Width ∧
          0 ≤ (CalculateNDCToRaster r v).y ∧ (CalculateNDCToRaster r v).y ≤ r.m_Height) := by
  refine ⟨?_, ?_, ?_⟩
  · intro z w
    unfold CalculateNDCToRaster
    simp only [Vector2.mk.injEq]
    constructor <;> ring
  · intro z w
    unfold CalculateNDCToRaster
    simp only [Vector2.mk.injEq]
    constructor <;> ring
  · intro v h1 h2 h3 h4
    unfold CalculateNDCToRaster
    have hW : (0 : ℚ) ≤ r.m_Width := Nat.cast_nonneg _
    have hH : (0 : ℚ) ≤ r.m_Height := Nat.cast_nonneg _
    simp only
    refine ⟨?_, ?_, ?_, ?_⟩
    · apply mul_nonneg _ hW
      linarith
    · have : (v.x + 1) / 2 ≤ 1 := by linarith
      calc (v.x + 1) / 2 * (r.m_Width : ℚ) ≤ 1 * r.m_Width :=
            mul_le_mul_of_nonneg_right this hW
        _ = r.m_Width := one_mul _
    · apply mul_nonneg _ hH
      linarith
    · have : (1 - v.y) / 2 ≤ 1 := by linarith
      calc (1 - v.y) / 2 * (r.m_Height : ℚ) ≤ 1 * r.m_Height :=
            mul_le_mul_of_nonneg_right this hH
        _ = r.m_Height := one_mul _

/-! ## Dispatch stage: accesses of the tasks to the shared buffers -/

theorem pixelAccesses_pixelIdx (r : SoftwareRenderer) (t : Triangle) (d : ℚ) (px py : Nat)
    (a : Access) (ha : a ∈ pixelAccesses r t d px py) : a.pixelIdx = pixelIdx r px py := by
  unfold pixelAccesses at ha
  simp only at ha
  split_ifs at ha
  · rw [List.mem_singleton] at ha
    subst ha
    rfl
  · exact absurd ha (List.not_mem_nil a)
  · rw [List.mem_singleton] at ha
    subst ha
    rfl
  · simp only [List.mem_cons, List.mem_singleton, List.not_mem_nil, or_false] at ha
    rcases ha with h | h | h <;> subst h <;> rfl

theorem pixelAccesses_passesCull (r : SoftwareRenderer) (t : Triangle) (d : ℚ) (px py : Nat)
    (a : Access) (ha : a ∈ pixelAccesses r t d px py) (hbb : r.m_ShowBoundingBox = false) :
    PassesCull r t px py := by
  unfold pixelAccesses at ha
  simp only [hbb, Bool.false_eq_true, if_false] at ha
  unfold PassesCull
  by_contra hcull
  rw [Bool.not_eq_false] at hcull
  rw [if_pos hcull] at ha
  exact absurd ha (List.not_mem_nil a)

/-- The stores among the accesses of the scan-loop body are the stores it
records in the buffers. -/
theorem pixelAccesses_stores (ext : Externals) (r : SoftwareRenderer) (t : Triangle) (d : ℚ)
    (px py : Nat) :
    ((pixelAccesses r t d px py).filter Access.isStore).map
        (fun a => (a.onDepthBuffer, a.pixelIdx)) =
      (pixelWrites ext r t d px py).map Write.target := by
  unfold pixelAccesses pixelWrites pixelIdx
  simp only
  split_ifs <;> rfl

theorem Access.conflicts_pixelIdx (a b : Access) (h : a.conflicts b = true) :
    a.pixelIdx = b.pixelIdx := by
  unfold Access.conflicts at h
  simp only [Bool.and_eq_true, beq_iff_eq] at h
  exact h.1.2

/-- C21, as stated, fails: on an index buffer of two triangles the Async branch
on two cores puts the triangles in two tasks and the Parallel branch in two
iterations; the two demo triangles, one behind the other, both reach the pixel
`(2, 2)`, where each task loads depth entry 18 whatever it holds and stores
into it when it holds the reset value. A load of one task and a store of the
other conflict, and nothing orders them. -/
theorem C21_overlapping_triangles_conflict :
    asyncListChunks 6 2 = [(1, [⟨0, false⟩]), (1, [⟨3, false⟩])] ∧
      dispatchCalls .TriangleList .Parallel 6 2 = some [⟨0, false⟩, ⟨3, false⟩] ∧
      resolveTriangle demoRaster2 demoVerticesOut2 [0, 1, 2, 3, 4, 5] 0 false =
        .draw demoTriangle ∧
      resolveTriangle demoRaster2 demoVerticesOut2 [0, 1, 2, 3, 4, 5] 3 false =
        .draw demoTriangleNear ∧
      FLT_EPSILON ≤ |demoTriangle.fullTriangleArea| ∧
      FLT_EPSILON ≤ |demoTriangleNear.fullTriangleArea| ∧
      InScanBox demoRenderer demoTriangle 2 2 ∧ InScanBox demoRenderer demoTriangleNear 2 2 ∧
      (∀ d, Access.depthRead 18 ∈ pixelAccesses demoRenderer demoTriangle d 2 2) ∧
      (∀ d, Access.depthRead 18 ∈ pixelAccesses demoRenderer demoTriangleNear d 2 2) ∧
      Access.depthWrite 18 ∈ pixelAccesses demoRenderer demoTriangle FLT_MAX 2 2 ∧
      Access.depthWrite 18 ∈ pixelAccesses demoRenderer demoTriangleNear FLT_MAX 2 2 ∧
      (∀ d, Conflicting (pixelAccesses demoRenderer demoTriangle FLT_MAX 2 2)
        (pixelAccesses demoRenderer demoTriangleNear d 2 2)) ∧
      (∀ d, Conflicting (pixelAccesses demoRenderer demoTriangle d 2 2)
        (pixelAccesses demoRenderer demoTriangleNear FLT_MAX 2 2)) := by
  have hfar : cullRejects demoRenderer.m_CullMode (demoTriangle.isFrontFaceHit 2 2)
      (demoTriangle.isBackFaceHit 2 2) = false := demo_passesCull
  have hnear : cullRejects demoRenderer.m_CullMode (demoTriangleNear.isFrontFaceHit 2 2)
      (demoTriangleNear.isBackFaceHit 2 2) = false := demoNear_passesCull
  have hbb : demoRenderer.m_ShowBoundingBox = false := rfl
  have hidx : 2 + 2 * demoRenderer.m_Width = 18 := rfl
  have hrf : ∀ d, Access.depthRead 18 ∈ pixelAccesses demoRenderer demoTriangle d 2 2 := by
    intro d
    unfold pixelAccesses
    simp only [hbb, hfar, hidx, Bool.false_eq_true, if_false]
    split_ifs <;> simp
  have hrn : ∀ d, Access.depthRead 18 ∈ pixelAccesses demoRenderer demoTriangleNear d 2 2 := by
    intro d
    unfold pixelAccesses
    simp only [hbb, hnear, hidx, Bool.false_eq_true, if_false]
    split_ifs <;> simp
  have hwf : Access.depthWrite 18 ∈ pixelAccesses demoRenderer demoTriangle FLT_MAX 2 2 := by
    unfold pixelAccesses
    simp only [hbb, hfar, hidx, Bool.false_eq_true, if_false, demo_depth]
    rw [if_neg (not_lt.2 half_le_FLT_MAX)]
    simp
  have hwn : Access.depthWrite 18 ∈ pixelAccesses demoRenderer demoTriangleNear FLT_MAX 2 2 := by
    unfold pixelAccesses
    simp only [hbb, hnear, hidx, Bool.false_eq_true, if_false, demoNear_depth]
    rw [if_neg (not_lt.2 quarter_le_FLT_MAX)]
    simp
  have hnarea : FLT_EPSILON ≤ |demoTriangleNear.fullTriangleArea| := demoNear_area
  have hnbox : InScanBox demoRenderer demoTriangleNear 2 2 :=
    inScanBox_of_passesCull demoRenderer demoTriangleNear 2 2 hnarea (by decide) (by decide)
      demoNear_passesCull
  refine ⟨by decide, by decide, demo2_resolve_far, demo2_resolve_near, demo_area, hnarea,
    demo_inScanBox, hnbox, hrf, hrn, hwf, hwn, ?_, ?_⟩
  · intro d
    exact ⟨_, hwf, _, hrn d, rfl⟩
  · intro d
    exact ⟨_, hrf d, _, hwn, rfl⟩

/-- C21, amended: an access of one `RenderTriangle` call conflicts with an
access of another only at a pixel that the scan loops of both calls visit and
that, with the bounding-box view off, passes the cull test of both triangles.
Calls whose triangles share no such pixel make no conflicting access, whatever
the depths they load. -/
theorem C21_conflicts_only_on_common_pixels (r : SoftwareRenderer) (t1 t2 : Triangle)
    (d1 d2 : ℚ) (px1 py1 px2 py2 : Nat) (a1 a2 : Access)
    (h1 : InScanBox r t1 px1 py1) (h2 : InScanBox r t2 px2 py2)
    (ha1 : a1 ∈ pixelAccesses r t1 d1 px1 py1) (ha2 : a2 ∈ pixelAccesses r t2 d2 px2 py2)
    (hc : a1.conflicts a2 = true) :
    px1 = px2 ∧ py1 = py2 ∧ InScanBox r t1 px1 py1 ∧ InScanBox r t2 px1 py1 ∧
      (r.m_ShowBoundingBox = false → PassesCull r t1 px1 py1 ∧ PassesCull r t2 px1 py1) := by
  have hidx : pixelIdx r px1 py1 = pixelIdx r px2 py2 := by
    rw [← pixelAccesses_pixelIdx r t1 d1 px1 py1 a1 ha1,
      ← pixelAccesses_pixelIdx r t2 d2 px2 py2 a2 ha2]
    exact Access.conflicts_pixelIdx a1 a2 hc
  have hw1 : px1 < r.m_Width := lt_of_lt_of_le h1.2.1 (endX_le_width r t1)
  have hw2 : px2 < r.m_Width := lt_of_lt_of_le h2.2.1 (endX_le_width r t2)
  obtain ⟨hx, hy⟩ := pixelIdx_inj r px1 py1 px2 py2 hw1 hw2 hidx
  subst hx
  subst hy
  exact ⟨rfl, rfl, h1, h2, fun hbb =>
    ⟨pixelAccesses_passesCull r t1 d1 px1 py1 a1 ha1 hbb,
      pixelAccesses_passesCull r t2 d2 px1 py1 a2 ha2 hbb⟩⟩

/-- C21, an instance of the amended statement: the conflicting load and store
of the two demo triangles are at their common pixel `(2, 2)`. -/
theorem C21_conflicts_only_on_common_pixels_witness :
    InScanBox demoRenderer demoTriangle 2 2 ∧ InScanBox demoRenderer demoTriangleNear 2 2 ∧
      Access.depthWrite 18 ∈ pixelAccesses demoRenderer demoTriangle (1 / 2) 2 2 ∧
      Access.depthRead 18 ∈ pixelAccesses demoRenderer demoTriangleNear (1 / 2) 2 2 ∧
      (Access.depthWrite 18).conflicts (Access.depthRead 18) = true ∧
      PassesCull demoRenderer demoTriangle 2 2 ∧ PassesCull demoRenderer demoTriangleNear 2 2 := by
  have hfar : cullRejects demoRenderer.m_CullMode (demoTriangle.isFrontFaceHit 2 2)
      (demoTriangle.isBackFaceHit 2 2) = false := demo_passesCull
  have hnear : cullRejects demoRenderer.m_CullMode (demoTriangleNear.isFrontFaceHit 2 2)
      (demoTriangleNear.isBackFaceHit 2 2) = false := demoNear_passesCull
  have hbb : demoRenderer.m_ShowBoundingBox = false := rfl
  have hidx : 2 + 2 * demoRenderer.m_Width = 18 := rfl
  have hnbox : InScanBox demoRenderer demoTriangleNear 2 2 :=
    inScanBox_of_passesCull demoRenderer demoTriangleNear 2 2 demoNear_area (by decide)
      (by decide) demoNear_passesCull
  have hw : Access.depthWrite 18 ∈ pixelAccesses demoRenderer demoTriangle (1 / 2) 2 2 := by
    unfold pixelAccesses
    simp only [hbb, hfar, hidx, Bool.false_eq_true, if_false, demo_depth, lt_irrefl]
    simp
  have hr : Access.depthRead 18 ∈ pixelAccesses demoRenderer demoTriangleNear (1 / 2) 2 2 := by
    unfold pixelAccesses
    simp only [hbb, hnear, hidx, Bool.false_eq_true, if_false]
    split_ifs <;> simp
  have h := C21_conflicts_only_on_common_pixels demoRenderer demoTriangle demoTriangleNear
    (1 / 2) (1 / 2) 2 2 2 2 _ _ demo_inScanBox hnbox hw hr rfl
  exact ⟨demo_inScanBox, hnbox, hw, hr, rfl, (h.2.2.2.2 rfl).1, (h.2.2.2.2 rfl).2⟩

/-! ## Rasterization stage: the two classifications of a pixel -/

theorem isFrontFaceHit_iff (t : Triangle) (px py : Nat) :
    t.isFrontFaceHit px py = true ↔
      0 ≤ t.edge01PointCross px py ∧ 0 ≤ t.edge12PointCross px py ∧
        0 ≤ t.edge20PointCross px py := by
  unfold Triangle.isFrontFaceHit
  simp only [ge_iff_le, Bool.and_eq_true, decide_eq_true_eq, and_assoc]

theorem isBackFaceHit_iff (t : Triangle) (px py : Nat) :
    t.isBackFaceHit px py = true ↔
      t.edge01PointCross px py ≤ 0 ∧ t.edge12PointCross px py ≤ 0 ∧
        t.edge20PointCross px py ≤ 0 := by
  unfold Triangle.isBackFaceHit
  simp only [Bool.and_eq_true, decide_eq_true_eq, and_assoc]

/-- C22, as stated, fails: the pixel `(2, 1)` lies on the edge from `(1, 1)` to
`(5, 1)` of the demo triangle (its first edge value is 0, the others are 12 and
4); it is a front-face hit and not a back-face hit. -/
theorem C22_edge_pixel_is_front_only :
    FLT_EPSILON ≤ |demoTriangle.fullTriangleArea| ∧
      demoTriangle.edge01PointCross 2 1 = 0 ∧ demoTriangle.edge12PointCross 2 1 = 12 ∧
      demoTriangle.edge20PointCross 2 1 = 4 ∧
      demoTriangle.isFrontFaceHit 2 1 = true ∧ demoTriangle.isBackFaceHit 2 1 = false := by
  have h01 : demoTriangle.edge01PointCross 2 1 = 0 := by
    norm_num [Triangle.edge01PointCross, demoTriangle, Vector2.Cross, Vector2.sub_def, curPixel]
  have h12 : demoTriangle.edge12PointCross 2 1 = 12 := by
    norm_num [Triangle.edge12PointCross, demoTriangle, Vector2.Cross, Vector2.sub_def, curPixel]
  have h20 : demoTriangle.edge20PointCross 2 1 = 4 := by
    norm_num [Triangle.edge20PointCross, demoTriangle, Vector2.Cross, Vector2.sub_def, curPixel]
  refine ⟨demo_area, h01, h12, h20, ?_, ?_⟩
  · rw [isFrontFaceHit_iff, h01, h12, h20]
    norm_num
  · rw [← Bool.not_eq_true, isBackFaceHit_iff, h01, h12, h20]
    norm_num

/-! ## Rasterization stage: the scan box -/

theorem inScanBox_bounds (r : SoftwareRenderer) (t : Triangle) (px py : Nat)
    (h : InScanBox r t px py) :
    px < r.m_Width ∧ py < r.m_Height ∧ px + py * r.m_Width < r.m_Width * r.m_Height := by
  have hx : px < r.m_Width := lt_of_lt_of_le h.2.1 (endX_le_width r t)
  have hy : py < r.m_Height := lt_of_lt_of_le h.2.2.2 (endY_le_height r t)
  refine ⟨hx, hy, ?_⟩
  calc px + py * r.m_Width < r.m_Width + py * r.m_Width := Nat.add_lt_add_right hx _
    _ = (py + 1) * r.m_Width := by ring
    _ ≤ r.m_Height * r.m_Width := Nat.mul_le_mul_right _ hy
    _ = r.m_Width * r.m_Height := Nat.mul_comm _ _

theorem pixelWrites_pixelIdx_eq (ext : Externals) (r : SoftwareRenderer) (t : Triangle) (d : ℚ)
    (px py : Nat) (w : Write) (hw : w ∈ pixelWrites ext r t d px py) :
    w.pixelIdx = pixelIdx r px py := by
  unfold pixelWrites at hw
  split_ifs at hw
  · rw [List.mem_singleton] at hw
    subst hw
    rfl
  · exact absurd hw (List.not_mem_nil w)
  · exact absurd hw (List.not_mem_nil w)
  · simp only [List.mem_cons, List.mem_singleton, List.not_mem_nil, or_false] at hw
    rcases hw with h | h <;> subst h <;> rfl

/-- The stores of one `RenderTriangle`, whatever its outcome, go to pixels of
the scan box. -/
theorem RenderTriangle_writes (ext : Externals) (r : SoftwareRenderer) (b b' : Buffers)
    (rv : List Vector2) (vo : List Vertex_Out) (indices : List Nat) (cur : Nat) (swap : Bool)
    (h : RenderTriangle ext r b rv vo indices cur swap = some b') :
    b' = b ∨ ∃ t, resolveTriangle rv vo indices cur swap = .draw t ∧
      FLT_EPSILON ≤ |t.fullTriangleArea| ∧ b' = scanTriangle ext r t b := by
  rw [RenderTriangle_eq_resolve] at h
  cases hres : resolveTriangle rv vo indices cur swap with
  | fault => rw [hres] at h; exact absurd h (by simp)
  | skip =>
    rw [hres] at h
    left
    exact (Option.some.inj h).symm
  | draw t =>
    rw [hres] at h
    have hb : b' = rasterize ext r t b := (Option.some.inj h).symm
    unfold rasterize at hb
    by_cases hsmall : |t.fullTriangleArea| < FLT_EPSILON
    · rw [if_pos hsmall] at hb
      exact Or.inl hb
    · rw [if_neg hsmall] at hb
      exact Or.inr ⟨t, rfl, not_lt.1 hsmall, hb⟩

/-- C23: every pixel the scan loops of `RenderTriangle` visit has `px < width`
and `py < height`; every load and store of the loop body at such a pixel uses
the index `px + py * width`, which is below `width * height`. So every store a
`RenderTriangle` call makes goes to an index inside the buffers, and the
entries past `width * height` are left alone, for every triangle and every
size of the buffers. -/
theorem C23_scan_accesses_in_range (ext : Externals) (r : SoftwareRenderer) (b b' : Buffers)
    (rasterVertices : List Vector2) (verticesOut : List Vertex_Out) (indices : List Nat)
    (curVertexIdx : Nat) (swapVertices : Bool)
    (h : RenderTriangle ext r b rasterVertices verticesOut indices curVertexIdx swapVertices =
      some b') :
    (∀ (t : Triangle) (px py : Nat), t.startX ≤ px → px < t.endX r → t.startY ≤ py →
        py < t.endY r →
        px < r.m_Width ∧ py < r.m_Height ∧ px + py * r.m_Width < r.m_Width * r.m_Height) ∧
      (∀ (t : Triangle) (d : ℚ) (px py : Nat), ∀ a ∈ pixelAccesses r t d px py,
        a.pixelIdx = px + py * r.m_Width) ∧
      (∃ added, b'.writes = b.writes ++ added ∧
        ∀ w ∈ added, ∃ px py, px < r.m_Width ∧ py < r.m_Height ∧
          w.pixelIdx = px + py * r.m_Width ∧ w.pixelIdx < r.m_Width * r.m_Height) ∧
      (∀ i, r.m_Width * r.m_Height ≤ i →
        b'.depthBufferPixels i = b.depthBufferPixels i ∧
          b'.backBufferPixels i = b.backBufferPixels i) := by
  refine ⟨fun t px py h1 h2 h3 h4 => inScanBox_bounds r t px py ⟨h1, h2, h3, h4⟩,
    fun t d px py a ha => pixelAccesses_pixelIdx r t d px py a ha, ?_, ?_⟩
  · rcases RenderTriangle_writes ext r b b' _ _ _ _ _ h with hb | ⟨t, -, -, hb⟩
    · exact ⟨[], by rw [hb, List.append_nil], fun w hw => absurd hw (List.not_mem_nil w)⟩
    · obtain ⟨added, hadd, hmem⟩ := scanTriangle_writes ext r t b
      refine ⟨added, by rw [hb, hadd], ?_⟩
      intro w hw
      obtain ⟨px, py, hbox, hpw⟩ := (hmem w).1 hw
      have hidx := pixelWrites_pixelIdx_eq ext r t _ px py w hpw
      have hbd := inScanBox_bounds r t px py hbox
      refine ⟨px, py, hbd.1, hbd.2.1, hidx, ?_⟩
      rw [hidx]
      exact hbd.2.2
  · intro i hi
    rcases RenderTriangle_writes ext r b b' _ _ _ _ _ h with hb | ⟨t, -, -, hb⟩
    · rw [hb]
      exact ⟨rfl, rfl⟩
    · rw [hb]
      have hout : ∀ px py, InScanBox r t px py → pixelIdx r px py ≠ i := by
        intro px py hbox heq
        have := (inScanBox_bounds r t px py hbox).2.2
        unfold pixelIdx at heq
        omega
      exact scanTriangle_other ext r t b i hout

/-- C23, an instance: the demo triangle drawn on the freshly reset 8 x 8
buffers; its stores go to indices below 64. -/
theorem C23_scan_accesses_in_range_witness :
    RenderTriangle demoExternals demoRenderer demoBuffers demoRaster demoVerticesOut [0, 1, 2] 0
        false = some (scanTriangle demoExternals demoRenderer demoTriangle demoBuffers) ∧
      ∃ added, (scanTriangle demoExternals demoRenderer demoTriangle demoBuffers).writes =
          demoBuffers.writes ++ added ∧
        ∀ w ∈ added, w.pixelIdx < 8 * 8 := by
  have h := RenderTriangle_draw demoExternals demoRenderer demoBuffers demoRaster
    demoVerticesOut [0, 1, 2] 0 false demoTriangle demo_resolve demo_area
  obtain ⟨added, hadd, hmem⟩ :=
    (C23_scan_accesses_in_range demoExternals demoRenderer demoBuffers _ demoRaster
      demoVerticesOut [0, 1, 2] 0 false h).2.2.1
  refine ⟨h, added, hadd, ?_⟩
  intro w hw
  obtain ⟨px, py, -, -, -, hlt⟩ := hmem w hw
  exact hlt

/-- C24: for a triangle that passes the area test, every pixel of the buffer
whose three edge values are all `>= 0` or all `<= 0` lies in the scan box:
`startX <= px < endX` and `startY <= py < endY`. The truncation of the box
corners loses no covered pixel. -/
theorem C24_scan_box_misses_no_covered_pixel (r : SoftwareRenderer) (t : Triangle)
    (px py : Nat) (harea : FLT_EPSILON ≤ |t.fullTriangleArea|) (hpx : px < r.m_Width)
    (hpy : py < r.m_Height)
    (hcov : (0 ≤ t.edge01PointCross px py ∧ 0 ≤ t.edge12PointCross px py ∧
        0 ≤ t.edge20PointCross px py) ∨
      (t.edge01PointCross px py ≤ 0 ∧ t.edge12PointCross px py ≤ 0 ∧
        t.edge20PointCross px py ≤ 0)) :
    t.startX ≤ px ∧ px < t.endX r ∧ t.startY ≤ py ∧ py < t.endY r := by
  have hhit : t.isFrontFaceHit px py = true ∨ t.isBackFaceHit px py = true := by
    rcases hcov with h | h
    · exact Or.inl ((isFrontFaceHit_iff t px py).2 h)
    · exact Or.inr ((isBackFaceHit_iff t px py).2 h)
  have hcull : PassesCull { r with m_CullMode := CullMode.None } t px py := by
    unfold PassesCull cullRejects
    rcases hhit with h | h <;> simp [h]
  exact inScanBox_of_passesCull { r with m_CullMode := CullMode.None } t px py harea hpx hpy
    hcull

/-- C24, an instance: the pixel `(2, 1)` on an edge of the demo triangle, whose
box corners `(1, 1) - 1` and `(5, 5) + 1` are truncated to `0` and `6`. -/
theorem C24_scan_box_misses_no_covered_pixel_witness :
    FLT_EPSILON ≤ |demoTriangle.fullTriangleArea| ∧
      demoTriangle.startX ≤ 2 ∧ 2 < demoTriangle.endX demoRenderer ∧
      demoTriangle.startY ≤ 1 ∧ 1 < demoTriangle.endY demoRenderer := by
  have h01 : demoTriangle.edge01PointCross 2 1 = 0 := by
    norm_num [Triangle.edge01PointCross, demoTriangle, Vector2.Cross, Vector2.sub_def, curPixel]
  have h12 : demoTriangle.edge12PointCross 2 1 = 12 := by
    norm_num [Triangle.edge12PointCross, demoTriangle, Vector2.Cross, Vector2.sub_def, curPixel]
  have h20 : demoTriangle.edge20PointCross 2 1 = 4 := by
    norm_num [Triangle.edge20PointCross, demoTriangle, Vector2.Cross, Vector2.sub_def, curPixel]
  exact ⟨demo_area, C24_scan_box_misses_no_covered_pixel demoRenderer demoTriangle 2 1 demo_area
    (by decide) (by decide) (Or.inl (by rw [h01, h12, h20]; norm_num))⟩

/-! ## Rasterization stage: triangles that face the wrong way -/

/-- C28: for a call whose three indices are distinct and in range and whose
three vertices are inside the clip volume, `RenderTriangle` enters the scan
loops exactly when the absolute value of the signed area
`Cross(edge01, edge12)` is at least `FLT_EPSILON`, and then returns the buffers
the scan leaves; with a smaller area, zero or not, it returns before the scan
and both buffers are unchanged. -/
theorem C28_scan_reached_iff_area_at_least_epsilon (ext : Externals) (r : SoftwareRenderer)
    (b : Buffers) (rasterVertices : List Vector2) (verticesOut : List Vertex_Out)
    (indices : List Nat) (curVertexIdx : Nat) (swapVertices : Bool) (i0 i1 i2 : Nat)
    (o0 o1 o2 : Vertex_Out) (v0 v1 v2 : Vector2)
    (h0 : indices[curVertexIdx]? = some i0)
    (h1 : indices[curVertexIdx + 1 * (!swapVertices).toNat + 2 * swapVertices.toNat]? = some i1)
    (h2 : indices[curVertexIdx + 2 * (!swapVertices).toNat + 1 * swapVertices.toNat]? = some i2)
    (hdistinct : i0 ≠ i1 ∧ i1 ≠ i2 ∧ i0 ≠ i2)
    (ho0 : verticesOut[i0]? = some o0) (ho1 : verticesOut[i1]? = some o1)
    (ho2 : verticesOut[i2]? = some o2) (hv0 : rasterVertices[i0]? = some v0)
    (hv1 : rasterVertices[i1]? = some v1) (hv2 : rasterVertices[i2]? = some v2)
    (hin0 : ¬ OutsideClipVolume o0.position) (hin1 : ¬ OutsideClipVolume o1.position)
    (hin2 : ¬ OutsideClipVolume o2.position) :
    (reachesScanLoop rasterVertices verticesOut indices curVertexIdx swapVertices = true ↔
        FLT_EPSILON ≤ |Vector2.Cross (v1 - v0) (v2 - v1)|) ∧
      (FLT_EPSILON ≤ |Vector2.Cross (v1 - v0) (v2 - v1)| →
        RenderTriangle ext r b rasterVertices verticesOut indices curVertexIdx swapVertices =
          some (scanTriangle ext r ⟨v0, v1, v2, o0, o1, o2⟩ b)) ∧
      (|Vector2.Cross (v1 - v0) (v2 - v1)| < FLT_EPSILON →
        reachesScanLoop rasterVertices verticesOut indices curVertexIdx swapVertices = false ∧
          RenderTriangle ext r b rasterVertices verticesOut indices curVertexIdx swapVertices =
            some b) := by
  have hf : ∀ v : Vector4, ¬ OutsideClipVolume v → IsOutsideFrustum v = false := by
    intro v hv
    rw [← Bool.not_eq_true, IsOutsideFrustum_iff]
    exact hv
  have hres : resolveTriangle rasterVertices verticesOut indices curVertexIdx swapVertices =
      .draw ⟨v0, v1, v2, o0, o1, o2⟩ := by
    rw [resolveTriangle_draw_iff]
    refine ⟨i0, i1, i2, h0, h1, h2, ?_, ho0, ho1, ho2, hf _ hin0, hf _ hin1, hf _ hin2, hv0,
      hv1, hv2⟩
    rintro (h | h | h)
    · exact hdistinct.1 h
    · exact hdistinct.2.1 h
    · exact hdistinct.2.2 h
  have harea : Triangle.fullTriangleArea ⟨v0, v1, v2, o0, o1, o2⟩ =
      Vector2.Cross (v1 - v0) (v2 - v1) := rfl
  have hreach : reachesScanLoop rasterVertices verticesOut indices curVertexIdx swapVertices =
      !decide (|Vector2.Cross (v1 - v0) (v2 - v1)| < FLT_EPSILON) := by
    unfold reachesScanLoop
    rw [hres]
    rfl
  refine ⟨?_, ?_, ?_⟩
  · rw [hreach]
    simp only [Bool.not_eq_true', decide_eq_false_iff_not, not_lt]
  · intro hbig
    exact RenderTriangle_draw ext r b _ _ _ _ _ _ hres (by rw [harea]; exact hbig)
  · intro hsmall
    refine ⟨?_, ?_⟩
    · rw [hreach]
      simp only [Bool.not_eq_false', decide_eq_true_eq]
      exact hsmall
    · rw [RenderTriangle_eq_resolve, hres]
      simp only
      unfold rasterize
      rw [harea, if_pos hsmall]

/-- C28, an instance: over the demo vertices, raster coordinates that span the
area `2^-24`: not zero, below `FLT_EPSILON`; the triangle is skipped. -/
theorem C28_scan_reached_iff_area_at_least_epsilon_witness :
    Vector2.Cross ((⟨1 + 1 / 4096, 1⟩ : Vector2) - ⟨1, 1⟩) (⟨1, 1 + 1 / 4096⟩ - ⟨1 + 1 / 4096, 1⟩) =
        1 / 16777216 ∧
      reachesScanLoop demoTinyRaster demoVerticesOut [0, 1, 2] 0 false = false ∧
      RenderTriangle demoExternals demoRenderer demoBuffers demoTinyRaster demoVerticesOut
        [0, 1, 2] 0 false = some demoBuffers := by
  have hin : ∀ x y : ℚ, -1 ≤ x → x ≤ 1 → -1 ≤ y → y ≤ 1 →
      ¬ OutsideClipVolume (demoVertex x y (1 / 2)).position := by
    intro x y hx1 hx2 hy1 hy2 h
    unfold OutsideClipVolume demoVertex at h
    simp only at h
    rcases h with h | h | h | h | h | h <;> norm_num at h <;> linarith
  have harea : Vector2.Cross ((⟨1 + 1 / 4096, 1⟩ : Vector2) - ⟨1, 1⟩)
      (⟨1, 1 + 1 / 4096⟩ - ⟨1 + 1 / 4096, 1⟩) = 1 / 16777216 := by
    norm_num [Vector2.Cross, Vector2.sub_def]
  have h := (C28_scan_reached_iff_area_at_least_epsilon demoExternals demoRenderer demoBuffers
    demoTinyRaster demoVerticesOut [0, 1, 2] 0 false 0 1 2 (demoVertex (-3 / 4) (3 / 4) (1 / 2))
    (demoVertex (1 / 4) (3 / 4) (1 / 2)) (demoVertex (-3 / 4) (-1 / 4) (1 / 2)) ⟨1, 1⟩
    ⟨1 + 1 / 4096, 1⟩ ⟨1, 1 + 1 / 4096⟩ rfl rfl rfl (by decide) rfl rfl rfl rfl rfl rfl
    (hin _ _ (by norm_num) (by norm_num) (by norm_num) (by norm_num))
    (hin _ _ (by norm_num) (by norm_num) (by norm_num) (by norm_num))
    (hin _ _ (by norm_num) (by norm_num) (by norm_num) (by norm_num))).2.2
    (by rw [harea, abs_of_pos (by norm_num)]; norm_num [FLT_EPSILON])
  exact ⟨harea, h.1, h.2⟩

/-! ## Thread mode: the invariant of the renderer -/

theorem applyThreadModeChange_fields (r : SoftwareRenderer) :
    (applyThreadModeChange r).m_ThreadModeChange = false ∧
      (applyThreadModeChange r).m_NextMode = r.m_NextMode ∧
      (applyThreadModeChange r).m_ThreadMode =
        (if r.m_ThreadModeChange then r.m_NextMode else r.m_ThreadMode) := by
  unfold applyThreadModeChange
  split_ifs with h
  · exact ⟨rfl, rfl, rfl⟩
  · exact ⟨Bool.not_eq_true _ ▸ h, rfl, rfl⟩

/-- The invariant holds in every state the public methods make. -/
theorem reachable_invariant (ext : Externals) (r : SoftwareRenderer) (h : Reachable ext r) :
    r.m_ThreadModeChange = false → r.m_ThreadMode = r.m_NextMode := by
  induction h with
  | construct width height => intro _; rfl
  | toggleMultiThreading _ _ => intro hc; exact absurd hc (by simp [ToggleMultiThreading])
  | @render r0 r1 b0 b1 nrCores u _ hr ih =>
    intro _
    rw [Render_renderer ext nrCores u r0 r1 b0 b1 hr]
    obtain ⟨-, hn, hm⟩ := applyThreadModeChange_fields r0
    rw [hm, hn]
    cases hc : r0.m_ThreadModeChange
    · simp only [Bool.false_eq_true, if_false]
      exact ih hc
    · simp only [if_true]
  | setMesh _ _ ih => exact ih
  | setCulling _ _ ih => exact ih
  | toggleDepthBuffer _ ih => exact ih
  | toggleBoundingBoxVisible _ ih => exact ih
  | toggleLightingMode _ ih => exact ih
  | toggleNormalMap _ ih => exact ih

/-- C29: in every state of the renderer that the constructor, the toggles and
setters and the completed `Render` calls lead to, `m_ThreadModeChange == false`
implies `m_ThreadMode == m_NextMode`. After a `Render` from such a state the
active mode is the requested one, the requested one is unchanged, and no change
is pending. -/
theorem C29_no_pending_change_means_modes_agree (ext : Externals) (r : SoftwareRenderer)
    (h : Reachable ext r) :
    (r.m_ThreadModeChange = false → r.m_ThreadMode = r.m_NextMode) ∧
      (∀ nrCores useUniformBackground b r' b',
        Render ext nrCores useUniformBackground r b = some (r', b') →
        r'.m_ThreadMode = r.m_NextMode ∧ r'.m_NextMode = r.m_NextMode ∧
          r'.m_ThreadMode = r'.m_NextMode ∧ r'.m_ThreadModeChange = false) := by
  have hinv := reachable_invariant ext r h
  refine ⟨hinv, ?_⟩
  intro nrCores u b r' b' hr
  rw [Render_renderer ext nrCores u r r' b b' hr]
  obtain ⟨hc, hn, hm⟩ := applyThreadModeChange_fields r
  have hmode : (applyThreadModeChange r).m_ThreadMode = r.m_NextMode := by
    rw [hm]
    cases hchange : r.m_ThreadModeChange
    · simp only [Bool.false_eq_true, if_false]
      exact hinv hchange
    · simp only [if_true]
  exact ⟨hmode, hn, by rw [hmode, hn], hc⟩

/-- C29, an instance: a constructed renderer, two toggles, a frame: the active
mode is Parallel and no change is pending. -/
theorem C29_no_pending_change_means_modes_agree_witness :
    Reachable demoExternals
        (ToggleMultiThreading (ToggleMultiThreading (SoftwareRenderer.construct 8 8))) ∧
      ∃ r' b', Render demoExternals 4 true
          (ToggleMultiThreading (ToggleMultiThreading (SoftwareRenderer.construct 8 8)))
          demoBuffers = some (r', b') ∧
        r'.m_ThreadMode = .Parallel ∧ r'.m_NextMode = .Parallel ∧
        r'.m_ThreadModeChange = false := by
  have hreach : Reachable demoExternals
      (ToggleMultiThreading (ToggleMultiThreading (SoftwareRenderer.construct 8 8))) :=
    Reachable.toggleMultiThreading (Reachable.toggleMultiThreading (Reachable.construct 8 8))
  have hr : Render demoExternals 4 true
      (ToggleMultiThreading (ToggleMultiThreading (SoftwareRenderer.construct 8 8)))
      demoBuffers =
      some (applyThreadModeChange
          (ToggleMultiThreading (ToggleMultiThreading (SoftwareRenderer.construct 8 8))),
        beginFrame demoExternals true demoBuffers) := rfl
  have h := (C29_no_pending_change_means_modes_agree demoExternals _ hreach).2 4 true demoBuffers
    _ _ hr
  refine ⟨hreach, _, _, hr, ?_, ?_, h.2.2.2⟩
  · rw [h.1]
    rfl
  · rw [h.2.1]
    rfl

/-! ## Texture sampling -/

theorem truncToInt_two : truncToInt (2 : ℚ) = 2 := by
  exact_mod_cast truncToInt_natCast 2

theorem truncToInt_zero : truncToInt (0 : ℚ) = 0 := by
  exact_mod_cast truncToInt_natCast 0

theorem Texture.sampleX_nonneg (tex : Texture) (uv : Vector2) : 0 ≤ tex.sampleX uv := by
  unfold Texture.sampleX
  have hc : (0 : ℚ) ≤ (if uv.x < 0 then 0 else if 1 < uv.x then 1 else uv.x) := by
    split_ifs with h1 h2
    · exact le_refl _
    · exact zero_le_one
    · exact not_lt.1 h1
  have hq : (0 : ℚ) ≤ (if uv.x < 0 then 0 else if 1 < uv.x then 1 else uv.x) * tex.w :=
    mul_nonneg hc (Nat.cast_nonneg _)
  rw [truncToInt_of_nonneg _ hq]
  exact Int.floor_nonneg.2 hq

theorem Texture.sampleY_top (tex : Texture) (uv : Vector2) (h : 1 ≤ uv.y) :
    tex.sampleY uv = tex.h := by
  unfold Texture.sampleY
  have hc : (if uv.y < 0 then 0 else if 1 < uv.y then 1 else uv.y) = (1 : ℚ) := by
    split_ifs with h1 h2
    · linarith
    · rfl
    · exact le_antisymm (not_lt.1 h2) h
  rw [hc, one_mul]
  exact truncToInt_natCast tex.h

/-- C30: `Texture::Sample` clamps `uv` to `[0, 1]` and multiplies by the size,
so a component equal to 1 (or above) gives `x = w` or `y = h`. On the 2 x 2
demo texture the uv `(0, 1)` reads index 4 and `(1, 1)` index 6, past the four
pixels, and `(1, 0)` reads index 2, the first texel of the next row. For every
texture a `uv.y >= 1` reads at or past `w * h`. A read that stays inside the
pixels returns channels in `[0, 1]`. -/
theorem C30_sample_reads_past_the_texture :
    demoTexture.m_pSurfacePixels.length = demoTexture.w * demoTexture.h ∧
      demoTexture.sampleY ⟨0, 1⟩ = 2 ∧ demoTexture.sampleIndex ⟨0, 1⟩ = 4 ∧
      demoTexture.Sample ⟨0, 1⟩ = none ∧
      demoTexture.sampleIndex ⟨1, 1⟩ = 6 ∧ demoTexture.Sample ⟨1, 1⟩ = none ∧
      demoTexture.sampleX ⟨1, 0⟩ = 2 ∧ demoTexture.sampleIndex ⟨1, 0⟩ = 2 ∧
      demoTexture.Sample ⟨1, 0⟩ = some ⟨0, 0, 1⟩ ∧
      (∀ (tex : Texture) (uv : Vector2), 1 ≤ uv.y →
        ((tex.w * tex.h : Nat) : Int) ≤ tex.sampleIndex uv) ∧
      (∀ (tex : Texture) (uv : Vector2), tex.m_pSurfacePixels.length = tex.w * tex.h →
        1 ≤ uv.y → tex.Sample uv = none) ∧
      (∀ (tex : Texture) (uv : Vector2) (c : ColorRGB), tex.Sample uv = some c →
        0 ≤ c.r ∧ c.r ≤ 1 ∧ 0 ≤ c.g ∧ c.g ≤ 1 ∧ 0 ≤ c.b ∧ c.b ≤ 1) := by
  have hx0 : ∀ y : ℚ, demoTexture.sampleX ⟨0, y⟩ = 0 := by
    intro y
    simp only [Texture.sampleX, lt_irrefl, if_false, show ¬ ((1 : ℚ) < 0) by norm_num, zero_mul,
      truncToInt_zero]
  have hx1 : ∀ y : ℚ, demoTexture.sampleX ⟨1, y⟩ = 2 := by
    intro y
    simp only [Texture.sampleX, lt_irrefl, if_false, show ¬ ((1 : ℚ) < 0) by norm_num, one_mul,
      demoTexture, Nat.cast_ofNat, truncToInt_two]
  have hy0 : ∀ x : ℚ, demoTexture.sampleY ⟨x, 0⟩ = 0 := by
    intro x
    simp only [Texture.sampleY, lt_irrefl, if_false, show ¬ ((1 : ℚ) < 0) by norm_num, zero_mul,
      truncToInt_zero]
  have hy1 : ∀ x : ℚ, demoTexture.sampleY ⟨x, 1⟩ = 2 := by
    intro x
    simp only [Texture.sampleY, lt_irrefl, if_false, show ¬ ((1 : ℚ) < 0) by norm_num, one_mul,
      demoTexture, Nat.cast_ofNat, truncToInt_two]
  have hw : (demoTexture.w : Int) = 2 := rfl
  have hi01 : demoTexture.sampleIndex ⟨0, 1⟩ = 4 := by
    unfold Texture.sampleIndex
    rw [hx0, hy1, hw]
    rfl
  have hi11 : demoTexture.sampleIndex ⟨1, 1⟩ = 6 := by
    unfold Texture.sampleIndex
    rw [hx1, hy1, hw]
    rfl
  have hi10 : demoTexture.sampleIndex ⟨1, 0⟩ = 2 := by
    unfold Texture.sampleIndex
    rw [hx1, hy0, hw]
    rfl
  have hgen : ∀ (tex : Texture) (uv : Vector2), 1 ≤ uv.y →
      ((tex.w * tex.h : Nat) : Int) ≤ tex.sampleIndex uv := by
    intro tex uv huv
    unfold Texture.sampleIndex
    rw [Texture.sampleY_top tex uv huv]
    have := Texture.sampleX_nonneg tex uv
    push_cast
    nlinarith
  refine ⟨rfl, hy1 0, hi01, ?_, hi11, ?_, hx1 0, hi10, ?_, hgen, ?_, ?_⟩
  · unfold Texture.Sample
    rw [hi01]
    rfl
  · unfold Texture.Sample
    rw [hi11]
    rfl
  · have hget : demoTexture.m_pSurfacePixels[(2 : Int).toNat]? = some 255 := rfl
    have hrgb : demoTexture.getRGB 255 = (0, 0, 255) := rfl
    unfold Texture.Sample
    rw [hi10]
    simp only [hget, hrgb, show ¬ ((2 : Int) < 0) by decide, if_false]
    norm_num
  · intro tex uv hlen huv
    have hge := hgen tex uv huv
    unfold Texture.Sample
    split_ifs with hneg
    · rfl
    · have hidx : tex.m_pSurfacePixels.length ≤ (tex.sampleIndex uv).toNat := by
        rw [hlen]
        omega
      rw [List.getElem?_eq_none hidx]
  · intro tex uv c hc
    unfold Texture.Sample at hc
    split_ifs at hc with hneg
    cases hp : tex.m_pSurfacePixels[(tex.sampleIndex uv).toNat]? with
    | none => rw [hp] at hc; cases hc
    | some pixel =>
      rw [hp] at hc
      simp only [Option.some.injEq] at hc
      subst hc
      have hch : ∀ n : Nat, (0 : ℚ) ≤ ((n % 256 : Nat) : ℚ) / 255 ∧
          ((n % 256 : Nat) : ℚ) / 255 ≤ 1 := by
        intro n
        have h1 : n % 256 ≤ 255 := by omega
        have h2 : ((n % 256 : Nat) : ℚ) ≤ 255 := by exact_mod_cast h1
        exact ⟨div_nonneg (Nat.cast_nonneg _) (by norm_num),
          (div_le_one (by norm_num)).2 h2⟩
      exact ⟨(hch _).1, (hch _).2, (hch _).1, (hch _).2, (hch _).1, (hch _).2⟩

/-! # The binary32 reading: evaluation lemmas -/

/-! ## Binary32: evaluating a rounding -/

theorem roundHalfEven_eq (x : ℚ) (m : ℤ) (h1 : (m : ℚ) - 1 / 2 < x) (h2 : x < m + 1 / 2) :
    roundHalfEven x = m := by
  unfold roundHalfEven
  by_cases hx : (m : ℚ) ≤ x
  · have hf : ⌊x⌋ = m := by
      rw [Int.floor_eq_iff]
      exact ⟨hx, by linarith⟩
    rw [hf, if_pos (by linarith)]
  · have hf : ⌊x⌋ = m - 1 := by
      rw [Int.floor_eq_iff]
      push_cast
      exact ⟨by linarith, by linarith [not_le.1 hx]⟩
    rw [hf]
    push_cast
    rw [if_neg (by linarith), if_pos (by linarith)]
    ring

theorem binade_eq (q : ℚ) (e : ℤ) (hlo : (2 : ℚ) ^ e ≤ |q|) (hhi : |q| < (2 : ℚ) ^ (e + 1))
    (he : -126 ≤ e) : binade q = e := by
  have hpos : (0 : ℚ) < |q| := lt_of_lt_of_le (zpow_pos (by norm_num) e) hlo
  have h1 : e ≤ Int.log 2 |q| := by
    rw [← Int.zpow_le_iff_le_log (by norm_num) hpos]
    exact_mod_cast hlo
  have h2 : Int.log 2 |q| < e + 1 := by
    rw [← Int.lt_zpow_iff_log_lt (by norm_num) hpos]
    exact_mod_cast hhi
  unfold binade
  rw [max_eq_left (by omega)]
  omega

/-- The rounding of a positive `q` in the binade of exponent `e`, away from a
tie: the value `m * 2^(e-23)` within half a unit in the last place. -/
theorem roundFloat_pos (q v : ℚ) (e m : ℤ) (hlo : (2 : ℚ) ^ e ≤ q) (hhi : q < (2 : ℚ) ^ (e + 1))
    (he : -126 ≤ e) (h1 : (m : ℚ) - 1 / 2 < q / 2 ^ (e - 23))
    (h2 : q / 2 ^ (e - 23) < m + 1 / 2) (hv : v = m * 2 ^ (e - 23)) : roundFloat q = v := by
  have hq : 0 < q := lt_of_lt_of_le (zpow_pos (by norm_num) e) hlo
  unfold roundFloat
  rw [binade_eq q e (by rw [abs_of_pos hq]; exact hlo) (by rw [abs_of_pos hq]; exact hhi) he,
    roundHalfEven_eq _ m h1 h2, hv]

/-- The rounding of a negative `q`. -/
theorem roundFloat_neg (q v : ℚ) (e m : ℤ) (hlo : (2 : ℚ) ^ e ≤ -q) (hhi : -q < (2 : ℚ) ^ (e + 1))
    (he : -126 ≤ e) (h1 : (m : ℚ) - 1 / 2 < q / 2 ^ (e - 23))
    (h2 : q / 2 ^ (e - 23) < m + 1 / 2) (hv : v = m * 2 ^ (e - 23)) : roundFloat q = v := by
  have hq : q < 0 := by
    have : 0 < -q := lt_of_lt_of_le (zpow_pos (by norm_num) e) hlo
    linarith
  unfold roundFloat
  rw [binade_eq q e (by rw [abs_of_neg hq]; exact hlo) (by rw [abs_of_neg hq]; exact hhi) he,
    roundHalfEven_eq _ m h1 h2, hv]

theorem roundFloat_zero (q : ℚ) (h : q = 0) : roundFloat q = 0 := by
  subst h
  unfold roundFloat roundHalfEven
  simp

theorem Binary32.ofRat_eq (q v : ℚ) (h : roundFloat q = v) (h1 : -FLT_MAX ≤ v)
    (h2 : v ≤ FLT_MAX) : Binary32.ofRat q = .finite v := by
  unfold Binary32.ofRat
  rw [h, if_neg (not_lt.2 h2), if_neg (not_lt.2 h1)]

theorem Binary32.add_finite (a b v : ℚ) (h : roundFloat (a + b) = v) (h1 : -FLT_MAX ≤ v)
    (h2 : v ≤ FLT_MAX) : Binary32.add (.finite a) (.finite b) = .finite v :=
  Binary32.ofRat_eq _ v h h1 h2

theorem Binary32.div_finite (a b v : ℚ) (hb : b ≠ 0) (h : roundFloat (a / b) = v)
    (h1 : -FLT_MAX ≤ v) (h2 : v ≤ FLT_MAX) :
    Binary32.div (.finite a) (.finite b) = .finite v := by
  simp only [Binary32.div, if_neg hb]
  exact Binary32.ofRat_eq _ v h h1 h2

theorem Binary32.div_zero_zero : Binary32.div (.finite 0) (.finite 0) = .nan := by
  simp only [Binary32.div, if_true]

theorem roundHalfEven_tie (x : ℚ) (k m : ℤ) (hx : x = k + 1 / 2)
    (hm : m = if k % 2 = 0 then k else k + 1) : roundHalfEven x = m := by
  have hf : ⌊x⌋ = k := by
    rw [Int.floor_eq_iff]
    exact ⟨by linarith, by linarith⟩
  unfold roundHalfEven
  rw [hf, if_neg (by linarith), if_neg (by linarith), hm]

/-- The rounding of a negative `q` halfway between two binary32 values. -/
theorem roundFloat_tie_neg (q v : ℚ) (e k m : ℤ) (hlo : (2 : ℚ) ^ e ≤ -q)
    (hhi : -q < (2 : ℚ) ^ (e + 1)) (he : -126 ≤ e) (hx : q / 2 ^ (e - 23) = k + 1 / 2)
    (hm : m = if k % 2 = 0 then k else k + 1) (hv : v = m * 2 ^ (e - 23)) : roundFloat q = v := by
  have hq : q < 0 := by
    have : 0 < -q := lt_of_lt_of_le (zpow_pos (by norm_num) e) hlo
    linarith
  unfold roundFloat
  rw [binade_eq q e (by rw [abs_of_neg hq]; exact hlo) (by rw [abs_of_neg hq]; exact hhi) he,
    roundHalfEven_tie _ k m hx hm, hv]

/-! ## The demo triangles in binary32 -/

theorem demoFar_edge01 :
    Vector2.sub32 demoTriangle.v1 demoTriangle.v0 = ⟨4, 0⟩ := by
  show (⟨roundFloat (5 - 1), roundFloat (1 - 1)⟩ : Vector2) = ⟨4, 0⟩
  have h1 : roundFloat (5 - 1) = 4 :=
    roundFloat_pos (5 - 1) 4 (2) (8388608) (by norm_num) (by norm_num) (by norm_num)
      (by norm_num) (by norm_num) (by norm_num)
  have h2 : roundFloat (1 - 1) = 0 :=
    roundFloat_zero (1 - 1) (by norm_num)
  rw [h1, h2]

theorem demoFar_edge12 :
    Vector2.sub32 demoTriangle.v2 demoTriangle.v1 = ⟨(-4), 4⟩ := by
  show (⟨roundFloat (1 - 5), roundFloat (5 - 1)⟩ : Vector2) = ⟨(-4), 4⟩
  have h1 : roundFloat (1 - 5) = (-4) :=
    roundFloat_neg (1 - 5) (-4) (2) (-8388608) (by norm_num) (by norm_num) (by norm_num)
      (by norm_num) (by norm_num) (by norm_num)
  have h2 : roundFloat (5 - 1) = 4 :=
    roundFloat_pos (5 - 1) 4 (2) (8388608) (by norm_num) (by norm_num) (by norm_num)
      (by norm_num) (by norm_num) (by norm_num)
  rw [h1, h2]

theorem demoFar_edge20 :
    Vector2.sub32 demoTriangle.v0 demoTriangle.v2 = ⟨0, (-4)⟩ := by
  show (⟨roundFloat (1 - 1), roundFloat (1 - 5)⟩ : Vector2) = ⟨0, (-4)⟩
  have h1 : roundFloat (1 - 1) = 0 :=
    roundFloat_zero (1 - 1) (by norm_num)
  have h2 : roundFloat (1 - 5) = (-4) :=
    roundFloat_neg (1 - 5) (-4) (2) (-8388608) (by norm_num) (by norm_num) (by norm_num)
      (by norm_num) (by norm_num) (by norm_num)
  rw [h1, h2]

theorem demoFar_point0 :
    Vector2.sub32 (curPixel 1 1) demoTriangle.v0 = ⟨0, 0⟩ := by
  show (⟨roundFloat (((1 : ℕ) : ℚ) - 1), roundFloat (((1 : ℕ) : ℚ) - 1)⟩ : Vector2) = ⟨0, 0⟩
  have h1 : roundFloat (((1 : ℕ) : ℚ) - 1) = 0 :=
    roundFloat_zero (((1 : ℕ) : ℚ) - 1) (by norm_num)
  rw [h1]

theorem demoFar_point1 :
    Vector2.sub32 (curPixel 1 1) demoTriangle.v1 = ⟨(-4), 0⟩ := by
  show (⟨roundFloat (((1 : ℕ) : ℚ) - 5), roundFloat (((1 : ℕ) : ℚ) - 1)⟩ : Vector2) = ⟨(-4), 0⟩
  have h1 : roundFloat (((1 : ℕ) : ℚ) - 5) = (-4) :=
    roundFloat_neg (((1 : ℕ) : ℚ) - 5) (-4) (2) (-8388608) (by norm_num) (by norm_num)
      (by norm_num) (by norm_num) (by norm_num) (by norm_num)
  have h2 : roundFloat (((1 : ℕ) : ℚ) - 1) = 0 :=
    roundFloat_zero (((1 : ℕ) : ℚ) - 1) (by norm_num)
  rw [h1, h2]

theorem demoFar_point2 :
    Vector2.sub32 (curPixel 1 1) demoTriangle.v2 = ⟨0, (-4)⟩ := by
  show (⟨roundFloat (((1 : ℕ) : ℚ) - 1), roundFloat (((1 : ℕ) : ℚ) - 5)⟩ : Vector2) = ⟨0, (-4)⟩
  have h1 : roundFloat (((1 : ℕ) : ℚ) - 1) = 0 :=
    roundFloat_zero (((1 : ℕ) : ℚ) - 1) (by norm_num)
  have h2 : roundFloat (((1 : ℕ) : ℚ) - 5) = (-4) :=
    roundFloat_neg (((1 : ℕ) : ℚ) - 5) (-4) (2) (-8388608) (by norm_num) (by norm_num)
      (by norm_num) (by norm_num) (by norm_num) (by norm_num)
  rw [h1, h2]

theorem demoFar_crossArea :
    Vector2.Cross32 ⟨4, 0⟩ ⟨(-4), 4⟩ = 16 := by
  show roundFloat (roundFloat (4 * 4) - roundFloat (0 * (-4))) = 16
  have h1 : roundFloat (4 * 4) = 16 :=
    roundFloat_pos (4 * 4) 16 (4) (8388608) (by norm_num) (by norm_num) (by norm_num)
      (by norm_num) (by norm_num) (by norm_num)
  have h2 : roundFloat (0 * (-4)) = 0 :=
    roundFloat_zero (0 * (-4)) (by norm_num)
  have g1 : roundFloat (16 - 0) = 16 :=
    roundFloat_pos (16 - 0) 16 (4) (8388608) (by norm_num) (by norm_num) (by norm_num)
      (by norm_num) (by norm_num) (by norm_num)
  rw [h1, h2, g1]

theorem demoFar_cross01 :
    Vector2.Cross32 ⟨4, 0⟩ ⟨0, 0⟩ = 0 := by
  show roundFloat (roundFloat (4 * 0) - roundFloat (0 * 0)) = 0
  have h1 : roundFloat (4 * 0) = 0 :=
    roundFloat_zero (4 * 0) (by norm_num)
  have h2 : roundFloat (0 * 0) = 0 :=
    roundFloat_zero (0 * 0) (by norm_num)
  have g1 : roundFloat (0 - 0) = 0 :=
    roundFloat_zero (0 - 0) (by norm_num)
  rw [h1, h2, g1]

theorem demoFar_cross12 :
    Vector2.Cross32 ⟨(-4), 4⟩ ⟨(-4), 0⟩ = 16 := by
  show roundFloat (roundFloat ((-4) * 0) - roundFloat (4 * (-4))) = 16
  have h1 : roundFloat ((-4) * 0) = 0 :=
    roundFloat_zero ((-4) * 0) (by norm_num)
  have h2 : roundFloat (4 * (-4)) = (-16) :=
    roundFloat_neg (4 * (-4)) (-16) (4) (-8388608) (by norm_num) (by norm_num) (by norm_num)
      (by norm_num) (by norm_num) (by norm_num)
  have g1 : roundFloat (0 - (-16)) = 16 :=
    roundFloat_pos (0 - (-16)) 16 (4) (8388608) (by norm_num) (by norm_num) (by norm_num)
      (by norm_num) (by norm_num) (by norm_num)
  rw [h1, h2, g1]

theorem demoFar_cross20 :
    Vector2.Cross32 ⟨0, (-4)⟩ ⟨0, (-4)⟩ = 0 := by
  show roundFloat (roundFloat (0 * (-4)) - roundFloat ((-4) * 0)) = 0
  have h1 : roundFloat (0 * (-4)) = 0 :=
    roundFloat_zero (0 * (-4)) (by norm_num)
  have h2 : roundFloat ((-4) * 0) = 0 :=
    roundFloat_zero ((-4) * 0) (by norm_num)
  have g1 : roundFloat (0 - 0) = 0 :=
    roundFloat_zero (0 - 0) (by norm_num)
  rw [h1, h2, g1]

theorem demoFar_area : demoTriangle.fullTriangleArea32 = 16 := by
  unfold Triangle.fullTriangleArea32
  rw [demoFar_edge01, demoFar_edge12, demoFar_crossArea]

theorem demoFar_edge01PointCross :
    demoTriangle.edge01PointCross32 1 1 = 0 := by
  unfold Triangle.edge01PointCross32
  rw [demoFar_edge01, demoFar_point0, demoFar_cross01]

theorem demoFar_edge12PointCross :
    demoTriangle.edge12PointCross32 1 1 = 16 := by
  unfold Triangle.edge12PointCross32
  rw [demoFar_edge12, demoFar_point1, demoFar_cross12]

theorem demoFar_edge20PointCross :
    demoTriangle.edge20PointCross32 1 1 = 0 := by
  unfold Triangle.edge20PointCross32
  rw [demoFar_edge20, demoFar_point2, demoFar_cross20]

theorem demoFar_weightV0 :
    demoTriangle.weightV0_32 1 1 = .finite 1 := by
  unfold Triangle.weightV0_32
  rw [demoFar_edge12PointCross, demoFar_area]
  exact
    Binary32.div_finite _ _ _ (by norm_num)
      (roundFloat_pos (16 / 16) 1 (0) (8388608) (by norm_num) (by norm_num) (by norm_num) (by norm_num) (by norm_num) (by norm_num))
      (by norm_num [FLT_MAX]) (by norm_num [FLT_MAX])

theorem demoFar_weightV1 :
    demoTriangle.weightV1_32 1 1 = .finite 0 := by
  unfold Triangle.weightV1_32
  rw [demoFar_edge20PointCross, demoFar_area]
  exact
    Binary32.div_finite _ _ _ (by norm_num) (roundFloat_zero (0 / 16) (by norm_num))
      (by norm_num [FLT_MAX]) (by norm_num [FLT_MAX])

theorem demoFar_weightV2 :
    demoTriangle.weightV2_32 1 1 = .finite 0 := by
  unfold Triangle.weightV2_32
  rw [demoFar_edge01PointCross, demoFar_area]
  exact
    Binary32.div_finite _ _ _ (by norm_num) (roundFloat_zero (0 / 16) (by norm_num))
      (by norm_num [FLT_MAX]) (by norm_num [FLT_MAX])

theorem demoFar_depth :
    demoTriangle.interpolatedZDepth32 1 1 = .finite (1 / 2) := by
  have hz0 : demoTriangle.o0.position.z = (1 / 2) := rfl
  have hz1 : demoTriangle.o1.position.z = (1 / 2) := rfl
  have hz2 : demoTriangle.o2.position.z = (1 / 2) := rfl
  have b1 : Binary32.div (.finite 1) (.finite (1 / 2)) = .finite 2 :=
    Binary32.div_finite _ _ _ (by norm_num)
      (roundFloat_pos (1 / (1 / 2)) 2 (1) (8388608) (by norm_num) (by norm_num) (by norm_num) (by norm_num) (by norm_num) (by norm_num))
      (by norm_num [FLT_MAX]) (by norm_num [FLT_MAX])
  have b2 : Binary32.div (.finite 0) (.finite (1 / 2)) = .finite 0 :=
    Binary32.div_finite _ _ _ (by norm_num) (roundFloat_zero (0 / (1 / 2)) (by norm_num))
      (by norm_num [FLT_MAX]) (by norm_num [FLT_MAX])
  have b3 : Binary32.add (.finite 2) (.finite 0) = .finite 2 :=
    Binary32.add_finite _ _ _
      (roundFloat_pos (2 + 0) 2 (1) (8388608) (by norm_num) (by norm_num) (by norm_num) (by norm_num) (by norm_num) (by norm_num))
      (by norm_num [FLT_MAX]) (by norm_num [FLT_MAX])
  have b4 : Binary32.div (.finite 1) (.finite 2) = .finite (1 / 2) :=
    Binary32.div_finite _ _ _ (by norm_num)
      (roundFloat_pos (1 / 2) (1 / 2) (-1) (8388608) (by norm_num) (by norm_num) (by norm_num) (by norm_num) (by norm_num) (by norm_num))
      (by norm_num [FLT_MAX]) (by norm_num [FLT_MAX])
  unfold Triangle.interpolatedZDepth32
  rw [demoFar_weightV0, demoFar_weightV1, demoFar_weightV2, hz0, hz1, hz2]
  simp only [b1, b2, b3, b4]

theorem demoNear32_area : demoTriangleNear.fullTriangleArea32 = 16 := demoFar_area

theorem demoNear32_edge01PointCross :
    demoTriangleNear.edge01PointCross32 1 1 = 0 := demoFar_edge01PointCross

theorem demoNear32_edge12PointCross :
    demoTriangleNear.edge12PointCross32 1 1 = 16 := demoFar_edge12PointCross

theorem demoNear32_edge20PointCross :
    demoTriangleNear.edge20PointCross32 1 1 = 0 := demoFar_edge20PointCross

theorem demoNear32_weightV0 :
    demoTriangleNear.weightV0_32 1 1 = .finite 1 := demoFar_weightV0

theorem demoNear32_weightV1 :
    demoTriangleNear.weightV1_32 1 1 = .finite 0 := demoFar_weightV1

theorem demoNear32_weightV2 :
    demoTriangleNear.weightV2_32 1 1 = .finite 0 := demoFar_weightV2

theorem demoNear32_depth :
    demoTriangleNear.interpolatedZDepth32 1 1 = .finite (1 / 4) := by
  have hz0 : demoTriangleNear.o0.position.z = (1 / 4) := rfl
  have hz1 : demoTriangleNear.o1.position.z = (1 / 4) := rfl
  have hz2 : demoTriangleNear.o2.position.z = (1 / 4) := rfl
  have b1 : Binary32.div (.finite 1) (.finite (1 / 4)) = .finite 4 :=
    Binary32.div_finite _ _ _ (by norm_num)
      (roundFloat_pos (1 / (1 / 4)) 4 (2) (8388608) (by norm_num) (by norm_num) (by norm_num) (by norm_num) (by norm_num) (by norm_num))
      (by norm_num [FLT_MAX]) (by norm_num [FLT_MAX])
  have b2 : Binary32.div (.finite 0) (.finite (1 / 4)) = .finite 0 :=
    Binary32.div_finite _ _ _ (by norm_num) (roundFloat_zero (0 / (1 / 4)) (by norm_num))
      (by norm_num [FLT_MAX]) (by norm_num [FLT_MAX])
  have b3 : Binary32.add (.finite 4) (.finite 0) = .finite 4 :=
    Binary32.add_finite _ _ _
      (roundFloat_pos (4 + 0) 4 (2) (8388608) (by norm_num) (by norm_num) (by norm_num) (by norm_num) (by norm_num) (by norm_num))
      (by norm_num [FLT_MAX]) (by norm_num [FLT_MAX])
  have b4 : Binary32.div (.finite 1) (.finite 4) = .finite (1 / 4) :=
    Binary32.div_finite _ _ _ (by norm_num)
      (roundFloat_pos (1 / 4) (1 / 4) (-2) (8388608) (by norm_num) (by norm_num) (by norm_num) (by norm_num) (by norm_num) (by norm_num))
      (by norm_num [FLT_MAX]) (by norm_num [FLT_MAX])
  unfold Triangle.interpolatedZDepth32
  rw [demoNear32_weightV0, demoNear32_weightV1, demoNear32_weightV2, hz0, hz1, hz2]
  simp only [b1, b2, b3, b4]

theorem nearPlane_area : demoTriangleOnNearPlane.fullTriangleArea32 = 16 := demoFar_area

theorem nearPlane_edge01PointCross :
    demoTriangleOnNearPlane.edge01PointCross32 1 1 = 0 := demoFar_edge01PointCross

theorem nearPlane_edge12PointCross :
    demoTriangleOnNearPlane.edge12PointCross32 1 1 = 16 := demoFar_edge12PointCross

theorem nearPlane_edge20PointCross :
    demoTriangleOnNearPlane.edge20PointCross32 1 1 = 0 := demoFar_edge20PointCross

theorem nearPlane_weightV0 :
    demoTriangleOnNearPlane.weightV0_32 1 1 = .finite 1 := demoFar_weightV0

theorem nearPlane_weightV1 :
    demoTriangleOnNearPlane.weightV1_32 1 1 = .finite 0 := demoFar_weightV1

theorem nearPlane_weightV2 :
    demoTriangleOnNearPlane.weightV2_32 1 1 = .finite 0 := demoFar_weightV2

theorem nearPlane_raster0 :
    CalculateNDCToRaster32 demoRenderer demoTriangleOnNearPlane.o0.position = demoTriangleOnNearPlane.v0 := by
  show (⟨roundFloat (roundFloat (roundFloat ((-3 / 4) + 1) / 2) * ((8 : ℕ) : ℚ)),
      roundFloat (roundFloat (roundFloat (1 - (3 / 4)) / 2) * ((8 : ℕ) : ℚ))⟩ : Vector2) =
    ⟨1, 1⟩
  have h1 : roundFloat ((-3 / 4) + 1) = (1 / 4) :=
    roundFloat_pos ((-3 / 4) + 1) (1 / 4) (-2) (8388608) (by norm_num) (by norm_num)
      (by norm_num) (by norm_num) (by norm_num) (by norm_num)
  have h2 : roundFloat ((1 / 4) / 2) = (1 / 8) :=
    roundFloat_pos ((1 / 4) / 2) (1 / 8) (-3) (8388608) (by norm_num) (by norm_num) (by norm_num)
      (by norm_num) (by norm_num) (by norm_num)
  have h3 : roundFloat ((1 / 8) * ((8 : ℕ) : ℚ)) = 1 :=
    roundFloat_pos ((1 / 8) * ((8 : ℕ) : ℚ)) 1 (0) (8388608) (by norm_num) (by norm_num)
      (by norm_num) (by norm_num) (by norm_num) (by norm_num)
  have h4 : roundFloat (1 - (3 / 4)) = (1 / 4) :=
    roundFloat_pos (1 - (3 / 4)) (1 / 4) (-2) (8388608) (by norm_num) (by norm_num) (by norm_num)
      (by norm_num) (by norm_num) (by norm_num)
  simp only [h1, h2, h3, h4]

theorem nearPlane_raster1 :
    CalculateNDCToRaster32 demoRenderer demoTriangleOnNearPlane.o1.position = demoTriangleOnNearPlane.v1 := by
  show (⟨roundFloat (roundFloat (roundFloat ((1 / 4) + 1) / 2) * ((8 : ℕ) : ℚ)),
      roundFloat (roundFloat (roundFloat (1 - (3 / 4)) / 2) * ((8 : ℕ) : ℚ))⟩ : Vector2) =
    ⟨5, 1⟩
  have h1 : roundFloat ((1 / 4) + 1) = (5 / 4) :=
    roundFloat_pos ((1 / 4) + 1) (5 / 4) (0) (10485760) (by norm_num) (by norm_num) (by norm_num)
      (by norm_num) (by norm_num) (by norm_num)
  have h2 : roundFloat ((5 / 4) / 2) = (5 / 8) :=
    roundFloat_pos ((5 / 4) / 2) (5 / 8) (-1) (10485760) (by norm_num) (by norm_num)
      (by norm_num) (by norm_num) (by norm_num) (by norm_num)
  have h3 : roundFloat ((5 / 8) * ((8 : ℕ) : ℚ)) = 5 :=
    roundFloat_pos ((5 / 8) * ((8 : ℕ) : ℚ)) 5 (2) (10485760) (by norm_num) (by norm_num)
      (by norm_num) (by norm_num) (by norm_num) (by norm_num)
  have h4 : roundFloat (1 - (3 / 4)) = (1 / 4) :=
    roundFloat_pos (1 - (3 / 4)) (1 / 4) (-2) (8388608) (by norm_num) (by norm_num) (by norm_num)
      (by norm_num) (by norm_num) (by norm_num)
  have h5 : roundFloat ((1 / 4) / 2) = (1 / 8) :=
    roundFloat_pos ((1 / 4) / 2) (1 / 8) (-3) (8388608) (by norm_num) (by norm_num) (by norm_num)
      (by norm_num) (by norm_num) (by norm_num)
  have h6 : roundFloat ((1 / 8) * ((8 : ℕ) : ℚ)) = 1 :=
    roundFloat_pos ((1 / 8) * ((8 : ℕ) : ℚ)) 1 (0) (8388608) (by norm_num) (by norm_num)
      (by norm_num) (by norm_num) (by norm_num) (by norm_num)
  simp only [h1, h2, h3, h4, h5, h6]

theorem nearPlane_raster2 :
    CalculateNDCToRaster32 demoRenderer demoTriangleOnNearPlane.o2.position = demoTriangleOnNearPlane.v2 := by
  show (⟨roundFloat (roundFloat (roundFloat ((-3 / 4) + 1) / 2) * ((8 : ℕ) : ℚ)),
      roundFloat (roundFloat (roundFloat (1 - (-1 / 4)) / 2) * ((8 : ℕ) : ℚ))⟩ : Vector2) =
    ⟨1, 5⟩
  have h1 : roundFloat ((-3 / 4) + 1) = (1 / 4) :=
    roundFloat_pos ((-3 / 4) + 1) (1 / 4) (-2) (8388608) (by norm_num) (by norm_num)
      (by norm_num) (by norm_num) (by norm_num) (by norm_num)
  have h2 : roundFloat ((1 / 4) / 2) = (1 / 8) :=
    roundFloat_pos ((1 / 4) / 2) (1 / 8) (-3) (8388608) (by norm_num) (by norm_num) (by norm_num)
      (by norm_num) (by norm_num) (by norm_num)
  have h3 : roundFloat ((1 / 8) * ((8 : ℕ) : ℚ)) = 1 :=
    roundFloat_pos ((1 / 8) * ((8 : ℕ) : ℚ)) 1 (0) (8388608) (by norm_num) (by norm_num)
      (by norm_num) (by norm_num) (by norm_num) (by norm_num)
  have h4 : roundFloat (1 - (-1 / 4)) = (5 / 4) :=
    roundFloat_pos (1 - (-1 / 4)) (5 / 4) (0) (10485760) (by norm_num) (by norm_num)
      (by norm_num) (by norm_num) (by norm_num) (by norm_num)
  have h5 : roundFloat ((5 / 4) / 2) = (5 / 8) :=
    roundFloat_pos ((5 / 4) / 2) (5 / 8) (-1) (10485760) (by norm_num) (by norm_num)
      (by norm_num) (by norm_num) (by norm_num) (by norm_num)
  have h6 : roundFloat ((5 / 8) * ((8 : ℕ) : ℚ)) = 5 :=
    roundFloat_pos ((5 / 8) * ((8 : ℕ) : ℚ)) 5 (2) (10485760) (by norm_num) (by norm_num)
      (by norm_num) (by norm_num) (by norm_num) (by norm_num)
  simp only [h1, h2, h3, h4, h5, h6]

theorem Binary32.add_nan (a : Binary32) : Binary32.add a .nan = .nan := by
  cases a <;> rfl

theorem Binary32.div_nan (a : Binary32) : Binary32.div a .nan = .nan := by
  cases a <;> rfl

theorem Binary32.lt_nan (a : Binary32) : Binary32.lt a .nan = false := by
  cases a <;> rfl

theorem Binary32.nan_lt (a : Binary32) : Binary32.lt .nan a = false := by
  cases a <;> rfl

theorem cullRejects_back_front (isBackFaceHit : Bool) :
    cullRejects CullMode.Back true isBackFaceHit = false := by
  cases isBackFaceHit <;> rfl

theorem scanPixel32_store (r : SoftwareRenderer) (t : Triangle) (colour : Nat)
    (entry : Binary32 × Nat) (px py : Nat)
    (hcull : cullRejects r.m_CullMode (t.isFrontFaceHit32 px py) (t.isBackFaceHit32 px py) =
      false)
    (hdepth : depthTestSkips entry.1 (t.interpolatedZDepth32 px py) = false) :
    scanPixel32 r t colour entry px py = (t.interpolatedZDepth32 px py, colour) := by
  unfold scanPixel32
  rw [hcull, hdepth]
  rfl

/-- The depth test never skips a depth that is not greater than the stored
number, the reset value included. -/
theorem depthTestSkips_finite (stored interpolated : ℚ) (h : interpolated ≤ stored) :
    depthTestSkips (.finite stored) (.finite interpolated) = false := by
  unfold depthTestSkips Binary32.lt
  simp only [decide_eq_false_iff_not, not_lt]
  exact h

theorem demoFar_front : demoTriangle.isFrontFaceHit32 1 1 = true := by
  unfold Triangle.isFrontFaceHit32
  rw [demoFar_edge01PointCross, demoFar_edge12PointCross, demoFar_edge20PointCross]
  unfold frontFaceHit
  norm_num

theorem demoNear32_front : demoTriangleNear.isFrontFaceHit32 1 1 = true := demoFar_front

theorem nearPlane_front : demoTriangleOnNearPlane.isFrontFaceHit32 1 1 = true := demoFar_front

/-- At the first vertex of the triangle on the near plane the weight of the
third vertex is 0 and its depth is 0: the quotient `0 / 0` is a NaN, and so is
the interpolated depth. -/
theorem nearPlane_depth : demoTriangleOnNearPlane.interpolatedZDepth32 1 1 = .nan := by
  have hz2 : demoTriangleOnNearPlane.o2.position.z = 0 := rfl
  unfold Triangle.interpolatedZDepth32
  rw [nearPlane_weightV2, hz2, Binary32.div_zero_zero, Binary32.add_nan, Binary32.div_nan]

theorem demo_scanPixel32 (t : Triangle) (colour : Nat) (entry : Binary32 × Nat)
    (hfront : t.isFrontFaceHit32 1 1 = true)
    (hdepth : depthTestSkips entry.1 (t.interpolatedZDepth32 1 1) = false) :
    scanPixel32 demoRenderer t colour entry 1 1 = (t.interpolatedZDepth32 1 1, colour) := by
  refine scanPixel32_store demoRenderer t colour entry 1 1 ?_ hdepth
  rw [hfront]
  exact cullRejects_back_front _

/-- A demo vertex with `x`, `y` in `[-1, 1]` and `z` in `[0, 1]` passes the
frustum test, the near plane `z = 0` included. -/
theorem demoVertex_inside (x y z : ℚ) (h1 : -1 ≤ x) (h2 : x ≤ 1) (h3 : -1 ≤ y) (h4 : y ≤ 1)
    (h5 : 0 ≤ z) (h6 : z ≤ 1) : IsOutsideFrustum (demoVertex x y z).position = false := by
  unfold IsOutsideFrustum demoVertex
  simp only [Bool.or_eq_false_iff, decide_eq_false_iff_not, not_lt, gt_iff_lt]
  exact ⟨⟨⟨⟨⟨h1, h2⟩, h3⟩, h4⟩, h5⟩, h6⟩

theorem nearPlane_inside :
    IsOutsideFrustum demoTriangleOnNearPlane.o0.position = false ∧
      IsOutsideFrustum demoTriangleOnNearPlane.o1.position = false ∧
      IsOutsideFrustum demoTriangleOnNearPlane.o2.position = false :=
  ⟨demoVertex_inside _ _ _ (by norm_num) (by norm_num) (by norm_num) (by norm_num)
      (by norm_num) (by norm_num),
    demoVertex_inside _ _ _ (by norm_num) (by norm_num) (by norm_num) (by norm_num)
      (by norm_num) (by norm_num),
    demoVertex_inside _ _ _ (by norm_num) (by norm_num) (by norm_num) (by norm_num)
      (by norm_num) (by norm_num)⟩

/-! ## Rasterization stage: the depth test in binary32 -/

/-- C5: the depth test lets a NaN through. The triangle with a vertex on the
near plane (post-divide `z = 0`, inside the clip volume for `IsOutsideFrustum`)
has the interpolated depth `0 / 0 = NaN` at the pixel `(1, 1)`. Drawn over the
depth `1/4`, it is not skipped (`1/4 < NaN` is false) and NaN is stored; the
next triangle, at depth `1/2`, is not skipped either (`NaN < 1/2` is false):
the entry goes `1/4`, NaN, `1/2`, so it is not `min(old, interpolated)` and it
has increased within the frame. -/
theorem C5_nan_depth_is_stored_and_overwritten :
    IsOutsideFrustum demoTriangleOnNearPlane.o0.position = false ∧
      IsOutsideFrustum demoTriangleOnNearPlane.o1.position = false ∧
      IsOutsideFrustum demoTriangleOnNearPlane.o2.position = false ∧
      CalculateNDCToRaster32 demoRenderer demoTriangleOnNearPlane.o0.position =
        demoTriangleOnNearPlane.v0 ∧
      CalculateNDCToRaster32 demoRenderer demoTriangleOnNearPlane.o1.position =
        demoTriangleOnNearPlane.v1 ∧
      CalculateNDCToRaster32 demoRenderer demoTriangleOnNearPlane.o2.position =
        demoTriangleOnNearPlane.v2 ∧
      demoTriangleOnNearPlane.o2.position.z = 0 ∧
      demoTriangleOnNearPlane.fullTriangleArea32 = 16 ∧
      demoTriangleOnNearPlane.isFrontFaceHit32 1 1 = true ∧
      demoTriangleOnNearPlane.weightV2_32 1 1 = .finite 0 ∧
      demoTriangleOnNearPlane.interpolatedZDepth32 1 1 = .nan ∧
      ∀ c0 c1 c2 c3 : Nat,
        scanPixel32 demoRenderer demoTriangleNear c1 (.finite FLT_MAX, c0) 1 1 =
            (.finite (1 / 4), c1) ∧
          scanPixel32 demoRenderer demoTriangleOnNearPlane c2 (.finite (1 / 4), c1) 1 1 =
            (.nan, c2) ∧
          scanPixel32 demoRenderer demoTriangle c3 (.nan, c2) 1 1 = (.finite (1 / 2), c3) ∧
          Binary32.lt (.finite (1 / 4)) (.finite (1 / 2)) = true := by
  refine ⟨nearPlane_inside.1, nearPlane_inside.2.1, nearPlane_inside.2.2, nearPlane_raster0,
    nearPlane_raster1, nearPlane_raster2, rfl, nearPlane_area, nearPlane_front,
    nearPlane_weightV2, nearPlane_depth, ?_⟩
  intro c0 c1 c2 c3
  refine ⟨?_, ?_, ?_, ?_⟩
  · rw [demo_scanPixel32 demoTriangleNear c1 _ demoNear32_front
      (by rw [demoNear32_depth]; exact depthTestSkips_finite _ _ quarter_le_FLT_MAX),
      demoNear32_depth]
  · rw [demo_scanPixel32 demoTriangleOnNearPlane c2 _ nearPlane_front
      (by rw [nearPlane_depth]; exact Binary32.lt_nan _), nearPlane_depth]
  · rw [demo_scanPixel32 demoTriangle c3 _ demoFar_front
      (by rw [demoFar_depth]; exact Binary32.nan_lt _), demoFar_depth]
  · unfold Binary32.lt
    norm_num

/-- C6: with a NaN depth the order of submission decides. The nearer demo
triangle (depth `1/4` at the pixel `(1, 1)`) and the triangle with a vertex on
the near plane (interpolated depth NaN there) both pass the cull test at the
pixel. From the reset entry, nearer first leaves NaN and the colour of the
other triangle; nearer last leaves `1/4` and the colour of the nearer one. -/
theorem C6_nan_depth_makes_the_order_matter :
    IsOutsideFrustum demoTriangleOnNearPlane.o0.position = false ∧
      IsOutsideFrustum demoTriangleOnNearPlane.o1.position = false ∧
      IsOutsideFrustum demoTriangleOnNearPlane.o2.position = false ∧
      demoTriangleNear.isFrontFaceHit32 1 1 = true ∧
      demoTriangleOnNearPlane.isFrontFaceHit32 1 1 = true ∧
      demoTriangleNear.interpolatedZDepth32 1 1 = .finite (1 / 4) ∧
      demoTriangleOnNearPlane.interpolatedZDepth32 1 1 = .nan ∧
      ∀ c0 cNear cPlane : Nat,
        scanPixel32 demoRenderer demoTriangleOnNearPlane cPlane
            (scanPixel32 demoRenderer demoTriangleNear cNear (.finite FLT_MAX, c0) 1 1) 1 1 =
            (.nan, cPlane) ∧
          scanPixel32 demoRenderer demoTriangleNear cNear
            (scanPixel32 demoRenderer demoTriangleOnNearPlane cPlane (.finite FLT_MAX, c0) 1 1)
            1 1 = (.finite (1 / 4), cNear) := by
  refine ⟨nearPlane_inside.1, nearPlane_inside.2.1, nearPlane_inside.2.2, demoNear32_front,
    nearPlane_front, demoNear32_depth, nearPlane_depth, ?_⟩
  intro c0 cNear cPlane
  have hnear : ∀ entry : Binary32 × Nat,
      depthTestSkips entry.1 (demoTriangleNear.interpolatedZDepth32 1 1) = false →
      scanPixel32 demoRenderer demoTriangleNear cNear entry 1 1 = (.finite (1 / 4), cNear) := by
    intro entry h
    rw [demo_scanPixel32 demoTriangleNear cNear entry demoNear32_front h, demoNear32_depth]
  have hplane : ∀ entry : Binary32 × Nat,
      scanPixel32 demoRenderer demoTriangleOnNearPlane cPlane entry 1 1 = (.nan, cPlane) := by
    intro entry
    rw [demo_scanPixel32 demoTriangleOnNearPlane cPlane entry nearPlane_front
      (by rw [nearPlane_depth]; exact Binary32.lt_nan _), nearPlane_depth]
  refine ⟨hplane _, ?_⟩
  rw [hplane]
  exact hnear _ (Binary32.nan_lt _)

/-- C7, amended: when the loop body of `RenderTriangle` stores at a pixel, and
neither the stored depth nor the interpolated depth is a NaN, the depth it
stores is less than or equal to the one it replaces, and it comes with the
pixel's colour. A depth equal to the stored one is not skipped: it is stored
again. -/
theorem C7_depth_write_not_farther (r : SoftwareRenderer) (t : Triangle) (colour : Nat)
    (entry : Binary32 × Nat) (px py : Nat) (hstored : entry.1 ≠ .nan)
    (hinterp : t.interpolatedZDepth32 px py ≠ .nan)
    (hstore : storesAt32 r t entry.1 px py = true) :
    scanPixel32 r t colour entry px py = (t.interpolatedZDepth32 px py, colour) ∧
      Binary32.le (t.interpolatedZDepth32 px py) entry.1 = true ∧
      Binary32.lt entry.1 (t.interpolatedZDepth32 px py) = false ∧
      (∀ d : Binary32, depthTestSkips d d = false) := by
  unfold storesAt32 at hstore
  simp only [Bool.and_eq_true, Bool.not_eq_true'] at hstore
  obtain ⟨hcull, hdepth⟩ := hstore
  have hself : ∀ d : Binary32, depthTestSkips d d = false := by
    intro d
    cases d <;> simp [depthTestSkips, Binary32.lt]
  refine ⟨scanPixel32_store r t colour entry px py hcull hdepth, ?_, hdepth, hself⟩
  unfold depthTestSkips at hdepth
  revert hdepth hstored hinterp
  generalize t.interpolatedZDepth32 px py = d
  generalize entry.1 = s
  intro hs hd hlt
  cases s <;> cases d <;> simp_all [Binary32.lt, Binary32.le]

/-- C7, an instance of the amended statement: the demo triangle drawn over its
own depth `1/2` at the pixel `(1, 1)` stores `1/2` again. -/
theorem C7_depth_write_not_farther_witness :
    demoTriangle.interpolatedZDepth32 1 1 = .finite (1 / 2) ∧
      storesAt32 demoRenderer demoTriangle (.finite (1 / 2)) 1 1 = true ∧
      scanPixel32 demoRenderer demoTriangle 7 (.finite (1 / 2), 3) 1 1 = (.finite (1 / 2), 7) ∧
      Binary32.le (.finite (1 / 2)) (.finite (1 / 2)) = true := by
  have hstore : storesAt32 demoRenderer demoTriangle (.finite (1 / 2)) 1 1 = true := by
    unfold storesAt32
    rw [demoFar_front, demoFar_depth, show demoRenderer.m_CullMode = CullMode.Back from rfl,
      cullRejects_back_front, depthTestSkips_finite _ _ (le_refl _)]
    rfl
  have hd : demoTriangle.interpolatedZDepth32 1 1 ≠ .nan := by
    rw [demoFar_depth]
    exact fun h => Binary32.noConfusion h
  have h := C7_depth_write_not_farther demoRenderer demoTriangle 7 (.finite (1 / 2), 3) 1 1
    (fun h => Binary32.noConfusion h) hd hstore
  rw [demoFar_depth] at h
  exact ⟨demoFar_depth, hstore, h.1, h.2.1⟩

/-! ## Rasterization stage: rounding in the cull test and the interpolation -/

theorem frontFaceHit_iff (e01 e12 e20 : ℚ) :
    frontFaceHit e01 e12 e20 = true ↔ 0 ≤ e01 ∧ 0 ≤ e12 ∧ 0 ≤ e20 := by
  unfold frontFaceHit
  simp only [ge_iff_le, Bool.and_eq_true, decide_eq_true_eq, and_assoc]

theorem backFaceHit_iff (e01 e12 e20 : ℚ) :
    backFaceHit e01 e12 e20 = true ↔ e01 ≤ 0 ∧ e12 ≤ 0 ∧ e20 ≤ 0 := by
  unfold backFaceHit
  simp only [Bool.and_eq_true, decide_eq_true_eq, and_assoc]

/-- On an edge, the two flags as functions of the three edge values. -/
theorem edge_pixel_flags (e01 e12 e20 : ℚ) (hedge : e01 = 0 ∨ e12 = 0 ∨ e20 = 0) :
    ((frontFaceHit e01 e12 e20 = true ∧ backFaceHit e01 e12 e20 = true) ↔
        e01 = 0 ∧ e12 = 0 ∧ e20 = 0) ∧
      ((e01 = 0 ∧ (frontFaceHit e01 e12 e20 = true ↔ 0 ≤ e12 ∧ 0 ≤ e20) ∧
          (backFaceHit e01 e12 e20 = true ↔ e12 ≤ 0 ∧ e20 ≤ 0)) ∨
        (e12 = 0 ∧ (frontFaceHit e01 e12 e20 = true ↔ 0 ≤ e01 ∧ 0 ≤ e20) ∧
          (backFaceHit e01 e12 e20 = true ↔ e01 ≤ 0 ∧ e20 ≤ 0)) ∨
        (e20 = 0 ∧ (frontFaceHit e01 e12 e20 = true ↔ 0 ≤ e01 ∧ 0 ≤ e12) ∧
          (backFaceHit e01 e12 e20 = true ↔ e01 ≤ 0 ∧ e12 ≤ 0))) := by
  refine ⟨?_, ?_⟩
  · rw [frontFaceHit_iff, backFaceHit_iff]
    constructor
    · rintro ⟨⟨h1, h2, h3⟩, h4, h5, h6⟩
      exact ⟨le_antisymm h4 h1, le_antisymm h5 h2, le_antisymm h6 h3⟩
    · rintro ⟨h1, h2, h3⟩
      rw [h1, h2, h3]
      exact ⟨⟨le_refl _, le_refl _, le_refl _⟩, le_refl _, le_refl _, le_refl _⟩
  · rcases hedge with h0 | h0 | h0
    · refine Or.inl ⟨h0, ?_⟩
      rw [frontFaceHit_iff, backFaceHit_iff, h0]
      exact ⟨⟨fun h => ⟨h.2.1, h.2.2⟩, fun h => ⟨le_refl _, h.1, h.2⟩⟩,
        ⟨fun h => ⟨h.2.1, h.2.2⟩, fun h => ⟨le_refl _, h.1, h.2⟩⟩⟩
    · refine Or.inr (Or.inl ⟨h0, ?_⟩)
      rw [frontFaceHit_iff, backFaceHit_iff, h0]
      exact ⟨⟨fun h => ⟨h.1, h.2.2⟩, fun h => ⟨h.1, le_refl _, h.2⟩⟩,
        ⟨fun h => ⟨h.1, h.2.2⟩, fun h => ⟨h.1, le_refl _, h.2⟩⟩⟩
    · refine Or.inr (Or.inr ⟨h0, ?_⟩)
      rw [frontFaceHit_iff, backFaceHit_iff, h0]
      exact ⟨⟨fun h => ⟨h.1, h.2.1⟩, fun h => ⟨h.1, h.2, le_refl _⟩⟩,
        ⟨fun h => ⟨h.1, h.2.1⟩, fun h => ⟨h.1, h.2, le_refl _⟩⟩⟩

/-- In exact arithmetic as well, the flags of a pixel on an edge are decided by
the other two edge values. -/
theorem edge_pixel_flags_exact (t : Triangle) (px py : Nat)
    (hedge : t.edge01PointCross px py = 0 ∨ t.edge12PointCross px py = 0 ∨
      t.edge20PointCross px py = 0) :
    (t.isFrontFaceHit px py = true ∧ t.isBackFaceHit px py = true) ↔
      t.edge01PointCross px py = 0 ∧ t.edge12PointCross px py = 0 ∧
        t.edge20PointCross px py = 0 :=
  (edge_pixel_flags _ _ _ hedge).1

/-- C22, amended: for a pixel exactly on an edge (one of the three edge values
`RenderTriangle` computes there, in binary32, is 0), `isFrontFaceHit` is true
exactly when the other two edge values are `>= 0` and `isBackFaceHit` exactly
when they are `<= 0`. The pixel is claimed by both classifications exactly when
all three edge values are 0. -/
theorem C22_edge_pixel_classification (t : Triangle) (px py : Nat)
    (hedge : t.edge01PointCross32 px py = 0 ∨ t.edge12PointCross32 px py = 0 ∨
      t.edge20PointCross32 px py = 0) :
    ((t.isFrontFaceHit32 px py = true ∧ t.isBackFaceHit32 px py = true) ↔
        t.edge01PointCross32 px py = 0 ∧ t.edge12PointCross32 px py = 0 ∧
          t.edge20PointCross32 px py = 0) ∧
      ((t.edge01PointCross32 px py = 0 ∧
          (t.isFrontFaceHit32 px py = true ↔
            0 ≤ t.edge12PointCross32 px py ∧ 0 ≤ t.edge20PointCross32 px py) ∧
          (t.isBackFaceHit32 px py = true ↔
            t.edge12PointCross32 px py ≤ 0 ∧ t.edge20PointCross32 px py ≤ 0)) ∨
        (t.edge12PointCross32 px py = 0 ∧
          (t.isFrontFaceHit32 px py = true ↔
            0 ≤ t.edge01PointCross32 px py ∧ 0 ≤ t.edge20PointCross32 px py) ∧
          (t.isBackFaceHit32 px py = true ↔
            t.edge01PointCross32 px py ≤ 0 ∧ t.edge20PointCross32 px py ≤ 0)) ∨
        (t.edge20PointCross32 px py = 0 ∧
          (t.isFrontFaceHit32 px py = true ↔
            0 ≤ t.edge01PointCross32 px py ∧ 0 ≤ t.edge12PointCross32 px py) ∧
          (t.isBackFaceHit32 px py = true ↔
            t.edge01PointCross32 px py ≤ 0 ∧ t.edge12PointCross32 px py ≤ 0))) :=
  edge_pixel_flags _ _ _ hedge

/-- C22, an instance of the amended statement: the pixel `(1, 1)` of the demo
triangle, its first vertex, has the edge values 0, 16 and 0: a front-face hit
and no back-face hit. -/
theorem C22_edge_pixel_classification_witness :
    demoTriangle.edge01PointCross32 1 1 = 0 ∧ demoTriangle.edge12PointCross32 1 1 = 16 ∧
      demoTriangle.edge20PointCross32 1 1 = 0 ∧
      demoTriangle.isFrontFaceHit32 1 1 = true ∧
      ¬ (demoTriangle.isFrontFaceHit32 1 1 = true ∧ demoTriangle.isBackFaceHit32 1 1 = true) := by
  have h := C22_edge_pixel_classification demoTriangle 1 1 (Or.inl demoFar_edge01PointCross)
  refine ⟨demoFar_edge01PointCross, demoFar_edge12PointCross, demoFar_edge20PointCross,
    demoFar_front, ?_⟩
  rw [h.1, demoFar_edge12PointCross]
  norm_num

/-! ## Frames without triangles: the triangle list -/

end dae
